import Mathlib

/-!
# MultiImageReconstructor::Reconstruct

A shallow embedding of `MultiImageReconstructor<Constraint>::Reconstruct`
(src/multiimagereconstructor.h, lines 160-495) and of the pieces it is made of.

Conventions of the embedding.

* `double` values are rational numbers (`ℚ`); infinities and NaN are not modelled.  The
  arithmetic of the identity centroid (lines 297-302) rounds every result to the nearest
  `double` (`roundDouble`); the other arithmetic of the header (the counter in `opt_params`, the
  midpoints of the pupils and the weights of the residual blocks) is exact.
* `VectorXd` is a list of numbers, `MatrixXd` the list of its columns.
* An access `v[i]` to a `std::vector` is `v[i]?`; a function in which such an access can be out
  of range returns `Option`, and `none` stands for the out-of-range access.  The same holds for
  Eigen assignments whose two sides must have the same number of rows, and for the quotient
  `0 / 0` of the centroid of an empty consistent set, which is not a number.
* Everything the header only includes (mesh, camera, tensor model, the single image
  reconstructor, ceres, glm, `std::sort`) is a field of `Externals`: the controller is a function
  of these collaborators and nothing is assumed about them beyond what a theorem states.
* Console output is left out.  The calls that write to the file system or render do not
  influence the computation and are left out of `Reconstruct`; they are listed by `outputCalls`,
  and `ReconstructWithOutput` is the run in which such a call can throw.
* The functions that embed a stage also return a record of what the stage did (`FitRecord`,
  `RoundRecord`, `MacroRecord`); the records do not influence the computation.
-/

namespace MultilinearReconstruction

/-! ## Data -/

/-- Eigen `VectorXd`. -/
abbrev VectorXd := List ℚ

/-- Eigen `MatrixXd`, stored as the list of its columns. -/
abbrev MatrixXd := List VectorXd

/-- Eigen `Vector3d`; the source reads the components `[0]`, `[1]`, `[2]`. -/
structure Vector3d where
  x0 : ℚ
  x1 : ℚ
  x2 : ℚ
deriving DecidableEq, Repr

/-- The template argument `Constraint`; the header reads the members `data` and `vidx`. -/
structure Constraint where
  data : ℚ × ℚ
  vidx : ℤ
deriving DecidableEq, Repr

/-- The members of `ModelParameters` the header reads or writes. -/
structure ModelParameters where
  Wid : VectorXd
  Wexp : VectorXd
  Wexp_FACS : VectorXd
  R : Vector3d
  T : Vector3d
deriving DecidableEq, Repr

/-- The members of `OptimizationParameters` that appear in the sources. -/
structure OptimizationParameters where
  w_prior_id : ℚ
  d_w_prior_id : ℚ
  w_prior_exp : ℚ
  d_w_prior_exp : ℚ
  max_iters : ℤ
  num_initializations : ℤ
  perturbation_range : ℚ
  errorThreshold : ℚ
  errorDiffThreshold : ℚ
deriving DecidableEq, Repr

/-- The member of `ReconstructionStats` the header reads. -/
structure ReconstructionStats where
  avg_error : ℚ
deriving DecidableEq, Repr

/-- The members of `ReconstructionParameters<Constraint>` the header writes. -/
structure ReconstructionParameters where
  cons : List Constraint
  imageWidth : ℤ
  imageHeight : ℤ
deriving DecidableEq, Repr

/-- The members of `MultilinearModelPrior` the header reads. -/
structure MultilinearModelPrior where
  Uid : MatrixXd
  Uexp : MatrixXd
  Wid_avg : VectorXd
  inv_sigma_Wid : MatrixXd
  weight_Wid : ℚ
deriving DecidableEq, Repr

/-- Modelled from the spec: the enumeration `SingleImageReconstructor::OptimizationMode` is
declared in a header that is not among the sources.  The spec describes it as a flag selecting
which parameter groups are free (pose, expression, focal length, identity, in any combination);
a value is the set of the selected groups and `|` is their union. -/
structure OptimizationMode where
  pose : Bool
  expression : Bool
  focal_length : Bool
  identity : Bool
deriving DecidableEq, Repr

/-- The enumerator `Pose`. -/
def OptimizationMode.Pose : OptimizationMode := ⟨true, false, false, false⟩

/-- The enumerator `Expression`. -/
def OptimizationMode.Expression : OptimizationMode := ⟨false, true, false, false⟩

/-- The enumerator `FocalLength`. -/
def OptimizationMode.FocalLength : OptimizationMode := ⟨false, false, true, false⟩

/-- Bitwise or of two modes. -/
def OptimizationMode.or (a b : OptimizationMode) : OptimizationMode :=
  ⟨a.pose || b.pose, a.expression || b.expression, a.focal_length || b.focal_length,
    a.identity || b.identity⟩

/-- The arguments of one `IdentityCostFunction_analytic` residual block (lines 394-396). -/
structure IdentityCostFunction_analytic (Model Mat Cam : Type) where
  model : Model
  cons : Constraint
  params_size : ℕ
  Mview : Mat
  Rmat : Mat
  cam : Cam
  weight : ℚ

/-- The arguments of the `PriorCostFunction` residual block (lines 403-408). -/
structure PriorCostFunction where
  Wid_avg : VectorXd
  inv_sigma_Wid : MatrixXd
  weight : ℚ
  parameter_block_size : ℕ
  num_residuals : ℕ
deriving DecidableEq, Repr

/-- A residual block of the ceres problem; every block is attached to the one parameter block
`params.data()`. -/
inductive ResidualBlock (Model Mat Cam : Type) where
  | identity (c : IdentityCostFunction_analytic Model Mat Cam)
  | prior (c : PriorCostFunction)

/-- A `ceres::Problem`: the residual blocks in the order in which they were added. -/
abbrev Problem (Model Mat Cam : Type) := List (ResidualBlock Model Mat Cam)

/-- The collaborators of the controller.  Their code is not part of the sources; each one is a
parameter of the embedding. -/
structure Externals where
  /-- Type `BasicMesh`. -/
  BasicMesh : Type
  /-- Type `CameraParameters`. -/
  CameraParameters : Type
  /-- Type `MultilinearModel`. -/
  MultilinearModel : Type
  /-- Type `Tensor1`. -/
  Tensor1 : Type
  /-- Type `glm::dmat4`. -/
  dmat4 : Type
  /-- The state of a `SingleImageReconstructor<Constraint>`. -/
  Fitter : Type
  /-- Method `BasicMesh::UpdateVertices`. -/
  UpdateVertices : BasicMesh → Tensor1 → BasicMesh
  /-- Method `BasicMesh::ComputeNormals`. -/
  ComputeNormals : BasicMesh → BasicMesh
  /-- Function `CameraParameters::DefaultParameters(width, height)`. -/
  CameraDefaultParameters : ℤ → ℤ → CameraParameters
  /-- Function `ModelParameters::DefaultParameters(Uid, Uexp)`. -/
  ModelDefaultParameters : MatrixXd → MatrixXd → ModelParameters
  /-- Function `OptimizationParameters::Defaults()`. -/
  OptimizationDefaults : OptimizationParameters
  /-- The `OptimizationParameters` of a value-initialised `ParameterSet`. -/
  value_init_opt : OptimizationParameters
  /-- The `ReconstructionStats` of a value-initialised `ParameterSet`. -/
  value_init_stats : ReconstructionStats
  /-- Method `MultilinearModel::project`. -/
  project : MultilinearModel → List ℤ → MultilinearModel
  /-- Method `MultilinearModel::ApplyWeights`. -/
  ApplyWeights : MultilinearModel → VectorXd → VectorXd → MultilinearModel
  /-- Method `MultilinearModel::GetTM`. -/
  GetTM : MultilinearModel → Tensor1
  /-- Function `glm::eulerAngleYXZ`. -/
  eulerAngleYXZ : ℚ → ℚ → ℚ → dmat4
  /-- Function `glm::translate(glm::dmat4(1.0), glm::dvec3(x, y, z))`. -/
  translate : ℚ → ℚ → ℚ → dmat4
  /-- Product of two `glm::dmat4`. -/
  matmul : dmat4 → dmat4 → dmat4
  /-- Function `glm::distance` on two points of the image plane. -/
  distance : ℚ × ℚ → ℚ × ℚ → ℚ
  /-- Method `SingleImageReconstructor::SetMesh`. -/
  SetMesh : Fitter → BasicMesh → Fitter
  /-- Method `SingleImageReconstructor::SetIndices`. -/
  SetIndices : Fitter → List ℤ → Fitter
  /-- Method `SingleImageReconstructor::SetImageSize`. -/
  SetImageSize : Fitter → ℤ → ℤ → Fitter
  /-- Method `SingleImageReconstructor::SetConstraints`. -/
  SetConstraints : Fitter → List Constraint → Fitter
  /-- Method `SingleImageReconstructor::SetInitialParameters`. -/
  SetInitialParameters : Fitter → ModelParameters → CameraParameters → Fitter
  /-- Method `SingleImageReconstructor::SetIdentityPrior`. -/
  SetIdentityPrior : Fitter → VectorXd → Fitter
  /-- Method `SingleImageReconstructor::SetOptimizationMode`. -/
  SetOptimizationMode : Fitter → OptimizationMode → Fitter
  /-- Method `SingleImageReconstructor::Reconstruct`. -/
  FitterReconstruct : Fitter → OptimizationParameters → Fitter
  /-- Method `SingleImageReconstructor::GetGeometry`. -/
  GetGeometry : Fitter → Tensor1
  /-- Method `SingleImageReconstructor::GetModelParameters`. -/
  GetModelParameters : Fitter → ModelParameters
  /-- Method `SingleImageReconstructor::GetIndices`. -/
  GetIndices : Fitter → List ℤ
  /-- Method `SingleImageReconstructor::GetCameraParameters`. -/
  GetCameraParameters : Fitter → CameraParameters
  /-- Modelled from the spec: the accessor of the fitter for its fit statistics.  The header of
  the single image reconstructor is not among the sources and `Reconstruct` never calls such an
  accessor; the spec lists fit statistics among the results the fitter exposes, with the
  average residual error as the reported statistic. -/
  GetReconstructionStats : Fitter → ReconstructionStats
  /-- Function `ceres::Solve` with the options of lines 415-418: from the problem and the initial
  value of the parameter block to its value after the solve. -/
  Solve : Problem MultilinearModel dmat4 CameraParameters → VectorXd → VectorXd
  /-- Function `std::sort` with the comparator of lines 283-285. -/
  sort : List (ℕ × ℚ) → List (ℕ × ℚ)

/-- Struct `ParameterSet` (lines 130-139). -/
structure ParameterSet (E : Externals) where
  indices : List ℤ
  mesh : E.BasicMesh
  cam : E.CameraParameters
  model : ModelParameters
  recon : ReconstructionParameters
  opt : OptimizationParameters
  stats : ReconstructionStats

/-- A `QImage`, of which the header reads `width()` and `height()`. -/
structure QImage where
  width : ℤ
  height : ℤ
deriving DecidableEq, Repr

/-- The data members of `MultiImageReconstructor` that `Reconstruct` reads or writes.
`image_filenames` is left out: `AddImagePointsPair` keeps it as long as `image_points_pairs`, and
only the names themselves (never used here) distinguish the two. -/
structure MultiImageReconstructor (E : Externals) where
  model : E.MultilinearModel
  prior : MultilinearModelPrior
  init_indices : List ℤ
  template_mesh : E.BasicMesh
  image_points_pairs : List (QImage × List Constraint)
  param_sets : List (ParameterSet E)
  single_recon : E.Fitter

/-! ## Consistency selection (lines 276-293) -/

/-- The table `ratios` (line 277). -/
def ratios : List ℚ := [0, 1 / 5, 2 / 5, 3 / 5]

/-- Conversion `static_cast<int>` of a `double`: the fractional part is discarded. -/
def static_cast_int (x : ℚ) : ℤ := if 0 ≤ x then ⌊x⌋ else ⌈x⌉

/-- The comparator passed to `std::sort` (lines 283-285). -/
def errorLess (a b : ℕ × ℚ) : Bool := decide (a.2 < b.2)

/-- What the C++ standard guarantees of `std::sort(first, last, comp)`: the result is a
permutation of the input and no element is `comp`-less than an element before it.  The order of
elements that compare equivalent is not specified. -/
def StdSortSpec (sort : List (ℕ × ℚ) → List (ℕ × ℚ)) : Prop :=
  ∀ l, (sort l).Perm l ∧ (sort l).Pairwise (fun a b => ¬ errorLess b a = true)

/-- The vector `errors` before sorting (lines 279-282). -/
def errorsOf {E : Externals} (param_sets : List (ParameterSet E)) : List (ℕ × ℚ) :=
  param_sets.enum.map fun ip => (ip.1, ip.2.stats.avg_error)

/-- The number `k` of line 287; `num_images` is an `int`. -/
def selection_k (iters_main_loop num_images : ℕ) : Option ℤ :=
  (ratios[iters_main_loop]?).map fun r => max 1 (static_cast_int (r * (num_images : ℚ)))

/-- The case `selection_method == 1` (lines 276-293): the new `consistent_set`. -/
def selectConsistentSet {E : Externals} (sort : List (ℕ × ℚ) → List (ℕ × ℚ))
    (iters_main_loop : ℕ) (param_sets : List (ParameterSet E)) : Option (List ℕ) := do
  let errors := sort (errorsOf param_sets)
  let k ← selection_k iters_main_loop param_sets.length
  if k.toNat ≤ errors.length then some ((errors.take k.toNat).map Prod.fst) else none

/-! ## `std::sort` as libstdc++ implements it (GCC 12, bits/stl_algo.h and bits/stl_heap.h)

The vector being sorted is a list and an iterator is a position in it.  A loop that the library
leaves unguarded is given as many steps as the vector has elements. -/

/-- The element `*(begin + i)` of the vector being sorted. -/
def deref (v : List (ℕ × ℚ)) (i : ℕ) : ℕ × ℚ := v.getD i (0, 0)

/-- Function `std::iter_swap`. -/
def iter_swap (v : List (ℕ × ℚ)) (i j : ℕ) : List (ℕ × ℚ) :=
  (v.set i (deref v j)).set j (deref v i)

/-- Function `std::__move_median_to_first` (bits/stl_algo.h). -/
def move_median_to_first (v : List (ℕ × ℚ)) (result a b c : ℕ) : List (ℕ × ℚ) :=
  if errorLess (deref v a) (deref v b) then
    if errorLess (deref v b) (deref v c) then iter_swap v result b
    else if errorLess (deref v a) (deref v c) then iter_swap v result c
    else iter_swap v result a
  else if errorLess (deref v a) (deref v c) then iter_swap v result a
  else if errorLess (deref v b) (deref v c) then iter_swap v result c
  else iter_swap v result b

/-- The loop `while (__comp(__first, __pivot)) ++__first;` of `std::__unguarded_partition`. -/
def scanUp (v : List (ℕ × ℚ)) (pivot : ℕ) : ℕ → ℕ → ℕ
  | 0, first => first
  | fuel + 1, first =>
    if errorLess (deref v first) (deref v pivot) then scanUp v pivot fuel (first + 1) else first

/-- The loop `while (__comp(__pivot, __last)) --__last;` of `std::__unguarded_partition`. -/
def scanDown (v : List (ℕ × ℚ)) (pivot : ℕ) : ℕ → ℕ → ℕ
  | 0, last => last
  | fuel + 1, last =>
    if errorLess (deref v pivot) (deref v last) then scanDown v pivot fuel (last - 1) else last

/-- Function `std::__unguarded_partition`: the vector after the swaps and the returned cut. -/
def unguarded_partition (pivot : ℕ) : ℕ → List (ℕ × ℚ) → ℕ → ℕ → List (ℕ × ℚ) × ℕ
  | 0, v, first, _ => (v, first)
  | fuel + 1, v, first, last =>
    let first1 := scanUp v pivot v.length first
    let last1 := scanDown v pivot v.length (last - 1)
    if first1 < last1 then
      unguarded_partition pivot fuel (iter_swap v first1 last1) (first1 + 1) last1
    else (v, first1)

/-- Function `std::__unguarded_partition_pivot`. -/
def unguarded_partition_pivot (v : List (ℕ × ℚ)) (first last : ℕ) : List (ℕ × ℚ) × ℕ :=
  let mid := first + (last - first) / 2
  let v1 := move_median_to_first v first (first + 1) mid (last - 1)
  unguarded_partition first v1.length v1 (first + 1) last

/-- The loop of `std::__push_heap`; `value` is compared with `__comp(parent, value)`. -/
def push_heap (first topIndex : ℕ) (value : ℕ × ℚ) : ℕ → List (ℕ × ℚ) → ℕ → List (ℕ × ℚ)
  | 0, v, holeIndex => v.set (first + holeIndex) value
  | fuel + 1, v, holeIndex =>
    let parent := (holeIndex - 1) / 2
    if topIndex < holeIndex ∧ errorLess (deref v (first + parent)) value = true then
      push_heap first topIndex value fuel (v.set (first + holeIndex) (deref v (first + parent)))
        parent
    else v.set (first + holeIndex) value

/-- The first loop of `std::__adjust_heap`: the vector, the hole and the second child at its
end. -/
def siftDown (first len : ℕ) : ℕ → List (ℕ × ℚ) → ℕ → ℕ → List (ℕ × ℚ) × ℕ × ℕ
  | 0, v, holeIndex, secondChild => (v, holeIndex, secondChild)
  | fuel + 1, v, holeIndex, secondChild =>
    if secondChild < (len - 1) / 2 then
      let c := 2 * (secondChild + 1)
      let c1 := if errorLess (deref v (first + c)) (deref v (first + (c - 1))) then c - 1 else c
      siftDown first len fuel (v.set (first + holeIndex) (deref v (first + c1))) c1 c1
    else (v, holeIndex, secondChild)

/-- Function `std::__adjust_heap`. -/
def adjust_heap (v : List (ℕ × ℚ)) (first holeIndex len : ℕ) (value : ℕ × ℚ) : List (ℕ × ℚ) :=
  let r := siftDown first len len v holeIndex holeIndex
  let r1 : List (ℕ × ℚ) × ℕ :=
    if len % 2 = 0 ∧ r.2.2 = (len - 2) / 2 then
      let c := 2 * (r.2.2 + 1)
      ((r.1.set (first + r.2.1) (deref r.1 (first + (c - 1)))), c - 1)
    else (r.1, r.2.1)
  push_heap first holeIndex value len r1.1 r1.2

/-- Function `std::__pop_heap`. -/
def pop_heap (v : List (ℕ × ℚ)) (first last result : ℕ) : List (ℕ × ℚ) :=
  let value := deref v result
  adjust_heap (v.set result (deref v first)) first 0 (last - first) value

/-- The loop of `std::__make_heap`, from `parent` down to 0. -/
def make_heap_loop (first len : ℕ) : ℕ → List (ℕ × ℚ) → List (ℕ × ℚ)
  | 0, v => adjust_heap v first 0 len (deref v first)
  | parent + 1, v =>
    make_heap_loop first len parent
      (adjust_heap v first (parent + 1) len (deref v (first + (parent + 1))))

/-- Function `std::__make_heap`. -/
def make_heap (v : List (ℕ × ℚ)) (first last : ℕ) : List (ℕ × ℚ) :=
  if last - first < 2 then v else make_heap_loop first (last - first) ((last - first - 2) / 2) v

/-- Function `std::__heap_select`. -/
def heap_select (v : List (ℕ × ℚ)) (first middle last : ℕ) : List (ℕ × ℚ) :=
  (List.range' middle (last - middle)).foldl
    (fun w i => if errorLess (deref w i) (deref w first) then pop_heap w first middle i else w)
    (make_heap v first middle)

/-- Function `std::__sort_heap`: `last` runs from its initial value down to `first + 2`. -/
def sort_heap (v : List (ℕ × ℚ)) (first last : ℕ) : List (ℕ × ℚ) :=
  (List.range (last - first - 1)).foldl
    (fun w j => pop_heap w first (last - 1 - j) (last - 1 - j)) v

/-- Function `std::__partial_sort`. -/
def heap_sort (v : List (ℕ × ℚ)) (first middle last : ℕ) : List (ℕ × ℚ) :=
  sort_heap (heap_select v first middle last) first middle

/-- Function `std::__introsort_loop`; the recursion is on `__depth_limit`. -/
def introsort_loop : ℕ → List (ℕ × ℚ) → ℕ → ℕ → List (ℕ × ℚ)
  | 0, v, first, last => if 16 < last - first then heap_sort v first last last else v
  | depth_limit + 1, v, first, last =>
    if 16 < last - first then
      let r := unguarded_partition_pivot v first last
      introsort_loop depth_limit (introsort_loop depth_limit r.1 r.2 last) first r.2
    else v

/-- The loop of `std::__unguarded_linear_insert`. -/
def linear_insert_loop (val : ℕ × ℚ) : ℕ → List (ℕ × ℚ) → ℕ → ℕ → List (ℕ × ℚ)
  | 0, v, last, _ => v.set last val
  | fuel + 1, v, last, next =>
    if errorLess val (deref v next) then
      linear_insert_loop val fuel (v.set last (deref v next)) next (next - 1)
    else v.set last val

/-- Function `std::__unguarded_linear_insert`. -/
def unguarded_linear_insert (v : List (ℕ × ℚ)) (last : ℕ) : List (ℕ × ℚ) :=
  linear_insert_loop (deref v last) v.length v last (last - 1)

/-- One pass of the loop of `std::__insertion_sort`. -/
def insertion_step (first : ℕ) (v : List (ℕ × ℚ)) (i : ℕ) : List (ℕ × ℚ) :=
  if errorLess (deref v i) (deref v first) then
    v.take first ++ deref v i :: ((v.take i).drop first ++ v.drop (i + 1))
  else unguarded_linear_insert v i

/-- Function `std::__insertion_sort`. -/
def insertion_sort (v : List (ℕ × ℚ)) (first last : ℕ) : List (ℕ × ℚ) :=
  if first = last then v
  else (List.range' (first + 1) (last - (first + 1))).foldl (insertion_step first) v

/-- Function `std::__unguarded_insertion_sort`. -/
def unguarded_insertion_sort (v : List (ℕ × ℚ)) (first last : ℕ) : List (ℕ × ℚ) :=
  (List.range' first (last - first)).foldl unguarded_linear_insert v

/-- Function `std::__final_insertion_sort`. -/
def final_insertion_sort (v : List (ℕ × ℚ)) (first last : ℕ) : List (ℕ × ℚ) :=
  if 16 < last - first then
    unguarded_insertion_sort (insertion_sort v first (first + 16)) (first + 16) last
  else insertion_sort v first last

/-- Function `std::sort` of libstdc++ (bits/stl_algo.h, `std::__sort`) with the comparator of
lines 283-285. -/
def std_sort (v : List (ℕ × ℚ)) : List (ℕ × ℚ) :=
  if v.length = 0 then v
  else final_insertion_sort (introsort_loop (Nat.log2 v.length * 2) v 0 v.length) 0 v.length

/-! ## Identity centroid and broadcast (lines 296-307) -/

/-- The power `2 ^ e` for an integer exponent. -/
def pow2 (e : ℤ) : ℚ :=
  if 0 ≤ e then ((2 ^ e.toNat : ℕ) : ℚ) else 1 / ((2 ^ (-e).toNat : ℕ) : ℚ)

/-- The exponent `e` with `2 ^ e ≤ a < 2 ^ (e + 1)`, for a positive number `a`. -/
def floorLog2 (a : ℚ) : ℤ :=
  let g : ℤ := (Nat.log2 a.num.natAbs : ℤ) - (Nat.log2 a.den : ℤ)
  if pow2 g ≤ a then g else g - 1

/-- The integer nearest to `m`; of two nearest integers the even one. -/
def roundToEven (m : ℚ) : ℤ :=
  let f : ℤ := ⌊m⌋
  if m - (f : ℚ) < 1 / 2 then f
  else if 1 / 2 < m - (f : ℚ) then f + 1
  else if f % 2 = 0 then f else f + 1

/-- The `double` (IEEE 754 binary64) nearest to `x`, ties to even: the result of a `double`
operation whose exact result is `x`.  Doubles are spaced `2 ^ (e - 52)` apart between `2 ^ e`
and `2 ^ (e + 1)`, and `2 ^ (-1074)` apart below `2 ^ (-1022)`.  A result of magnitude
`2 ^ 1024` or more stands for an overflow to infinity, which is not modelled. -/
def roundDouble (x : ℚ) : ℚ :=
  if x = 0 then 0
  else
    let e : ℤ := max (floorLog2 |x|) (-1022)
    let ulp : ℚ := pow2 (e - 52)
    let m : ℤ := roundToEven (|x| / ulp)
    if x < 0 then -((m : ℚ) * ulp) else (m : ℚ) * ulp

/-- Eigen `a += b` on two `VectorXd`; both sides must have the same number of rows, and every
coefficient is the rounded sum. -/
def add_assign (a b : VectorXd) : Option VectorXd :=
  if a.length = b.length then some (List.zipWith (fun x y => roundDouble (x + y)) a b) else none

/-- The loop of lines 298-301. -/
def accumulateWid {E : Externals} (param_sets : List (ParameterSet E)) :
    List ℕ → VectorXd → Option VectorXd
  | [], acc => some acc
  | i :: rest, acc => do
    let p ← param_sets[i]?
    let acc1 ← add_assign acc p.model.Wid
    accumulateWid param_sets rest acc1

/-- The value of `identity_centroid` after line 302: the vector of zeros of line 297, the sums
of lines 298-301 and the division `identity_centroid /= consistent_set.size()`, which divides
every coefficient by the size converted to `double` and rounds the quotient (Eigen 3.3 and
later; earlier versions multiply by the rounded reciprocal).  For an empty consistent set the
quotients are `0 / 0`, not a number; the selection never returns an empty set. -/
def identityCentroid {E : Externals} (param_sets : List (ParameterSet E))
    (consistent_set : List ℕ) : Option VectorXd := do
  let p0 ← param_sets[0]?
  let zero : VectorXd := List.replicate p0.model.Wid.length 0
  let sum ← accumulateWid param_sets consistent_set zero
  if consistent_set.length = 0 then none
  else some (sum.map fun x => roundDouble (x / (consistent_set.length : ℚ)))

/-- The sum of a list of numbers as a loop over `double` values computes it: starting from 0,
every addition is rounded. -/
def roundedSum (l : List ℚ) : ℚ :=
  l.foldl (fun a x => roundDouble (a + x)) 0

/-- A number that is a finite `double`. -/
def IsDouble (x : ℚ) : Prop :=
  roundDouble x = x ∧ |x| < 2 ^ 1024

instance (x : ℚ) : Decidable (IsDouble x) := by
  unfold IsDouble
  infer_instance

/-- The loop of lines 305-307. -/
def broadcastCentroid {E : Externals} (param_sets : List (ParameterSet E))
    (identity_centroid : VectorXd) : List (ParameterSet E) :=
  param_sets.map fun param => { param with model := { param.model with Wid := identity_centroid } }

/-! ## The state of `Reconstruct` and the records of a run -/

/-- The objects `Reconstruct` mutates: three data members and five local variables. -/
structure State (E : Externals) where
  param_sets : List (ParameterSet E)
  single_recon : E.Fitter
  model : E.MultilinearModel
  identity_centroid : VectorXd
  consistent_set : List ℕ
  identity_weights_history : List MatrixXd
  identity_weights_centroid_history : List VectorXd

/-- Record of one call of `single_recon.Reconstruct(opt_params)` and of the calls around it. -/
structure FitRecord (E : Externals) where
  /-- The image index `i`. -/
  image : ℕ
  /-- The argument of `SetIdentityPrior`, when it was called for this fit. -/
  identity_prior : Option VectorXd
  /-- The argument of `SetOptimizationMode`, when it was called for this fit. -/
  optimization_mode : Option OptimizationMode
  /-- The argument of `Reconstruct`. -/
  opt_params : OptimizationParameters
  /-- The fitter on which `Reconstruct` was called. -/
  fitter_before : E.Fitter
  /-- The fitter when `Reconstruct` returned. -/
  fitter_after : E.Fitter
  /-- The entry `param_sets[i]` after the results were stored. -/
  stored : ParameterSet E

/-- Record of one joint identity solve (lines 362-444). -/
structure SolveRecord (E : Externals) where
  /-- The problem handed to `Solve`. -/
  problem : Problem E.MultilinearModel E.dmat4 E.CameraParameters
  /-- The vector `params` after `Solve`. -/
  params : VectorXd
  /-- The vector `param_sets` after the loop of lines 426-435. -/
  after_broadcast : List (ParameterSet E)

/-- Record of one pass through the body of the joint optimization loop (lines 315-444). -/
structure RoundRecord (E : Externals) where
  /-- The loop counter `iters_joint_optimization`. -/
  iters_joint_optimization : ℕ
  /-- The vector `consistent_set` the loop of line 325 runs over. -/
  consistent_set : List ℕ
  /-- The fits of lines 325-354. -/
  refits : List (FitRecord E)
  /-- The joint solve, or `none` when the `break` of line 358 was taken. -/
  solve : Option (SolveRecord E)

/-- Record of one pass through the body of the main loop (lines 213-446). -/
structure MacroRecord (E : Externals) where
  /-- The counter `iters_main_loop` inside the body. -/
  iters_main_loop : ℕ
  /-- The vector `param_sets` when the body is entered. -/
  param_sets_at_start : List (ParameterSet E)
  /-- The fits of lines 224-250. -/
  single_view : List (FitRecord E)
  /-- The vector `param_sets` after the single image reconstruction step. -/
  param_sets_after_single_view : List (ParameterSet E)
  /-- The vector `consistent_set` after the selection (line 293). -/
  consistent_set : List ℕ
  /-- The vector `identity_centroid` after line 302. -/
  identity_centroid : VectorXd
  /-- The vector `param_sets` after the loop of lines 305-307. -/
  param_sets_after_broadcast : List (ParameterSet E)
  /-- The passes through the joint optimization loop. -/
  rounds : List (RoundRecord E)

/-! ## Single image reconstruction step (lines 224-250) -/

/-- Lines 239-244: the results of the fitter are stored in a parameter set. -/
def storeResults (E : Externals) (fitter : E.Fitter) (p : ParameterSet E) : ParameterSet E :=
  { p with
    mesh := E.UpdateVertices p.mesh (E.GetGeometry fitter)
    model := E.GetModelParameters fitter
    indices := E.GetIndices fitter
    cam := E.GetCameraParameters fitter }

/-- Lines 225-228 and 230: the inputs of image `i` are handed to the fitter. -/
def setInputs (E : Externals) (fitter : E.Fitter) (p : ParameterSet E) : E.Fitter :=
  let f1 := E.SetMesh fitter p.mesh
  let f2 := E.SetIndices f1 p.indices
  let f3 := E.SetImageSize f2 p.recon.imageWidth p.recon.imageHeight
  let f4 := E.SetConstraints f3 p.recon.cons
  E.SetInitialParameters f4 p.model p.cam

/-- The body of the loop of lines 224-250 for image `i`. -/
def singleViewFit (E : Externals) (iters_main_loop : ℕ) (opt_params : OptimizationParameters)
    (st : State E) (i : ℕ) : Option (State E × FitRecord E) := do
  let p ← st.param_sets[i]?
  let f5 := setInputs E st.single_recon p
  let f6 := if iters_main_loop > 1 then E.SetIdentityPrior f5 st.identity_centroid else f5
  let f7 := E.FitterReconstruct f6 opt_params
  let stored := storeResults E f7 p
  some ({ st with param_sets := st.param_sets.set i stored, single_recon := f7 },
    { image := i
      identity_prior := if iters_main_loop > 1 then some st.identity_centroid else none
      optimization_mode := none
      opt_params := opt_params
      fitter_before := f6
      fitter_after := f7
      stored := stored })

/-- The loop of lines 224-250 over the image indices that are still to be processed. -/
def singleViewStage (E : Externals) (iters_main_loop : ℕ) (opt_params : OptimizationParameters) :
    List ℕ → State E → Option (State E × List (FitRecord E))
  | [], st => some (st, [])
  | i :: rest, st => do
    let (st1, r) ← singleViewFit E iters_main_loop opt_params st i
    let (st2, rs) ← singleViewStage E iters_main_loop opt_params rest st1
    some (st2, r :: rs)

/-! ## Joint reconstruction step 1 (lines 325-354) -/

/-- The mode `Pose | Expression | FocalLength` of lines 332-336. -/
def jointMode : OptimizationMode :=
  (OptimizationMode.Pose.or OptimizationMode.Expression).or OptimizationMode.FocalLength

/-- The body of the loop of lines 325-354 for image `i`. -/
def poseExpressionFit (E : Externals) (opt_params : OptimizationParameters)
    (st : State E) (i : ℕ) : Option (State E × FitRecord E) := do
  let p ← st.param_sets[i]?
  let f5 := setInputs E st.single_recon p
  let f6 := E.SetOptimizationMode f5 jointMode
  let f7 := E.FitterReconstruct f6 opt_params
  let stored := storeResults E f7 p
  some ({ st with param_sets := st.param_sets.set i stored, single_recon := f7 },
    { image := i
      identity_prior := none
      optimization_mode := some jointMode
      opt_params := opt_params
      fitter_before := f6
      fitter_after := f7
      stored := stored })

/-- The loop of lines 325-354 over the entries of `consistent_set` still to be processed. -/
def poseExpressionStage (E : Externals) (opt_params : OptimizationParameters) :
    List ℕ → State E → Option (State E × List (FitRecord E))
  | [], st => some (st, [])
  | i :: rest, st => do
    let (st1, r) ← poseExpressionFit E opt_params st i
    let (st2, rs) ← poseExpressionStage E opt_params rest st1
    some (st2, r :: rs)

/-! ## Joint reconstruction step 2 (lines 362-444) -/

/-- The mean `0.5 * (a + b)` of two image points. -/
def midpoint (a b : ℚ × ℚ) : ℚ × ℚ := (1 / 2 * (a.1 + b.1), 1 / 2 * (a.2 + b.2))

/-- The per-vertex loop of lines 393-399, over the positions `j` still to be processed. -/
def vertexBlocks (E : Externals) (p : ParameterSet E) (model_projected_i : List E.MultilinearModel)
    (params_size : ℕ) (Mview_i Rmat_i : E.dmat4) (weight_i : ℚ) :
    List ℕ → Option (Problem E.MultilinearModel E.dmat4 E.CameraParameters)
  | [] => some []
  | j :: rest => do
    let m ← model_projected_i[j]?
    let c ← p.recon.cons[j]?
    let blocks ← vertexBlocks E p model_projected_i params_size Mview_i Rmat_i weight_i rest
    some (ResidualBlock.identity
      { model := m, cons := c, params_size := params_size, Mview := Mview_i, Rmat := Rmat_i,
        cam := p.cam, weight := weight_i } :: blocks)

/-- The body of the loop of lines 370-400 for one image of the consistent set: the residual
blocks the image contributes.  For a pupil distance of 0 the code computes an infinite weight;
the model, in which `100 / 0` is 0, does not represent it. -/
def imageBlocks (E : Externals) (model : E.MultilinearModel) (params_size : ℕ)
    (p : ParameterSet E) : Option (Problem E.MultilinearModel E.dmat4 E.CameraParameters) := do
  let model_projected_i := p.indices.map fun idx =>
    E.ApplyWeights (E.project model [idx]) p.model.Wid p.model.Wexp
  let Rmat_i := E.eulerAngleYXZ p.model.R.x0 p.model.R.x1 p.model.R.x2
  let Tmat_i := E.translate p.model.T.x0 p.model.T.x1 p.model.T.x2
  let Mview_i := E.matmul Tmat_i Rmat_i
  let c28 ← p.recon.cons[28]?
  let c30 ← p.recon.cons[30]?
  let c32 ← p.recon.cons[32]?
  let c34 ← p.recon.cons[34]?
  let puple_distance := E.distance (midpoint c28.data c30.data) (midpoint c32.data c34.data)
  let weight_i := 100 / puple_distance
  vertexBlocks E p model_projected_i params_size Mview_i Rmat_i weight_i
    (List.range p.indices.length)

/-- The loop of lines 370-400 over the entries of `consistent_set` still to be processed. -/
def assembleImages (E : Externals) (model : E.MultilinearModel) (params_size : ℕ)
    (param_sets : List (ParameterSet E)) :
    List ℕ → Option (Problem E.MultilinearModel E.dmat4 E.CameraParameters)
  | [] => some []
  | i :: rest => do
    let p ← param_sets[i]?
    let blocks ← imageBlocks E model params_size p
    let more ← assembleImages E model params_size param_sets rest
    some (blocks ++ more)

/-- The prior residual block of lines 403-409. -/
def priorBlock (prior : MultilinearModelPrior) (consistent_set : List ℕ) (params_size : ℕ) :
    PriorCostFunction :=
  { Wid_avg := prior.Wid_avg
    inv_sigma_Wid := prior.inv_sigma_Wid
    weight := prior.weight_Wid * (consistent_set.length : ℚ)
    parameter_block_size := params_size
    num_residuals := 1 }

/-- The problem of lines 366-409. -/
def assembleProblem (E : Externals) (model : E.MultilinearModel) (prior : MultilinearModelPrior)
    (param_sets : List (ParameterSet E)) (consistent_set : List ℕ) (params : VectorXd) :
    Option (Problem E.MultilinearModel E.dmat4 E.CameraParameters) := do
  let blocks ← assembleImages E model params.length param_sets consistent_set
  some (blocks ++ [ResidualBlock.prior (priorBlock prior consistent_set params.length)])

/-- The loop of lines 426-435 over the parameter sets still to be processed: every identity
vector becomes `params`, and the shared tensor model is used to refresh the mesh. -/
def broadcastSolved (E : Externals) (params : VectorXd) :
    List (ParameterSet E) → E.MultilinearModel → List (ParameterSet E) × E.MultilinearModel
  | [], model => ([], model)
  | param :: rest, model =>
    let model1 := E.ApplyWeights model params param.model.Wexp
    let mesh1 := E.ComputeNormals (E.UpdateVertices param.mesh (E.GetTM model1))
    let param1 : ParameterSet E :=
      { param with model := { param.model with Wid := params }, mesh := mesh1 }
    let (rest1, model2) := broadcastSolved E params rest model1
    (param1 :: rest1, model2)

/-- Lines 362-444: the joint identity solve of one round. -/
def jointSolve (E : Externals) (prior : MultilinearModelPrior) (st : State E) :
    Option (State E × SolveRecord E) := do
  let p0 ← st.param_sets[0]?
  let params0 := p0.model.Wid
  let problem ← assembleProblem E st.model prior st.param_sets st.consistent_set params0
  let params := E.Solve problem params0
  let (param_sets1, model1) := broadcastSolved E params st.param_sets st.model
  some ({ st with
          param_sets := param_sets1
          model := model1
          identity_weights_centroid_history := st.identity_weights_centroid_history ++ [params] },
    { problem := problem, params := params, after_broadcast := param_sets1 })

/-! ## The joint optimization loop (lines 310-445) -/

/-- The constant `max_iters_main_loop` (line 204). -/
def max_iters_main_loop : ℕ := 3

/-- The value of `num_iters_joint_optimization` (line 310). -/
def num_iters_joint_optimization (iters_main_loop : ℕ) : ℕ :=
  if iters_main_loop = max_iters_main_loop then 4 else 3

/-- The condition of lines 316 and 356. -/
def isFinalRound (iters_main_loop iters_joint_optimization : ℕ) : Bool :=
  decide (iters_joint_optimization = num_iters_joint_optimization iters_main_loop - 1) &&
    decide (iters_main_loop = max_iters_main_loop)

/-- One pass through the body of the joint optimization loop (lines 315-444).  The Boolean of
the result tells whether the `break` of line 358 was taken. -/
def jointRound (E : Externals) (prior : MultilinearModelPrior) (num_images : ℕ)
    (opt_params : OptimizationParameters) (iters_main_loop iters_joint_optimization : ℕ)
    (st : State E) : Option (State E × RoundRecord E × Bool) := do
  let st1 : State E :=
    if isFinalRound iters_main_loop iters_joint_optimization then
      { st with consistent_set := List.range num_images }
    else st
  let (st2, refits) ← poseExpressionStage E opt_params st1.consistent_set st1
  if isFinalRound iters_main_loop iters_joint_optimization then
    some (st2, { iters_joint_optimization := iters_joint_optimization
                 consistent_set := st1.consistent_set
                 refits := refits
                 solve := none }, true)
  else do
    let (st3, solved) ← jointSolve E prior st2
    some (st3, { iters_joint_optimization := iters_joint_optimization
                 consistent_set := st1.consistent_set
                 refits := refits
                 solve := some solved }, false)

/-- The joint optimization loop (lines 312-445); `remaining` bounds the number of evaluations
of the loop condition that are still possible. -/
def jointLoop (E : Externals) (prior : MultilinearModelPrior) (num_images : ℕ)
    (opt_params : OptimizationParameters) (iters_main_loop : ℕ) :
    ℕ → ℕ → State E → Option (State E × List (RoundRecord E))
  | 0, _, _ => none
  | remaining + 1, iters_joint_optimization, st =>
    if iters_joint_optimization < num_iters_joint_optimization iters_main_loop then do
      let (st1, r, stop) ←
        jointRound E prior num_images opt_params iters_main_loop iters_joint_optimization st
      if stop then some (st1, [r])
      else do
        let (st2, rs) ← jointLoop E prior num_images opt_params iters_main_loop remaining
          (iters_joint_optimization + 1) st1
        some (st2, r :: rs)
    else some (st, [])

/-! ## The main loop (lines 213-446) -/

/-- The matrix `identity_weights` of lines 254-257, over the images still to be copied; every
column must have `rows` entries. -/
def identityWeights {E : Externals} (rows : ℕ) : List (ParameterSet E) → Option MatrixXd
  | [] => some []
  | p :: rest =>
    if p.model.Wid.length = rows then (identityWeights rows rest).map (p.model.Wid :: ·)
    else none

/-- The values of `opt_params` (lines 218-220). -/
def optParams (E : Externals) (iters_main_loop : ℕ) : OptimizationParameters :=
  { E.OptimizationDefaults with w_prior_id := 10 * (iters_main_loop : ℚ), w_prior_exp := 10 }

/-- One pass through the body of the main loop (lines 214-445), with `iters_main_loop` already
incremented.  The joint optimization loop is given one evaluation of its condition more than
`num_iters_joint_optimization`. -/
def macroIteration (E : Externals) (prior : MultilinearModelPrior) (num_images : ℕ)
    (iters_main_loop : ℕ) (st : State E) : Option (State E × MacroRecord E) := do
  let opt_params := optParams E iters_main_loop
  let (st1, fits) ← singleViewStage E iters_main_loop opt_params (List.range num_images) st
  let p0 ← st1.param_sets[0]?
  let identity_weights ← identityWeights p0.model.Wid.length (st1.param_sets.take num_images)
  let consistent_set ← selectConsistentSet E.sort iters_main_loop st1.param_sets
  let identity_centroid ← identityCentroid st1.param_sets consistent_set
  let st2 : State E :=
    { st1 with
      identity_weights_history := st1.identity_weights_history ++ [identity_weights]
      consistent_set := consistent_set
      identity_centroid := identity_centroid
      param_sets := broadcastCentroid st1.param_sets identity_centroid }
  let (st3, rounds) ← jointLoop E prior num_images opt_params iters_main_loop
    (num_iters_joint_optimization iters_main_loop + 1) 0 st2
  some (st3, { iters_main_loop := iters_main_loop
               param_sets_at_start := st.param_sets
               single_view := fits
               param_sets_after_single_view := st1.param_sets
               consistent_set := consistent_set
               identity_centroid := identity_centroid
               param_sets_after_broadcast := st2.param_sets
               rounds := rounds })

/-- The main loop `while(iters_main_loop++ < 3)` (line 213); `remaining` bounds the number of
evaluations of the loop condition that are still possible. -/
def mainLoop (E : Externals) (prior : MultilinearModelPrior) (num_images : ℕ) :
    ℕ → ℕ → State E → Option (State E × List (MacroRecord E))
  | 0, _, _ => none
  | remaining + 1, iters_main_loop, st =>
    if iters_main_loop < 3 then do
      let (st1, r) ← macroIteration E prior num_images (iters_main_loop + 1) st
      let (st2, rs) ← mainLoop E prior num_images remaining (iters_main_loop + 1) st1
      some (st2, r :: rs)
    else some (st, [])

/-! ## Reconstruct (lines 160-495) -/

/-- The initial parameter set of one image (lines 175-193). -/
def initialParameterSet (E : Externals) (self : MultiImageReconstructor E)
    (pair : QImage × List Constraint) : ParameterSet E :=
  { indices := self.init_indices
    mesh := self.template_mesh
    cam := E.CameraDefaultParameters pair.1.width pair.1.height
    model := E.ModelDefaultParameters self.prior.Uid self.prior.Uexp
    recon := { cons := pair.2, imageWidth := pair.1.width, imageHeight := pair.1.height }
    opt := E.value_init_opt
    stats := E.value_init_stats }

/-- The state when the main loop is entered (lines 173-211).  The call `param_sets.resize`
keeps the entries a previous run left in `param_sets` and value-initialises the new ones; the
loop of lines 174-194 then overwrites every member except `opt` and `stats`. -/
def initialState (E : Externals) (self : MultiImageReconstructor E) : State E :=
  let n := self.image_points_pairs.length
  let kept := self.param_sets.take n
  let old : List (Option (ParameterSet E)) :=
    kept.map some ++ List.replicate (n - kept.length) none
  { param_sets := (self.image_points_pairs.zip old).map fun po =>
      let fresh := initialParameterSet E self po.1
      match po.2 with
      | some before => { fresh with opt := before.opt, stats := before.stats }
      | none => fresh
    single_recon := self.single_recon
    model := self.model
    identity_centroid := []
    consistent_set := List.range self.image_points_pairs.length
    identity_weights_history := []
    identity_weights_centroid_history := [] }

/-- What a run of `Reconstruct` leaves behind. -/
structure RunResult (E : Externals) where
  /-- The value `Reconstruct` returns. -/
  returned : Bool
  /-- The object after the run. -/
  self : MultiImageReconstructor E
  /-- The vector `identity_weights_history` when the loop is left. -/
  identity_weights_history : List MatrixXd
  /-- The vector `identity_weights_centroid_history` when the loop is left. -/
  identity_weights_centroid_history : List VectorXd
  /-- The passes through the body of the main loop. -/
  macro_iterations : List (MacroRecord E)

/-- The computation of method `MultiImageReconstructor::Reconstruct`, without its output calls
(for these see `ReconstructWithOutput`).  The result is `none` when the run makes an
out-of-range access; `image_filenames.front()` (line 166) is one when there is no image.  The
main loop is given four evaluations of its condition. -/
def Reconstruct (E : Externals) (self : MultiImageReconstructor E) : Option (RunResult E) :=
  if self.image_points_pairs.length = 0 then none
  else do
    let num_images := self.image_points_pairs.length
    let (st, records) ← mainLoop E self.prior num_images 4 0 (initialState E self)
    some { returned := true
           self := { self with
                     param_sets := st.param_sets
                     single_recon := st.single_recon
                     model := st.model }
           identity_weights_history := st.identity_weights_history
           identity_weights_centroid_history := st.identity_weights_centroid_history
           macro_iterations := records }

/-! ## The output of a run

`Reconstruct` creates directories (`safe_create`, lines 153-157), renders images
(`VisualizeReconstructionResult`, lines 85-121, and lines 465-485) and writes result files.  None
of these calls changes a value the computation reads, but each of them can throw, and the
exception leaves `Reconstruct`. -/

/-- The directories `Reconstruct` creates, below the directory of the first image. -/
inductive Directory where
  /-- The directory `multi_recon` (line 167). -/
  | result
  /-- The directory `step<m>` (line 214). -/
  | step (iters_main_loop : ℕ)
  /-- The directory `step<m>/single_recon` (line 222). -/
  | single_recon (iters_main_loop : ℕ)
  /-- The directory `step<m>/selection` (line 262). -/
  | selection (iters_main_loop : ℕ)
  /-- The directory `step<m>/joint_recon_<r>_pre` (line 322). -/
  | joint_pre (iters_main_loop iters_joint_optimization : ℕ)
  /-- The directory `step<m>/joint_recon_<r>_post` (line 363). -/
  | joint_post (iters_main_loop iters_joint_optimization : ℕ)
deriving DecidableEq, Repr

/-- The calls of `Reconstruct` that write to the file system or render. -/
inductive OutputCall where
  /-- The call `safe_create(p)`: `fs::exists` and `fs::create_directory` (lines 153-157). -/
  | safe_create (p : Directory)
  /-- The call `VisualizeReconstructionResult(folder, i)` (lines 247, 352 and 439). -/
  | VisualizeReconstructionResult (folder : Directory) (i : ℕ)
  /-- The call `single_recon.SaveReconstructionResults` for image `i` (line 248). -/
  | SaveReconstructionResults (folder : Directory) (i : ℕ)
  /-- The files of the two histories (lines 449-461). -/
  | write_histories
  /-- The final visualization of image `i` and its result file (lines 465-491). -/
  | final_visualization (i : ℕ)
deriving DecidableEq, Repr

/-- The output calls of one pass through the body of the joint optimization loop (lines 323,
352, 364 and 439), in macro-iteration `m`. -/
def roundOutput {E : Externals} (m : ℕ) (x : RoundRecord E) : List OutputCall :=
  OutputCall.safe_create (Directory.joint_pre m x.iters_joint_optimization) ::
    ((x.refits.map fun f =>
        OutputCall.VisualizeReconstructionResult
          (Directory.joint_pre m x.iters_joint_optimization) f.image) ++
      match x.solve with
      | none => []
      | some _ =>
        OutputCall.safe_create (Directory.joint_post m x.iters_joint_optimization) ::
          x.consistent_set.map fun i =>
            OutputCall.VisualizeReconstructionResult
              (Directory.joint_post m x.iters_joint_optimization) i)

/-- The output calls of one pass through the body of the main loop (lines 215, 223, 247, 248
and 263, and those of its rounds). -/
def macroOutput {E : Externals} (r : MacroRecord E) : List OutputCall :=
  [OutputCall.safe_create (Directory.step r.iters_main_loop),
   OutputCall.safe_create (Directory.single_recon r.iters_main_loop)] ++
  (r.single_view.flatMap fun f =>
    [OutputCall.VisualizeReconstructionResult (Directory.single_recon r.iters_main_loop) f.image,
     OutputCall.SaveReconstructionResults (Directory.single_recon r.iters_main_loop) f.image]) ++
  [OutputCall.safe_create (Directory.selection r.iters_main_loop)] ++
  r.rounds.flatMap (roundOutput r.iters_main_loop)

/-- The output calls of a run that goes through to the end, in program order. -/
def outputCalls {E : Externals} (out : RunResult E) : List OutputCall :=
  OutputCall.safe_create Directory.result ::
    (out.macro_iterations.flatMap macroOutput ++
      OutputCall.write_histories ::
        (List.range out.self.image_points_pairs.length).map OutputCall.final_visualization)

/-- Method `MultiImageReconstructor::Reconstruct` with its output: `throws c` tells whether the
output call `c` throws.  The run returns when its computation makes no out-of-range access and
none of its output calls throws; the result is `none` otherwise. -/
def ReconstructWithOutput (E : Externals) (throws : OutputCall → Bool)
    (self : MultiImageReconstructor E) : Option (RunResult E) :=
  (Reconstruct E self).bind fun out => if (outputCalls out).any throws then none else some out

/-! ## Notions used to state the properties -/

/-- The average error `param_sets[i].stats.avg_error` of image `i`. -/
def avgError {E : Externals} (param_sets : List (ParameterSet E)) (i : ℕ) : ℚ :=
  ((param_sets[i]?).map fun p => p.stats.avg_error).getD 0

/-- The identity vector `param_sets[i].model.Wid` of image `i`. -/
def widOf {E : Externals} (param_sets : List (ParameterSet E)) (i : ℕ) : VectorXd :=
  ((param_sets[i]?).map fun p => p.model.Wid).getD []

/-- The number of images the selection takes, by integer division: `max(1, ⌊m * N / 5⌋)`. -/
def takenCount (iters_main_loop num_images : ℕ) : ℕ :=
  max 1 (iters_main_loop * num_images / 5)

/-- What neither a fit nor a joint solve changes: the variable `identity_centroid`, the number
of parameter sets and their `stats` members. -/
def Frame {E : Externals} (st st1 : State E) : Prop :=
  st1.identity_centroid = st.identity_centroid ∧
  st1.param_sets.length = st.param_sets.length ∧
  st1.param_sets.map (fun p => p.stats) = st.param_sets.map (fun p => p.stats)

/-- All identity vectors of the parameter sets are the vector `v`, and there are `n` of them. -/
def AllWid {E : Externals} (param_sets : List (ParameterSet E)) (n : ℕ) (v : VectorXd) : Prop :=
  param_sets.length = n ∧ ∀ p ∈ param_sets, p.model.Wid = v

/-- The facts about one pass through the joint optimization loop, for a run with `n` images in
macro-iteration `m`: the fits run over the consistent set; in the final round that set is the
full index range and there is no joint solve; in every other round there is one, and after its
broadcast all identity vectors are the solved vector. -/
def GoodRound {E : Externals} (n m : ℕ) (r : RoundRecord E) : Prop :=
  r.refits.map (fun f => f.image) = r.consistent_set ∧
  (isFinalRound m r.iters_joint_optimization = true →
    r.consistent_set = List.range n ∧ r.solve = none) ∧
  (isFinalRound m r.iters_joint_optimization = false → ∃ sr, r.solve = some sr) ∧
  ∀ sr, r.solve = some sr → AllWid sr.after_broadcast n sr.params

/-- The facts about one pass through the body of the main loop, for a run with `n` images: `st`
is the state when the body is entered with the counter `m`, `st1` the state when it is left, and
`r` the record of the pass. -/
structure GoodMacro {E : Externals} (n m : ℕ) (st st1 : State E) (r : MacroRecord E) : Prop where
  /-- The record carries the counter. -/
  counter : r.iters_main_loop = m
  /-- The record carries the parameter sets the body started from. -/
  at_start : r.param_sets_at_start = st.param_sets
  /-- The single image reconstruction step fits every image once, in index order. -/
  fit_images : r.single_view.map (fun f => f.image) = List.range n
  /-- The identity prior handed to the fitter is the variable `identity_centroid` as it was when
  the body was entered, and it is handed over only when the counter exceeds 1. -/
  fit_priors : ∀ f ∈ r.single_view,
    f.identity_prior = (if m > 1 then some st.identity_centroid else none)
  /-- The number of parameter sets stays `n`. -/
  length_single_view : r.param_sets_after_single_view.length = n
  /-- The single image reconstruction step does not touch the `stats` members. -/
  stats_single_view :
    r.param_sets_after_single_view.map (fun p => p.stats) = st.param_sets.map (fun p => p.stats)
  /-- The consistent set is the result of the selection on the parameter sets after the single
  image reconstruction step. -/
  selected :
    selectConsistentSet E.sort m r.param_sets_after_single_view = some r.consistent_set
  /-- The centroid is computed from these parameter sets and the consistent set. -/
  centroid :
    identityCentroid r.param_sets_after_single_view r.consistent_set = some r.identity_centroid
  /-- After the broadcast every identity vector is the centroid. -/
  broadcast : AllWid r.param_sets_after_broadcast n r.identity_centroid
  /-- The variable `identity_centroid` still holds the centroid when the body is left. -/
  centroid_kept : st1.identity_centroid = r.identity_centroid
  /-- The number of parameter sets stays `n`. -/
  length_end : st1.param_sets.length = n
  /-- No `stats` member is touched in the whole pass. -/
  stats_end : st1.param_sets.map (fun p => p.stats) = st.param_sets.map (fun p => p.stats)
  /-- The joint optimization loop runs the rounds `0, 1, ..., num_iters_joint_optimization - 1`. -/
  round_counters : r.rounds.map (fun x => x.iters_joint_optimization) =
    List.range' 0 (num_iters_joint_optimization m)
  /-- Every round is as `GoodRound` describes. -/
  rounds_good : ∀ x ∈ r.rounds, GoodRound n m x

/-- The landmark index list `param_sets[i].indices` of image `i`. -/
def indicesOf {E : Externals} (param_sets : List (ParameterSet E)) (i : ℕ) : List ℤ :=
  ((param_sets[i]?).map fun p => p.indices).getD []

/-- The constraint list `param_sets[i].recon.cons` of image `i`. -/
def consOf {E : Externals} (param_sets : List (ParameterSet E)) (i : ℕ) : List Constraint :=
  ((param_sets[i]?).map fun p => p.recon.cons).getD []

/-- The positions at which lines 387-399 read the constraints of one image: 28, 30, 32 and 34
for the pupil distance, and every `j` below the number of landmark indices. -/
def accessedPositions {E : Externals} (p : ParameterSet E) : List ℕ :=
  [28, 30, 32, 34] ++ List.range p.indices.length

/-- The constraint of an `IdentityCostFunction_analytic` block; the prior block has none. -/
def blockCons {Model Mat Cam : Type} : ResidualBlock Model Mat Cam → Option Constraint
  | ResidualBlock.identity c => some c.cons
  | ResidualBlock.prior _ => none

/-- The size of the parameter block a residual block was created for. -/
def blockParamsSize {Model Mat Cam : Type} : ResidualBlock Model Mat Cam → ℕ
  | ResidualBlock.identity c => c.params_size
  | ResidualBlock.prior c => c.parameter_block_size

/-- The vectors the joint solves of a list of rounds produced, in order. -/
def solvedParams {E : Externals} (rounds : List (RoundRecord E)) : List VectorXd :=
  rounds.filterMap fun x => x.solve.map fun sr => sr.params

/-- What it means for `mode` to read the optimization mode flag of the fitter:
`SetOptimizationMode` sets the flag to its argument, and no other member function the controller
calls changes it; for `Reconstruct` this is the assumption that a fit leaves the flag as it
is. -/
structure ModeFlag (E : Externals) (mode : E.Fitter → OptimizationMode) : Prop where
  /-- Member `SetOptimizationMode` sets the flag. -/
  set_mode : ∀ f m, mode (E.SetOptimizationMode f m) = m
  /-- Member `SetMesh` leaves the flag. -/
  set_mesh : ∀ f x, mode (E.SetMesh f x) = mode f
  /-- Member `SetIndices` leaves the flag. -/
  set_indices : ∀ f x, mode (E.SetIndices f x) = mode f
  /-- Member `SetImageSize` leaves the flag. -/
  set_image_size : ∀ f w h, mode (E.SetImageSize f w h) = mode f
  /-- Member `SetConstraints` leaves the flag. -/
  set_constraints : ∀ f x, mode (E.SetConstraints f x) = mode f
  /-- Member `SetInitialParameters` leaves the flag. -/
  set_initial_parameters : ∀ f m c, mode (E.SetInitialParameters f m c) = mode f
  /-- Member `SetIdentityPrior` leaves the flag. -/
  set_identity_prior : ∀ f v, mode (E.SetIdentityPrior f v) = mode f
  /-- Member `Reconstruct` leaves the flag. -/
  reconstruct : ∀ f o, mode (E.FitterReconstruct f o) = mode f

/-- The fitter states on which `Reconstruct` calls the fit for the parameter set `p` (lines
225-237 and 326-339): the inputs of `p` have been handed to the fitter, and after them possibly
an identity prior, or the mode of the first joint reconstruction step. -/
def FitCall (E : Externals) (p : ParameterSet E) (g : E.Fitter) : Prop :=
  ∃ f, g = setInputs E f p ∨ (∃ v, g = E.SetIdentityPrior (setInputs E f p) v) ∨
    g = E.SetOptimizationMode (setInputs E f p) jointMode

/-- A fitter that keeps the sizes of what it is given: after a fit for a parameter set it
returns at most as many landmark indices as the parameter set held, and an identity vector with
as many rows as the one of the parameter set. -/
def FitterKeepsSizes (E : Externals) : Prop :=
  ∀ (p : ParameterSet E) (g : E.Fitter) (opt : OptimizationParameters), FitCall E p g →
    (E.GetIndices (E.FitterReconstruct g opt)).length ≤ p.indices.length ∧
    (E.GetModelParameters (E.FitterReconstruct g opt)).Wid.length = p.model.Wid.length

/-- A parameter set the assembly of the joint problem can process: its image has at least 35
constraints and at least `L` of them, and it holds at most `L` landmark indices. -/
def Assemblable {E : Externals} (L : ℕ) (p : ParameterSet E) : Prop :=
  35 ≤ p.recon.cons.length ∧ L ≤ p.recon.cons.length ∧ p.indices.length ≤ L

/-- The state between two steps of a run with `n` images that can go on without an
out-of-range access: there are `n` parameter sets, each of them `Assemblable`, the consistent
set holds image indices, and all identity vectors have the same number of rows. -/
def CanProceed {E : Externals} (n L : ℕ) (st : State E) : Prop :=
  st.param_sets.length = n ∧ (∀ p ∈ st.param_sets, Assemblable L p) ∧
  (∀ i ∈ st.consistent_set, i < n) ∧ ∃ d, ∀ p ∈ st.param_sets, p.model.Wid.length = d

/-! ## Concrete collaborators, used to evaluate the embedding -/

/-- A sort that meets `StdSortSpec` and keeps elements with equal errors in their order. -/
def stableSort (l : List (ℕ × ℚ)) : List (ℕ × ℚ) :=
  List.insertionSort (fun a b => a.2 ≤ b.2) l

/-- The state of the sample fitter. -/
structure SampleFitter where
  model : ModelParameters
  indices : List ℤ
  width : ℤ
  identity_prior : Option VectorXd
  mode : Option OptimizationMode
  fits : ℕ
deriving DecidableEq, Repr

/-- The fit of the sample fitter: unless a mode has been set, the image width is added to every
identity weight. -/
def SampleFitter.reconstruct (f : SampleFitter) : SampleFitter :=
  { f with
    fits := f.fits + 1
    model :=
      match f.mode with
      | some _ => f.model
      | none => { f.model with Wid := f.model.Wid.map fun x => x + (f.width : ℚ) } }

/-- Sample collaborators: a fitter that reports the average error `7` after every fit, a solver
that adds `1` to every identity weight, and trivial meshes, cameras and tensors. -/
def sampleExternals (sort : List (ℕ × ℚ) → List (ℕ × ℚ)) : Externals where
  BasicMesh := Unit
  CameraParameters := Unit
  MultilinearModel := Unit
  Tensor1 := Unit
  dmat4 := Unit
  Fitter := SampleFitter
  UpdateVertices := fun m _ => m
  ComputeNormals := fun m => m
  CameraDefaultParameters := fun _ _ => ()
  ModelDefaultParameters := fun _ _ =>
    { Wid := [0, 0], Wexp := [], Wexp_FACS := [], R := ⟨0, 0, 0⟩, T := ⟨0, 0, 0⟩ }
  OptimizationDefaults := ⟨0, 0, 0, 0, 0, 0, 0, 0, 0⟩
  value_init_opt := ⟨0, 0, 0, 0, 0, 0, 0, 0, 0⟩
  value_init_stats := ⟨0⟩
  project := fun m _ => m
  ApplyWeights := fun m _ _ => m
  GetTM := fun _ => ()
  eulerAngleYXZ := fun _ _ _ => ()
  translate := fun _ _ _ => ()
  matmul := fun _ _ => ()
  distance := fun a b => |a.1 - b.1| + |a.2 - b.2|
  SetMesh := fun f _ => f
  SetIndices := fun f l => { f with indices := l }
  SetImageSize := fun f w _ => { f with width := w }
  SetConstraints := fun f _ => f
  SetInitialParameters := fun f m _ => { f with model := m }
  SetIdentityPrior := fun f v => { f with identity_prior := some v }
  SetOptimizationMode := fun f m => { f with mode := some m }
  FitterReconstruct := fun f _ => f.reconstruct
  GetGeometry := fun _ => ()
  GetModelParameters := fun f => f.model
  GetIndices := fun f => f.indices
  GetCameraParameters := fun _ => ()
  GetReconstructionStats := fun _ => ⟨7⟩
  Solve := fun _ v => v.map fun x => x + 1
  sort := sort

/-- The mode flag of the sample fitter: all parameter groups are free until a mode is set. -/
def sampleMode (f : SampleFitter) : OptimizationMode :=
  f.mode.getD ⟨true, true, true, true⟩

/-- Thirty-five landmark constraints, the number the pupil positions 28 to 34 ask for. -/
def sampleConstraints : List Constraint :=
  (List.range 35).map fun (j : ℕ) => { data := ((j : ℚ), 0), vidx := (j : ℤ) }

/-- A reconstructor with `n` images of widths `1, 2, ..., n`, before its first run. -/
def sampleReconstructor (sort : List (ℕ × ℚ) → List (ℕ × ℚ)) (n : ℕ) :
    MultiImageReconstructor (sampleExternals sort) where
  model := ()
  prior := { Uid := [], Uexp := [], Wid_avg := [0, 0], inv_sigma_Wid := [], weight_Wid := 1 }
  init_indices := [0, 1]
  template_mesh := ()
  image_points_pairs := (List.range n).map fun (i : ℕ) => (⟨(i : ℤ) + 1, 1⟩, sampleConstraints)
  param_sets := []
  single_recon :=
    { model := { Wid := [], Wexp := [], Wexp_FACS := [], R := ⟨0, 0, 0⟩, T := ⟨0, 0, 0⟩ }
      indices := []
      width := 0
      identity_prior := none
      mode := none
      fits := 0 }

/-- A parameter set of the sample collaborators with the given average error and identity
vector. -/
def sampleParameterSet (sort : List (ℕ × ℚ) → List (ℕ × ℚ)) (avg_error : ℚ) (Wid : VectorXd) :
    ParameterSet (sampleExternals sort) where
  indices := [0, 1]
  mesh := ()
  cam := ()
  model := { Wid := Wid, Wexp := [], Wexp_FACS := [], R := ⟨0, 0, 0⟩, T := ⟨0, 0, 0⟩ }
  recon := { cons := sampleConstraints, imageWidth := 1, imageHeight := 1 }
  opt := ⟨0, 0, 0, 0, 0, 0, 0, 0, 0⟩
  stats := ⟨avg_error⟩

/-- Four images, the second one carrying a large average error. -/
def fourImages (sort : List (ℕ × ℚ) → List (ℕ × ℚ)) : List (ParameterSet (sampleExternals sort)) :=
  [sampleParameterSet sort 3 [1, 2], sampleParameterSet sort 100 [5, 6],
   sampleParameterSet sort 2 [3, 8], sampleParameterSet sort 5 [7, 0]]

/-- Eight images with pairwise different average errors. -/
def eightImages (sort : List (ℕ × ℚ) → List (ℕ × ℚ)) : List (ParameterSet (sampleExternals sort)) :=
  [sampleParameterSet sort 8 [1, 2], sampleParameterSet sort 7 [5, 6],
   sampleParameterSet sort 6 [3, 8], sampleParameterSet sort 5 [7, 0],
   sampleParameterSet sort 4 [1, 2], sampleParameterSet sort 3 [5, 6],
   sampleParameterSet sort 2 [3, 8], sampleParameterSet sort 1 [7, 0]]

/-- Three images with the identity vectors `[1, 0]`, `[0, 0]` and `[0, 0]`. -/
def thirdImages (sort : List (ℕ × ℚ) → List (ℕ × ℚ)) :
    List (ParameterSet (sampleExternals sort)) :=
  [sampleParameterSet sort 0 [1, 0], sampleParameterSet sort 0 [0, 0],
   sampleParameterSet sort 0 [0, 0]]

/-- Seventeen images with the same average error, for the `std::sort` of libstdc++. -/
def seventeenEqualImages : List (ParameterSet (sampleExternals std_sort)) :=
  List.replicate 17 (sampleParameterSet std_sort 1 [1, 2])

/-- Twenty images whose average errors are 0 for the even and 1 for the odd indices, for the
`std::sort` of libstdc++. -/
def alternatingImages : List (ParameterSet (sampleExternals std_sort)) :=
  (List.range 20).map fun (i : ℕ) => sampleParameterSet std_sort ((i % 2 : ℕ) : ℚ) [1, 2]

/-- The sample fitter before its first fit. -/
def sampleFitter : SampleFitter where
  model := { Wid := [], Wexp := [], Wexp_FACS := [], R := ⟨0, 0, 0⟩, T := ⟨0, 0, 0⟩ }
  indices := []
  width := 0
  identity_prior := none
  mode := none
  fits := 0

/-- A reconstructor with `n` images of widths `1, 2, ..., n`, each with the same `k` landmark
constraints, and with `k` initial landmark indices, before its first run. -/
def uniformReconstructor (E : Externals) (model : E.MultilinearModel) (mesh : E.BasicMesh)
    (fitter : E.Fitter) (n k : ℕ) : MultiImageReconstructor E where
  model := model
  prior := { Uid := [], Uexp := [], Wid_avg := [0, 0], inv_sigma_Wid := [], weight_Wid := 1 }
  init_indices := (List.range k).map fun (j : ℕ) => (j : ℤ)
  template_mesh := mesh
  image_points_pairs := (List.range n).map fun (i : ℕ) =>
    (⟨(i : ℤ) + 1, 1⟩, (List.range k).map fun (j : ℕ) => { data := ((j : ℚ), 0), vidx := (j : ℤ) })
  param_sets := []
  single_recon := fitter

/-- Two images of widths 1 and 2 with 35 landmark constraints each and 35 initial landmark
indices, for the sample collaborators. -/
def twoImages : MultiImageReconstructor (sampleExternals stableSort) :=
  uniformReconstructor (sampleExternals stableSort) () () sampleFitter 2 35

/-- Two images with 2 landmark constraints each and 2 initial landmark indices, for the sample
collaborators. -/
def twoLandmarkImages : MultiImageReconstructor (sampleExternals stableSort) :=
  uniformReconstructor (sampleExternals stableSort) () () sampleFitter 2 2

/-- One image with 34 landmark constraints and 34 initial landmark indices, for the sample
collaborators. -/
def shortImage : MultiImageReconstructor (sampleExternals stableSort) :=
  uniformReconstructor (sampleExternals stableSort) () () sampleFitter 1 34

/-- A file system and a renderer on which no output call throws. -/
def quiet : OutputCall → Bool := fun _ => false

/-- A file system on which the directory `multi_recon` cannot be created. -/
def readOnly : OutputCall → Bool := fun c => decide (c = OutputCall.safe_create Directory.result)

/-- A file system on which the directory `step2` cannot be created. -/
def fullAtStep2 : OutputCall → Bool :=
  fun c => decide (c = OutputCall.safe_create (Directory.step 2))

/-- Sample collaborators whose fitter returns one landmark index more than it was given. -/
def longerIndicesExternals : Externals :=
  { sampleExternals stableSort with
    GetIndices := fun (f : SampleFitter) => f.indices ++ [0] }

/-- Sample collaborators whose fitter returns an identity vector with as many rows as it has
made fits. -/
def growingWidExternals : Externals :=
  { sampleExternals stableSort with
    GetModelParameters := fun (f : SampleFitter) =>
      { f.model with Wid := List.replicate f.fits 0 } }

/-- Two images with 35 landmark constraints each and 35 initial landmark indices, for the
fitter that returns one landmark index more than it was given. -/
def twoImagesLonger : MultiImageReconstructor longerIndicesExternals :=
  uniformReconstructor longerIndicesExternals () () sampleFitter 2 35

/-- Two images with 35 landmark constraints each and 35 initial landmark indices, for the
fitter whose identity vectors grow. -/
def twoImagesGrowing : MultiImageReconstructor growingWidExternals :=
  uniformReconstructor growingWidExternals () () sampleFitter 2 35

/-! ## Auxiliary facts -/

/-- Truncating `a / 5 * n` gives the integer quotient of `a * n` by 5. -/
theorem floor_fifths (a n : ℕ) : ⌊((a : ℚ) / 5) * (n : ℚ)⌋ = ((a * n / 5 : ℕ) : ℤ) := by
  have h : ((a : ℚ) / 5) * (n : ℚ) = (((a * n : ℕ) : ℤ) : ℚ) / ((5 : ℕ) : ℚ) := by
    push_cast
    ring
  rw [h, Rat.floor_intCast_div_natCast]
  norm_cast

/-- The number `k` of line 287 for the counter values 1, 2 and 3. -/
theorem selection_k_eq (m n : ℕ) (hm : m = 1 ∨ m = 2 ∨ m = 3) :
    selection_k m n = some ((takenCount m n : ℕ) : ℤ) := by
  have key : ∀ a : ℕ, max 1 (static_cast_int (((a : ℚ) / 5) * (n : ℚ))) =
      ((takenCount a n : ℕ) : ℤ) := by
    intro a
    have hnn : (0 : ℚ) ≤ ((a : ℚ) / 5) * (n : ℚ) := by positivity
    simp only [static_cast_int, if_pos hnn, floor_fifths, takenCount]
    push_cast
    rfl
  rcases hm with h | h | h <;> subst h
  · have := key 1
    simpa [selection_k, ratios] using this
  · have := key 2
    simpa [selection_k, ratios] using this
  · have := key 3
    simpa [selection_k, ratios] using this

/-- At least one image is taken. -/
theorem takenCount_pos (m n : ℕ) : 1 ≤ takenCount m n := le_max_left _ _

/-- With at least one image, no more images are taken than there are. -/
theorem takenCount_le (m n : ℕ) (hm : m ≤ 3) (hn : 1 ≤ n) : takenCount m n ≤ n := by
  unfold takenCount
  have h : m * n / 5 ≤ n := by
    apply Nat.div_le_of_le_mul
    nlinarith
  exact max_le hn h

/-- The first components of `errors` are the image indices in order. -/
theorem errorsOf_map_fst {E : Externals} (param_sets : List (ParameterSet E)) :
    (errorsOf param_sets).map Prod.fst = List.range param_sets.length := by
  unfold errorsOf
  rw [List.map_map]
  exact List.enum_map_fst param_sets

/-- The second component of an entry of `errors` is the average error of its image. -/
theorem errorsOf_snd {E : Externals} (param_sets : List (ParameterSet E)) (a : ℕ × ℚ)
    (ha : a ∈ errorsOf param_sets) : a.2 = avgError param_sets a.1 := by
  unfold errorsOf at ha
  obtain ⟨ip, hip, rfl⟩ := List.mem_map.mp ha
  have h := List.mem_enum_iff_getElem?.mp hip
  simp [avgError, h]

/-- The order in which the sorted `errors` lists the images. -/
theorem sorted_order {E : Externals} (sort : List (ℕ × ℚ) → List (ℕ × ℚ)) (hsort : StdSortSpec sort)
    (param_sets : List (ParameterSet E)) :
    ((sort (errorsOf param_sets)).map Prod.fst).Perm (List.range param_sets.length) ∧
    ((sort (errorsOf param_sets)).map Prod.fst).Pairwise
      (fun i j => avgError param_sets i ≤ avgError param_sets j) := by
  obtain ⟨hperm, hpw⟩ := hsort (errorsOf param_sets)
  refine ⟨?_, ?_⟩
  · rw [← errorsOf_map_fst]
    exact hperm.map _
  · rw [List.pairwise_map]
    refine (List.Pairwise.and_mem.mp hpw).imp ?_
    intro a b hab
    obtain ⟨ha, hb, hr⟩ := hab
    rw [← errorsOf_snd param_sets a (hperm.subset ha), ← errorsOf_snd param_sets b (hperm.subset hb)]
    simpa [errorLess] using hr

/-- The selection returns the first `takenCount` images of the sorted order. -/
theorem select_eq {E : Externals} (sort : List (ℕ × ℚ) → List (ℕ × ℚ)) (hsort : StdSortSpec sort)
    (param_sets : List (ParameterSet E)) (hN : param_sets ≠ []) (m : ℕ)
    (hm : m = 1 ∨ m = 2 ∨ m = 3) :
    selectConsistentSet sort m param_sets =
      some (((sort (errorsOf param_sets)).map Prod.fst).take (takenCount m param_sets.length)) := by
  have hlen : (sort (errorsOf param_sets)).length = param_sets.length := by
    rw [(hsort (errorsOf param_sets)).1.length_eq]
    simp [errorsOf, List.enum_length]
  have hn : 1 ≤ param_sets.length := by
    cases param_sets with
    | nil => exact absurd rfl hN
    | cons p ps => simp
  have hm3 : m ≤ 3 := by omega
  have hle := takenCount_le m param_sets.length hm3 hn
  simp only [selectConsistentSet, selection_k_eq m _ hm, Option.bind_eq_bind, Option.some_bind,
    Int.toNat_ofNat, hlen, if_pos hle, List.map_take]

/-- The order in which the sorted `errors` lists the images, for one call of the sort that
returns a sorted permutation of `errors`. -/
theorem sorted_order_of_call {E : Externals} (sort : List (ℕ × ℚ) → List (ℕ × ℚ))
    (param_sets : List (ParameterSet E))
    (hperm : (sort (errorsOf param_sets)).Perm (errorsOf param_sets))
    (hpw : (sort (errorsOf param_sets)).Pairwise (fun a b => ¬ errorLess b a = true)) :
    ((sort (errorsOf param_sets)).map Prod.fst).Perm (List.range param_sets.length) ∧
    ((sort (errorsOf param_sets)).map Prod.fst).Pairwise
      (fun i j => avgError param_sets i ≤ avgError param_sets j) := by
  refine ⟨?_, ?_⟩
  · rw [← errorsOf_map_fst]
    exact hperm.map _
  · rw [List.pairwise_map]
    refine (List.Pairwise.and_mem.mp hpw).imp ?_
    intro a b hab
    obtain ⟨ha, hb, hr⟩ := hab
    rw [← errorsOf_snd param_sets a (hperm.subset ha), ← errorsOf_snd param_sets b (hperm.subset hb)]
    simpa [errorLess] using hr

/-- The selection returns the first `takenCount` images of the sorted order, for one call of the
sort that returns a permutation of `errors`. -/
theorem select_eq_of_call {E : Externals} (sort : List (ℕ × ℚ) → List (ℕ × ℚ))
    (param_sets : List (ParameterSet E))
    (hperm : (sort (errorsOf param_sets)).Perm (errorsOf param_sets))
    (hN : param_sets ≠ []) (m : ℕ) (hm : m = 1 ∨ m = 2 ∨ m = 3) :
    selectConsistentSet sort m param_sets =
      some (((sort (errorsOf param_sets)).map Prod.fst).take (takenCount m param_sets.length)) := by
  have hlen : (sort (errorsOf param_sets)).length = param_sets.length := by
    rw [hperm.length_eq]
    simp [errorsOf, List.enum_length]
  have hn : 1 ≤ param_sets.length := by
    cases param_sets with
    | nil => exact absurd rfl hN
    | cons p ps => simp
  have hm3 : m ≤ 3 := by omega
  have hle := takenCount_le m param_sets.length hm3 hn
  simp only [selectConsistentSet, selection_k_eq m _ hm, Option.bind_eq_bind, Option.some_bind,
    Int.toNat_ofNat, hlen, if_pos hle, List.map_take]

/-- The sort `stableSort` meets the guarantees of `std::sort`. -/
theorem stableSort_spec : StdSortSpec stableSort := by
  intro l
  haveI : IsTotal (ℕ × ℚ) (fun a b => a.2 ≤ b.2) := ⟨fun a b => le_total a.2 b.2⟩
  haveI : IsTrans (ℕ × ℚ) (fun a b => a.2 ≤ b.2) := ⟨fun _ _ _ hab hbc => le_trans hab hbc⟩
  refine ⟨List.perm_insertionSort _ l, ?_⟩
  have h := List.sorted_insertionSort (fun a b : ℕ × ℚ => a.2 ≤ b.2) l
  refine List.Pairwise.imp ?_ h
  intro a b hab
  simpa [errorLess] using hab

/-- In a list without repetition that is ordered by a key, an element of a prefix has a key
that is at most the key of every element outside the prefix. -/
theorem take_le_outside (order : List ℕ) (key : ℕ → ℚ)
    (hpw : order.Pairwise (fun i j => key i ≤ key j)) (k : ℕ) (i j : ℕ)
    (hi : i ∈ order.take k) (hj : j ∈ order) (hnj : j ∉ order.take k) : key i ≤ key j := by
  have hsplit := List.take_append_drop k order
  have hjd : j ∈ order.drop k := by
    have : j ∈ order.take k ++ order.drop k := by rw [hsplit]; exact hj
    rcases List.mem_append.mp this with h | h
    · exact absurd h hnj
    · exact h
  rw [← hsplit] at hpw
  exact (List.pairwise_append.mp hpw).2.2 i hi j hjd

/-- Rounding zero gives zero. -/
theorem roundDouble_zero : roundDouble 0 = 0 := by
  simp [roundDouble]

/-- Components of the rounded sum of two vectors of the same size. -/
theorem getD_zipWith_add (a b : VectorXd) (h : a.length = b.length) (j : ℕ) :
    (List.zipWith (fun x y => roundDouble (x + y)) a b).getD j 0 =
      roundDouble (a.getD j 0 + b.getD j 0) := by
  induction a generalizing b j with
  | nil =>
    cases b with
    | nil => simp [roundDouble_zero]
    | cons y ys => simp at h
  | cons x xs ih =>
    cases b with
    | nil => simp at h
    | cons y ys =>
      cases j with
      | zero => simp
      | succ n =>
        have h1 : xs.length = ys.length := by simpa using h
        simpa using ih ys h1 n

/-- Components of a vector divided by a number, with rounded quotients. -/
theorem getD_map_div (s : VectorXd) (n : ℚ) (j : ℕ) :
    (s.map fun x => roundDouble (x / n)).getD j 0 = roundDouble (s.getD j 0 / n) := by
  induction s generalizing j with
  | nil => simp [roundDouble_zero]
  | cons x xs ih =>
    cases j with
    | zero => simp
    | succ k => simpa using ih k

/-- Components of the zero vector. -/
theorem getD_replicate_zero (d j : ℕ) : (List.replicate d (0 : ℚ)).getD j 0 = 0 := by
  rw [List.getD_eq_getElem?_getD, List.getElem?_replicate]
  split <;> rfl

/-- The identity vector of an image that exists. -/
theorem widOf_of_getElem? {E : Externals} (param_sets : List (ParameterSet E)) (i : ℕ)
    (p : ParameterSet E) (h : param_sets[i]? = some p) : widOf param_sets i = p.model.Wid := by
  simp [widOf, h]

/-- The loop of lines 298-301 adds, component by component and with a rounding after every
addition, the identity vectors of the images of the consistent set to the accumulator. -/
theorem accumulateWid_spec {E : Externals} (param_sets : List (ParameterSet E)) (d : ℕ) :
    ∀ (cs : List ℕ) (acc : VectorXd), acc.length = d →
      (∀ i ∈ cs, i < param_sets.length ∧ (widOf param_sets i).length = d) →
      ∃ s, accumulateWid param_sets cs acc = some s ∧ s.length = d ∧
        ∀ j, s.getD j 0 =
          cs.foldl (fun a i => roundDouble (a + (widOf param_sets i).getD j 0)) (acc.getD j 0) := by
  intro cs
  induction cs with
  | nil =>
    intro acc hacc _
    exact ⟨acc, rfl, hacc, fun j => by simp⟩
  | cons i rest ih =>
    intro acc hacc hin
    obtain ⟨hi, hd⟩ := hin i (List.mem_cons_self _ _)
    have hget : param_sets[i]? = some param_sets[i] := List.getElem?_eq_getElem hi
    have hw := widOf_of_getElem? param_sets i _ hget
    have hlen : acc.length = (param_sets[i]).model.Wid.length := by rw [hacc, ← hw, hd]
    have hacc1 : (List.zipWith (fun x y => roundDouble (x + y)) acc
        (param_sets[i]).model.Wid).length = d := by
      rw [List.length_zipWith, ← hlen, min_self, hacc]
    obtain ⟨s, hs, hsl, hsum⟩ := ih _ hacc1 (fun k hk => hin k (List.mem_cons_of_mem _ hk))
    refine ⟨s, ?_, hsl, ?_⟩
    · simp only [accumulateWid, hget, add_assign, if_pos hlen, Option.bind_eq_bind,
        Option.some_bind]
      exact hs
    · intro j
      rw [hsum j, getD_zipWith_add _ _ hlen, List.foldl_cons, hw]

/-- The centroid of a non-empty consistent set of valid indices, whose identity vectors have
the rows of the first one: component `j` is the rounded quotient of the rounded sum. -/
theorem identityCentroid_spec {E : Externals} (param_sets : List (ParameterSet E))
    (consistent_set : List ℕ) (hne : consistent_set ≠ []) (d : ℕ)
    (h0 : (widOf param_sets 0).length = d)
    (hin : ∀ i ∈ consistent_set, i < param_sets.length ∧ (widOf param_sets i).length = d) :
    ∃ c, identityCentroid param_sets consistent_set = some c ∧ c.length = d ∧
      ∀ j, c.getD j 0 =
        roundDouble (roundedSum (consistent_set.map fun i => (widOf param_sets i).getD j 0) /
          (consistent_set.length : ℚ)) := by
  obtain ⟨i0, hi0⟩ := List.exists_mem_of_ne_nil consistent_set hne
  have hpos : 0 < param_sets.length := lt_of_le_of_lt (Nat.zero_le _) (hin i0 hi0).1
  have hget0 : param_sets[0]? = some param_sets[0] := List.getElem?_eq_getElem hpos
  have hw0 := widOf_of_getElem? param_sets 0 _ hget0
  have hz : (List.replicate (param_sets[0]).model.Wid.length (0 : ℚ)).length = d := by
    rw [List.length_replicate, ← hw0, h0]
  have hlen0 : consistent_set.length ≠ 0 := fun h => hne (List.length_eq_zero.mp h)
  obtain ⟨s, hs, hsl, hsum⟩ := accumulateWid_spec param_sets d consistent_set _ hz hin
  refine ⟨s.map fun x => roundDouble (x / (consistent_set.length : ℚ)), ?_, ?_, ?_⟩
  · simp only [identityCentroid, hget0, Option.bind_eq_bind, Option.some_bind, hs, if_neg hlen0]
  · rw [List.length_map, hsl]
  · intro j
    rw [getD_map_div, hsum j, getD_replicate_zero, roundedSum, List.foldl_map]

/-- A loop of rounded additions none of which rounds computes the exact sum. -/
theorem foldl_rounded_exact (l : List ℚ) :
    ∀ acc : ℚ, (∀ k, k ≤ l.length → roundDouble (acc + (l.take k).sum) = acc + (l.take k).sum) →
      l.foldl (fun a x => roundDouble (a + x)) acc = acc + l.sum := by
  induction l with
  | nil =>
    intro acc _
    simp
  | cons x xs ih =>
    intro acc h
    have h1 : roundDouble (acc + x) = acc + x := by
      simpa using h 1 (by simp)
    rw [List.foldl_cons, h1, ih (acc + x), List.sum_cons, add_assoc]
    intro k hk
    have h2 := h (k + 1) (by simpa using hk)
    simpa [add_assoc] using h2

/-- Doing nothing changes nothing. -/
theorem Frame.refl {E : Externals} (st : State E) : Frame st st := ⟨rfl, rfl, rfl⟩

/-- What two steps leave unchanged, their sequence leaves unchanged. -/
theorem Frame.trans {E : Externals} {a b c : State E} (h1 : Frame a b) (h2 : Frame b c) :
    Frame a c :=
  ⟨h2.1.trans h1.1, h2.2.1.trans h1.2.1, h2.2.2.trans h1.2.2⟩

/-- Storing the results of a fit does not write the `stats` member. -/
theorem storeResults_stats (E : Externals) (fitter : E.Fitter) (p : ParameterSet E) :
    (storeResults E fitter p).stats = p.stats := rfl

/-- Replacing an entry by one with the same `stats` leaves the list of the `stats` as it is. -/
theorem map_stats_set {E : Externals} (l : List (ParameterSet E)) (i : ℕ) (p q : ParameterSet E)
    (hp : l[i]? = some p) (hq : q.stats = p.stats) :
    (l.set i q).map (fun x => x.stats) = l.map (fun x => x.stats) := by
  rw [List.map_set]
  apply List.ext_getElem?
  intro n
  rw [List.getElem?_set]
  split
  · next hin =>
    subst hin
    split
    · simp [List.getElem?_map, hp, hq]
    · next hlt =>
      rw [List.getElem?_eq_none]
      simpa using hlt
  · rfl

/-- One fit of the single image reconstruction step. -/
theorem singleViewFit_spec (E : Externals) (m : ℕ) (opt : OptimizationParameters)
    (st st1 : State E) (i : ℕ) (r : FitRecord E)
    (h : singleViewFit E m opt st i = some (st1, r)) :
    Frame st st1 ∧ r.image = i ∧
    r.identity_prior = (if m > 1 then some st.identity_centroid else none) := by
  unfold singleViewFit at h
  cases hp : st.param_sets[i]? with
  | none => simp [hp] at h
  | some p =>
    simp only [hp, Option.bind_eq_bind, Option.some_bind, Option.some.injEq, Prod.mk.injEq] at h
    obtain ⟨h1, h2⟩ := h
    subst h1 h2
    exact ⟨⟨rfl, by simp, map_stats_set _ _ p _ hp (storeResults_stats _ _ _)⟩, rfl, rfl⟩

/-- The single image reconstruction step over a list of images. -/
theorem singleViewStage_spec (E : Externals) (m : ℕ) (opt : OptimizationParameters) :
    ∀ (l : List ℕ) (st st1 : State E) (rs : List (FitRecord E)),
      singleViewStage E m opt l st = some (st1, rs) →
      Frame st st1 ∧ rs.map (fun f => f.image) = l ∧
      ∀ r ∈ rs, r.identity_prior = (if m > 1 then some st.identity_centroid else none) := by
  intro l
  induction l with
  | nil =>
    intro st st1 rs h
    simp only [singleViewStage, Option.some.injEq, Prod.mk.injEq] at h
    obtain ⟨h1, h2⟩ := h
    subst h1 h2
    exact ⟨Frame.refl _, rfl, by simp⟩
  | cons i rest ih =>
    intro st st1 rs h
    simp only [singleViewStage, Option.bind_eq_bind, Option.bind_eq_some] at h
    obtain ⟨⟨sta, ra⟩, ha, ⟨stb, rb⟩, hb, hc⟩ := h
    simp only [Option.some.injEq, Prod.mk.injEq] at hc
    obtain ⟨h1, h2⟩ := hc
    subst h1 h2
    obtain ⟨hfa, hia, hpa⟩ := singleViewFit_spec E m opt st sta i ra ha
    obtain ⟨hfb, hib, hpb⟩ := ih sta stb rb hb
    refine ⟨hfa.trans hfb, by simp [hia, hib], ?_⟩
    intro r hr
    rcases List.mem_cons.mp hr with h | h
    · rw [h, hpa]
    · rw [hpb r h, hfa.1]

/-- One fit of the first joint reconstruction step. -/
theorem poseExpressionFit_spec (E : Externals) (opt : OptimizationParameters)
    (st st1 : State E) (i : ℕ) (r : FitRecord E)
    (h : poseExpressionFit E opt st i = some (st1, r)) :
    Frame st st1 ∧ r.image = i ∧ st1.consistent_set = st.consistent_set := by
  unfold poseExpressionFit at h
  cases hp : st.param_sets[i]? with
  | none => simp [hp] at h
  | some p =>
    simp only [hp, Option.bind_eq_bind, Option.some_bind, Option.some.injEq, Prod.mk.injEq] at h
    obtain ⟨h1, h2⟩ := h
    subst h1 h2
    exact ⟨⟨rfl, by simp, map_stats_set _ _ p _ hp (storeResults_stats _ _ _)⟩, rfl, rfl⟩

/-- The first joint reconstruction step over a list of images. -/
theorem poseExpressionStage_spec (E : Externals) (opt : OptimizationParameters) :
    ∀ (l : List ℕ) (st st1 : State E) (rs : List (FitRecord E)),
      poseExpressionStage E opt l st = some (st1, rs) →
      Frame st st1 ∧ rs.map (fun f => f.image) = l ∧
      st1.consistent_set = st.consistent_set := by
  intro l
  induction l with
  | nil =>
    intro st st1 rs h
    simp only [poseExpressionStage, Option.some.injEq, Prod.mk.injEq] at h
    obtain ⟨h1, h2⟩ := h
    subst h1 h2
    exact ⟨Frame.refl _, rfl, rfl⟩
  | cons i rest ih =>
    intro st st1 rs h
    simp only [poseExpressionStage, Option.bind_eq_bind, Option.bind_eq_some] at h
    obtain ⟨⟨sta, ra⟩, ha, ⟨stb, rb⟩, hb, hc⟩ := h
    simp only [Option.some.injEq, Prod.mk.injEq] at hc
    obtain ⟨h1, h2⟩ := hc
    subst h1 h2
    obtain ⟨hfa, hia, hca⟩ := poseExpressionFit_spec E opt st sta i ra ha
    obtain ⟨hfb, hib, hcb⟩ := ih sta stb rb hb
    exact ⟨hfa.trans hfb, by simp [hia, hib], hcb.trans hca⟩

/-- After the loop of lines 305-307 every identity vector is the centroid. -/
theorem broadcastCentroid_spec {E : Externals} (param_sets : List (ParameterSet E))
    (c : VectorXd) :
    AllWid (broadcastCentroid param_sets c) param_sets.length c ∧
    (broadcastCentroid param_sets c).map (fun p => p.stats) =
      param_sets.map (fun p => p.stats) := by
  refine ⟨⟨by simp [broadcastCentroid], ?_⟩, ?_⟩
  · intro p hp
    simp only [broadcastCentroid, List.mem_map] at hp
    obtain ⟨q, -, rfl⟩ := hp
    rfl
  · simp [broadcastCentroid, List.map_map, Function.comp_def]

/-- After the loop of lines 426-435 every identity vector is `params`. -/
theorem broadcastSolved_spec (E : Externals) (params : VectorXd) :
    ∀ (l : List (ParameterSet E)) (model : E.MultilinearModel),
      AllWid (broadcastSolved E params l model).1 l.length params ∧
      (broadcastSolved E params l model).1.map (fun p => p.stats) = l.map (fun p => p.stats) := by
  intro l
  induction l with
  | nil =>
    intro model
    exact ⟨⟨rfl, by simp [broadcastSolved]⟩, rfl⟩
  | cons p rest ih =>
    intro model
    obtain ⟨⟨hl, hw⟩, hs⟩ := ih (E.ApplyWeights model params p.model.Wexp)
    refine ⟨⟨by simp [broadcastSolved, hl], ?_⟩, by simp [broadcastSolved, hs]⟩
    intro q hq
    simp only [broadcastSolved, List.mem_cons] at hq
    rcases hq with h | h
    · rw [h]
    · exact hw q h

/-- One joint identity solve and its broadcast. -/
theorem jointSolve_spec (E : Externals) (prior : MultilinearModelPrior) (st st1 : State E)
    (sr : SolveRecord E) (h : jointSolve E prior st = some (st1, sr)) :
    Frame st st1 ∧ AllWid sr.after_broadcast st.param_sets.length sr.params ∧
    st1.param_sets = sr.after_broadcast ∧ st1.consistent_set = st.consistent_set := by
  simp only [jointSolve, Option.bind_eq_bind, Option.bind_eq_some] at h
  obtain ⟨p0, -, problem, -, hc⟩ := h
  simp only [Option.some.injEq, Prod.mk.injEq] at hc
  obtain ⟨h1, h2⟩ := hc
  subst h1 h2
  obtain ⟨haw, hst⟩ := broadcastSolved_spec E (E.Solve problem p0.model.Wid) st.param_sets st.model
  exact ⟨⟨rfl, haw.1, hst⟩, haw, rfl, rfl⟩

/-- One pass through the body of the joint optimization loop. -/
theorem jointRound_spec (E : Externals) (prior : MultilinearModelPrior) (n : ℕ)
    (opt : OptimizationParameters) (m it : ℕ) (st st1 : State E) (r : RoundRecord E)
    (stop : Bool) (hn : st.param_sets.length = n)
    (h : jointRound E prior n opt m it st = some (st1, r, stop)) :
    Frame st st1 ∧ stop = isFinalRound m it ∧ r.iters_joint_optimization = it ∧
    GoodRound n m r := by
  unfold jointRound at h
  cases hfin : isFinalRound m it with
  | true =>
    simp only [hfin, if_true, Option.bind_eq_bind, Option.bind_eq_some] at h
    obtain ⟨⟨sta, refits⟩, ha, hc⟩ := h
    simp only [Option.some.injEq, Prod.mk.injEq] at hc
    obtain ⟨h1, h2, h3⟩ := hc
    subst h1 h2 h3
    obtain ⟨hfa, hia, -⟩ := poseExpressionStage_spec E opt _ _ _ _ ha
    refine ⟨hfa, rfl, rfl, hia, fun _ => ⟨rfl, rfl⟩, ?_, ?_⟩
    · intro hf
      rw [hfin] at hf
      exact absurd hf (by decide)
    · intro sr hsr
      exact absurd hsr (by simp)
  | false =>
    simp only [hfin, Bool.false_eq_true, if_false, Option.bind_eq_bind, Option.bind_eq_some] at h
    obtain ⟨⟨sta, refits⟩, ha, ⟨stb, solved⟩, hb, hc⟩ := h
    simp only [Option.some.injEq, Prod.mk.injEq] at hc
    obtain ⟨h1, h2, h3⟩ := hc
    subst h1 h2 h3
    obtain ⟨hfa, hia, -⟩ := poseExpressionStage_spec E opt _ _ _ _ ha
    obtain ⟨hfb, haw, -, -⟩ := jointSolve_spec E prior _ _ _ hb
    refine ⟨hfa.trans hfb, rfl, rfl, hia, ?_, fun _ => ⟨solved, rfl⟩, ?_⟩
    · intro hf
      rw [hfin] at hf
      exact absurd hf (by decide)
    · intro sr hsr
      simp only [Option.some.injEq] at hsr
      subst hsr
      rw [hfa.2.1, hn] at haw
      exact haw

/-- The joint optimization loop, started at any counter value. -/
theorem jointLoop_spec (E : Externals) (prior : MultilinearModelPrior) (n : ℕ)
    (opt : OptimizationParameters) (m : ℕ) :
    ∀ (fuel it : ℕ) (st st1 : State E) (rs : List (RoundRecord E)),
      st.param_sets.length = n →
      jointLoop E prior n opt m fuel it st = some (st1, rs) →
      Frame st st1 ∧
      rs.map (fun r => r.iters_joint_optimization) =
        List.range' it (num_iters_joint_optimization m - it) ∧
      ∀ r ∈ rs, GoodRound n m r := by
  intro fuel
  induction fuel with
  | zero =>
    intro it st st1 rs _ h
    simp [jointLoop] at h
  | succ f ih =>
    intro it st st1 rs hn h
    unfold jointLoop at h
    by_cases hlt : it < num_iters_joint_optimization m
    · simp only [if_pos hlt, Option.bind_eq_bind, Option.bind_eq_some] at h
      obtain ⟨⟨sta, r, stop⟩, ha, hc⟩ := h
      obtain ⟨hfa, hstop, hit, hgood⟩ := jointRound_spec E prior n opt m it st sta r stop hn ha
      have hsplit : num_iters_joint_optimization m - it =
          (num_iters_joint_optimization m - (it + 1)) + 1 := by omega
      cases hs : stop with
      | true =>
        simp only [hs, if_true, Option.some.injEq, Prod.mk.injEq] at hc
        obtain ⟨h1, h2⟩ := hc
        subst h1 h2
        have hfinal : isFinalRound m it = true := by rw [← hstop, hs]
        have hlast : it = num_iters_joint_optimization m - 1 := by
          simp only [isFinalRound, Bool.and_eq_true, decide_eq_true_eq] at hfinal
          exact hfinal.1
        have hzero : num_iters_joint_optimization m - (it + 1) = 0 := by omega
        refine ⟨hfa, ?_, ?_⟩
        · rw [hsplit, hzero]
          simp [hit]
        · intro x hx
          rw [List.mem_singleton.mp hx]
          exact hgood
      | false =>
        simp only [hs, Bool.false_eq_true, if_false, Option.bind_eq_some] at hc
        obtain ⟨⟨stb, rest⟩, hb, hd⟩ := hc
        simp only [Option.some.injEq, Prod.mk.injEq] at hd
        obtain ⟨h1, h2⟩ := hd
        subst h1 h2
        obtain ⟨hfb, hitb, hgb⟩ := ih (it + 1) sta stb rest (hfa.2.1.trans hn) hb
        refine ⟨hfa.trans hfb, ?_, ?_⟩
        · rw [hsplit, List.range'_succ, List.map_cons, hit, hitb]
        · intro x hx
          rcases List.mem_cons.mp hx with h | h
          · rw [h]
            exact hgood
          · exact hgb x h
    · simp only [if_neg hlt, Option.some.injEq, Prod.mk.injEq] at h
      obtain ⟨h1, h2⟩ := h
      subst h1 h2
      have hzero : num_iters_joint_optimization m - it = 0 := by omega
      exact ⟨Frame.refl _, by simp [hzero], by simp⟩

/-- One pass through the body of the main loop. -/
theorem macroIteration_spec (E : Externals) (prior : MultilinearModelPrior) (n m : ℕ)
    (st st1 : State E) (r : MacroRecord E) (hn : st.param_sets.length = n)
    (h : macroIteration E prior n m st = some (st1, r)) : GoodMacro n m st st1 r := by
  simp only [macroIteration, Option.bind_eq_bind, Option.bind_eq_some] at h
  obtain ⟨⟨sta, fits⟩, ha, p0, -, iw, -, cs, hcs, c, hc, ⟨stb, rounds⟩, hb, hd⟩ := h
  simp only [Option.some.injEq, Prod.mk.injEq] at hd
  obtain ⟨h1, h2⟩ := hd
  subst h1 h2
  obtain ⟨hfa, hia, hpa⟩ := singleViewStage_spec E m _ _ _ _ _ ha
  have hla : sta.param_sets.length = n := hfa.2.1.trans hn
  obtain ⟨hbw, hbs⟩ := broadcastCentroid_spec sta.param_sets c
  rw [hla] at hbw
  obtain ⟨hfb, hitb, hgb⟩ := jointLoop_spec E prior n _ m _ 0 _ _ _ hbw.1 hb
  exact
    { counter := rfl
      at_start := rfl
      fit_images := hia
      fit_priors := hpa
      length_single_view := hla
      stats_single_view := hfa.2.2
      selected := hcs
      centroid := hc
      broadcast := hbw
      centroid_kept := hfb.1
      length_end := hfb.2.1.trans hbw.1
      stats_end := (hfb.2.2.trans hbs).trans hfa.2.2
      round_counters := by simpa using hitb
      rounds_good := hgb }

/-- There is one parameter set per image when the main loop is entered. -/
theorem initialState_length (E : Externals) (self : MultiImageReconstructor E) :
    (initialState E self).param_sets.length = self.image_points_pairs.length := by
  simp only [initialState, List.length_map, List.length_zip, List.length_append,
    List.length_replicate, List.length_take]
  omega

/-- The shape of every run: three passes through the body of the main loop, with the counter
values 1, 2 and 3, each starting from the state the pass before left. -/
theorem Reconstruct_spec (E : Externals) (self : MultiImageReconstructor E) (out : RunResult E)
    (h : Reconstruct E self = some out) :
    self.image_points_pairs.length ≠ 0 ∧
    ∃ st1 st2 st3 r1 r2 r3,
      GoodMacro self.image_points_pairs.length 1 (initialState E self) st1 r1 ∧
      GoodMacro self.image_points_pairs.length 2 st1 st2 r2 ∧
      GoodMacro self.image_points_pairs.length 3 st2 st3 r3 ∧
      out.macro_iterations = [r1, r2, r3] ∧
      out.returned = true ∧
      out.self.param_sets = st3.param_sets ∧
      out.identity_weights_history = st3.identity_weights_history ∧
      out.identity_weights_centroid_history = st3.identity_weights_centroid_history := by
  unfold Reconstruct at h
  by_cases h0 : self.image_points_pairs.length = 0
  · simp [h0] at h
  · simp only [if_neg h0, Option.bind_eq_bind, Option.bind_eq_some] at h
    obtain ⟨⟨stf, records⟩, hloop, hout⟩ := h
    simp only [Option.some.injEq] at hout
    subst hout
    simp only [mainLoop, Nat.lt_irrefl, Nat.zero_lt_succ, Nat.lt_succ_self, if_true, if_false,
      Nat.reduceAdd, Nat.reduceLT, Option.bind_eq_bind, Option.bind_eq_some, Option.some.injEq,
      Prod.mk.injEq] at hloop
    obtain ⟨a, hm1, a1, ⟨a2, hm2, b, ⟨a3, hm3, a4, h4, hb⟩, ha1⟩, hstf, hrec⟩ := hloop
    subst h4 hb ha1 hstf hrec
    have g1 := macroIteration_spec E self.prior _ 1 _ a.1 a.2 (initialState_length E self) hm1
    have g2 := macroIteration_spec E self.prior _ 2 _ a2.1 a2.2 g1.length_end hm2
    have g3 := macroIteration_spec E self.prior _ 3 _ a3.1 a3.2 g2.length_end hm3
    exact ⟨h0, _, _, _, _, _, _, g1, g2, g3, rfl, rfl, rfl, rfl, rfl⟩

/-- Reading one identity vector when all of them are `v`. -/
theorem AllWid.widOf_eq {E : Externals} {param_sets : List (ParameterSet E)} {n : ℕ}
    {v : VectorXd} (h : AllWid param_sets n v) (i : ℕ) (hi : i < n) :
    widOf param_sets i = v := by
  have hlt : i < param_sets.length := by rw [h.1]; exact hi
  rw [widOf_of_getElem? param_sets i _ (List.getElem?_eq_getElem hlt)]
  exact h.2 _ (List.getElem_mem hlt)

/-- A list whose image under `f` has four entries has four entries. -/
theorem map_eq_four {α β : Type} (f : α → β) (l : List α) (w x y z : β)
    (h : l.map f = [w, x, y, z]) :
    ∃ a b c d, l = [a, b, c, d] ∧ f a = w ∧ f b = x ∧ f c = y ∧ f d = z := by
  match l, h with
  | [a, b, c, d], h =>
    simp only [List.map_cons, List.map_nil, List.cons.injEq, and_true] at h
    exact ⟨a, b, c, d, rfl, h.1, h.2.1, h.2.2.1, h.2.2.2⟩

/-- No statement of `Reconstruct` writes a `stats` member: in every run, the statistics the
selection of a macro-iteration reads are the ones the parameter sets had when the main loop was
entered. -/
theorem Reconstruct_stats_untouched (E : Externals) (self : MultiImageReconstructor E)
    (out : RunResult E) (h : Reconstruct E self = some out) :
    ∀ r ∈ out.macro_iterations,
      r.param_sets_after_single_view.map (fun p => p.stats) =
        (initialState E self).param_sets.map (fun p => p.stats) := by
  obtain ⟨-, st1, st2, st3, r1, r2, r3, g1, g2, g3, hrec, -⟩ := Reconstruct_spec E self out h
  intro r hr
  rw [hrec] at hr
  simp only [List.mem_cons, List.mem_singleton, List.not_mem_nil, or_false] at hr
  rcases hr with h1 | h1 | h1 <;> subst h1
  · exact g1.stats_single_view
  · exact g2.stats_single_view.trans g1.stats_end
  · exact (g3.stats_single_view.trans g2.stats_end).trans g1.stats_end

/-! ## Claim C1 -/

/-- C1: for a non-empty image set of size N and every macro-iteration 1, 2 or 3, the selection
(with any `std::sort` that meets the guarantees of the standard) returns a consistent set of
size k with 1 ≤ k ≤ N, every element is an index below N, and no index occurs twice. -/
theorem C1_consistent_set_size_and_indices {E : Externals}
    (sort : List (ℕ × ℚ) → List (ℕ × ℚ)) (hsort : StdSortSpec sort)
    (param_sets : List (ParameterSet E)) (hN : param_sets ≠ []) (m : ℕ)
    (hm : m = 1 ∨ m = 2 ∨ m = 3) :
    ∃ cs, selectConsistentSet sort m param_sets = some cs ∧
      1 ≤ cs.length ∧ cs.length ≤ param_sets.length ∧
      (∀ i ∈ cs, i < param_sets.length) ∧ cs.Nodup := by
  obtain ⟨hperm, -⟩ := sorted_order sort hsort param_sets
  have hn : 1 ≤ param_sets.length := by
    cases param_sets with
    | nil => exact absurd rfl hN
    | cons p ps => simp
  have hle := takenCount_le m param_sets.length (by omega) hn
  have hpos := takenCount_pos m param_sets.length
  refine ⟨_, select_eq sort hsort param_sets hN m hm, ?_, ?_, ?_, ?_⟩
  · rw [List.length_take, hperm.length_eq, List.length_range]
    exact le_min hpos hn
  · rw [List.length_take, hperm.length_eq, List.length_range]
    exact min_le_right _ _
  · intro i hi
    have := hperm.subset (List.mem_of_mem_take hi)
    exact List.mem_range.mp this
  · exact ((hperm.nodup_iff).mpr (List.nodup_range _)).sublist (List.take_sublist _ _)

/-- Witness of C1: four images, the second with a large error, at macro-iteration 1. -/
theorem C1_witness :
    StdSortSpec stableSort ∧ fourImages stableSort ≠ [] ∧
    ∃ cs, selectConsistentSet stableSort 1 (fourImages stableSort) = some cs ∧
      1 ≤ cs.length ∧ cs.length ≤ (fourImages stableSort).length ∧
      (∀ i ∈ cs, i < (fourImages stableSort).length) ∧ cs.Nodup :=
  ⟨stableSort_spec, by simp [fourImages],
    C1_consistent_set_size_and_indices stableSort stableSort_spec (fourImages stableSort)
      (by simp [fourImages]) 1 (Or.inl rfl)⟩

/-! ## Claim C2 -/

/-- C2: in every run of `Reconstruct` with N images there are three macro-iterations; in each
of them, immediately after the post-selection broadcast, all N parameter sets (those of images
outside the consistent set included) hold one and the same identity vector, the centroid that
was computed from the consistent set; and immediately after the broadcast that follows a joint
solve, all N parameter sets hold one and the same identity vector, the solved vector. -/
theorem C2_broadcast_makes_identity_shared (E : Externals) (self : MultiImageReconstructor E)
    (out : RunResult E) (h : Reconstruct E self = some out) :
    out.macro_iterations.length = 3 ∧
    ∀ r ∈ out.macro_iterations,
      (identityCentroid r.param_sets_after_single_view r.consistent_set =
          some r.identity_centroid ∧
        r.param_sets_after_broadcast.length = self.image_points_pairs.length ∧
        ∀ i j, i < self.image_points_pairs.length → j < self.image_points_pairs.length →
          widOf r.param_sets_after_broadcast i = widOf r.param_sets_after_broadcast j ∧
          widOf r.param_sets_after_broadcast i = r.identity_centroid) ∧
      ∀ x ∈ r.rounds, ∀ sr, x.solve = some sr →
        sr.after_broadcast.length = self.image_points_pairs.length ∧
        ∀ i j, i < self.image_points_pairs.length → j < self.image_points_pairs.length →
          widOf sr.after_broadcast i = widOf sr.after_broadcast j ∧
          widOf sr.after_broadcast i = sr.params := by
  obtain ⟨-, st1, st2, st3, r1, r2, r3, g1, g2, g3, hrec, -⟩ := Reconstruct_spec E self out h
  have key : ∀ (m : ℕ) (sa sb : State E) (r : MacroRecord E),
      GoodMacro self.image_points_pairs.length m sa sb r →
      (identityCentroid r.param_sets_after_single_view r.consistent_set =
          some r.identity_centroid ∧
        r.param_sets_after_broadcast.length = self.image_points_pairs.length ∧
        ∀ i j, i < self.image_points_pairs.length → j < self.image_points_pairs.length →
          widOf r.param_sets_after_broadcast i = widOf r.param_sets_after_broadcast j ∧
          widOf r.param_sets_after_broadcast i = r.identity_centroid) ∧
      ∀ x ∈ r.rounds, ∀ sr, x.solve = some sr →
        sr.after_broadcast.length = self.image_points_pairs.length ∧
        ∀ i j, i < self.image_points_pairs.length → j < self.image_points_pairs.length →
          widOf sr.after_broadcast i = widOf sr.after_broadcast j ∧
          widOf sr.after_broadcast i = sr.params := by
    intro m sa sb r g
    refine ⟨⟨g.centroid, g.broadcast.1, ?_⟩, ?_⟩
    · intro i j hi hj
      rw [g.broadcast.widOf_eq i hi, g.broadcast.widOf_eq j hj]
      exact ⟨rfl, rfl⟩
    · intro x hx sr hsr
      have haw := (g.rounds_good x hx).2.2.2 sr hsr
      refine ⟨haw.1, ?_⟩
      intro i j hi hj
      rw [haw.widOf_eq i hi, haw.widOf_eq j hj]
      exact ⟨rfl, rfl⟩
  refine ⟨by rw [hrec]; rfl, ?_⟩
  intro r hr
  rw [hrec] at hr
  simp only [List.mem_cons, List.mem_singleton, List.not_mem_nil, or_false] at hr
  rcases hr with h1 | h1 | h1 <;> subst h1
  · exact key 1 _ _ _ g1
  · exact key 2 _ _ _ g2
  · exact key 3 _ _ _ g3

/-- Witness of C2: the run of the sample reconstructor with two images. -/
theorem C2_witness :
    ∃ out, Reconstruct (sampleExternals stableSort) (sampleReconstructor stableSort 2) = some out ∧
      out.macro_iterations.length = 3 ∧
      ∀ r ∈ out.macro_iterations,
        (identityCentroid r.param_sets_after_single_view r.consistent_set =
            some r.identity_centroid ∧
          r.param_sets_after_broadcast.length =
            (sampleReconstructor stableSort 2).image_points_pairs.length ∧
          ∀ i j, i < (sampleReconstructor stableSort 2).image_points_pairs.length →
            j < (sampleReconstructor stableSort 2).image_points_pairs.length →
            widOf r.param_sets_after_broadcast i = widOf r.param_sets_after_broadcast j ∧
            widOf r.param_sets_after_broadcast i = r.identity_centroid) ∧
        ∀ x ∈ r.rounds, ∀ sr, x.solve = some sr →
          sr.after_broadcast.length =
            (sampleReconstructor stableSort 2).image_points_pairs.length ∧
          ∀ i j, i < (sampleReconstructor stableSort 2).image_points_pairs.length →
            j < (sampleReconstructor stableSort 2).image_points_pairs.length →
            widOf sr.after_broadcast i = widOf sr.after_broadcast j ∧
            widOf sr.after_broadcast i = sr.params :=
  have hs : (Reconstruct (sampleExternals stableSort)
      (sampleReconstructor stableSort 2)).isSome = true := by decide!
  ⟨_, (Option.some_get hs).symm,
    C2_broadcast_makes_identity_shared (sampleExternals stableSort)
      (sampleReconstructor stableSort 2) _ (Option.some_get hs).symm⟩

/-! ## Claim C3 -/

/-- C3: in every run of `Reconstruct` with N images, the third macro-iteration has four joint
optimization rounds; in the last one (round index 3) the consistent set the pose and expression
fits run over is `[0, 1, ..., N-1]`, whatever set the selection of that macro-iteration had
returned, every image is fitted, and no joint identity solve is executed. -/
theorem C3_final_round_uses_all_images (E : Externals) (self : MultiImageReconstructor E)
    (out : RunResult E) (h : Reconstruct E self = some out) :
    ∃ r1 r2 r3 a b c d,
      out.macro_iterations = [r1, r2, r3] ∧ r3.iters_main_loop = 3 ∧
      selectConsistentSet E.sort 3 r3.param_sets_after_single_view = some r3.consistent_set ∧
      r3.rounds = [a, b, c, d] ∧ d.iters_joint_optimization = 3 ∧
      d.consistent_set = List.range self.image_points_pairs.length ∧
      d.refits.map (fun f => f.image) = List.range self.image_points_pairs.length ∧
      d.solve = none := by
  obtain ⟨-, st1, st2, st3, r1, r2, r3, -, -, g3, hrec, -⟩ := Reconstruct_spec E self out h
  have hcount : r3.rounds.map (fun x => x.iters_joint_optimization) = [0, 1, 2, 3] := by
    rw [g3.round_counters]
    rfl
  obtain ⟨a, b, c, d, hrounds, -, -, -, hd⟩ := map_eq_four _ _ _ _ _ _ hcount
  have hgood := g3.rounds_good d (by rw [hrounds]; simp)
  have hfinal : isFinalRound 3 d.iters_joint_optimization = true := by rw [hd]; rfl
  obtain ⟨hset, hsolve⟩ := hgood.2.1 hfinal
  exact ⟨r1, r2, r3, a, b, c, d, hrec, g3.counter, g3.selected, hrounds, hd, hset,
    by rw [hgood.1, hset], hsolve⟩

/-- Witness of C3: the run of the sample reconstructor with two images, in which the selection
of the third macro-iteration returns the single image 0. -/
theorem C3_witness :
    ∃ out, Reconstruct (sampleExternals stableSort) (sampleReconstructor stableSort 2) = some out ∧
      ∃ r1 r2 r3 a b c d,
        out.macro_iterations = [r1, r2, r3] ∧ r3.iters_main_loop = 3 ∧
        selectConsistentSet (sampleExternals stableSort).sort 3 r3.param_sets_after_single_view =
          some r3.consistent_set ∧
        r3.rounds = [a, b, c, d] ∧ d.iters_joint_optimization = 3 ∧
        d.consistent_set =
          List.range (sampleReconstructor stableSort 2).image_points_pairs.length ∧
        d.refits.map (fun f => f.image) =
          List.range (sampleReconstructor stableSort 2).image_points_pairs.length ∧
        d.solve = none :=
  have hs : (Reconstruct (sampleExternals stableSort)
      (sampleReconstructor stableSort 2)).isSome = true := by decide!
  ⟨_, (Option.some_get hs).symm,
    C3_final_round_uses_all_images (sampleExternals stableSort)
      (sampleReconstructor stableSort 2) _ (Option.some_get hs).symm⟩

/-! ## Claim C4 -/

/-- C4, as stated, fails: with eight images at macro-iteration 3 the code takes
`k = max(1, (int)(0.6 * 8)) = 4` images, whereas rounding `4.8` to the nearest integer gives `5`
(and the entry before, `0.4`, would give `3`). -/
theorem C4_counterexample :
    selection_k 3 8 = some 4 ∧
    selectConsistentSet stableSort 3 (eightImages stableSort) = some [7, 6, 5, 4] ∧
    max 1 (round ((3 / 5 : ℚ) * 8)) = 5 ∧ max 1 (round ((2 / 5 : ℚ) * 8)) = 3 := by
  decide!

/-- C4, amended: for every N ≥ 1 and every macro-iteration m in 1, 2, 3 the entry of the
schedule that is applied is `ratios[m]`, that is 0.2, 0.4, 0.6, and the number of images taken
is `k = max(1, ⌊ratio * N⌋)`, the product truncated and not rounded; in integers,
`k = max(1, m * N div 5)`, and the consistent set has exactly `k` entries. -/
theorem C4_taken_count_truncates {E : Externals}
    (sort : List (ℕ × ℚ) → List (ℕ × ℚ)) (hsort : StdSortSpec sort)
    (param_sets : List (ParameterSet E)) (hN : param_sets ≠ []) (m : ℕ)
    (hm : m = 1 ∨ m = 2 ∨ m = 3) :
    ∃ r, ratios[m]? = some r ∧ r = (m : ℚ) / 5 ∧
      selection_k m param_sets.length = some (max 1 ⌊r * (param_sets.length : ℚ)⌋) ∧
      max 1 ⌊r * (param_sets.length : ℚ)⌋ = ((max 1 (m * param_sets.length / 5) : ℕ) : ℤ) ∧
      ∃ cs, selectConsistentSet sort m param_sets = some cs ∧
        cs.length = max 1 (m * param_sets.length / 5) := by
  have hfl : max 1 ⌊((m : ℚ) / 5) * (param_sets.length : ℚ)⌋ =
      ((max 1 (m * param_sets.length / 5) : ℕ) : ℤ) := by
    rw [floor_fifths]
    push_cast
    rfl
  have hr : ratios[m]? = some ((m : ℚ) / 5) := by
    rcases hm with h | h | h <;> subst h <;> norm_num [ratios]
  obtain ⟨hperm, -⟩ := sorted_order sort hsort param_sets
  have hn : 1 ≤ param_sets.length := by
    cases param_sets with
    | nil => exact absurd rfl hN
    | cons p ps => simp
  have hle := takenCount_le m param_sets.length (by omega) hn
  refine ⟨(m : ℚ) / 5, hr, rfl, ?_, hfl, _, select_eq sort hsort param_sets hN m hm, ?_⟩
  · rw [hfl, selection_k_eq m _ hm]
    rfl
  · rw [List.length_take, hperm.length_eq, List.length_range]
    exact min_eq_left hle

/-- Witness of the amended C4: eight images at macro-iteration 3. -/
theorem C4_witness :
    StdSortSpec stableSort ∧ eightImages stableSort ≠ [] ∧
    ∃ r, ratios[3]? = some r ∧ r = ((3 : ℕ) : ℚ) / 5 ∧
      selection_k 3 (eightImages stableSort).length =
        some (max 1 ⌊r * ((eightImages stableSort).length : ℚ)⌋) ∧
      max 1 ⌊r * ((eightImages stableSort).length : ℚ)⌋ =
        ((max 1 (3 * (eightImages stableSort).length / 5) : ℕ) : ℤ) ∧
      ∃ cs, selectConsistentSet stableSort 3 (eightImages stableSort) = some cs ∧
        cs.length = max 1 (3 * (eightImages stableSort).length / 5) :=
  ⟨stableSort_spec, by simp [eightImages],
    C4_taken_count_truncates stableSort stableSort_spec (eightImages stableSort)
      (by simp [eightImages]) 3 (Or.inr (Or.inr rfl))⟩

/-! ## Claim C5 -/

/-- C5, as stated, fails: with ten images the consistent set of the first macro-iteration has
two entries.  The counter `iters_main_loop` is already 1 when the first selection reads
`ratios[iters_main_loop]`, so the ratio applied first is 0.2 and not 0. -/
theorem C5_counterexample :
    (Reconstruct (sampleExternals stableSort) (sampleReconstructor stableSort 10)).map
      (fun out => out.macro_iterations.map fun r => (r.iters_main_loop, r.consistent_set)) =
      some [(1, [0, 1]), (2, [0, 1, 2, 3]), (3, [0, 1, 2, 3, 4, 5])] ∧
    selection_k 1 10 = some 2 := by
  decide!

/-- C5, amended: the first pass through the main loop runs with the counter `iters_main_loop`
at 1, so the first selection applies `ratios[1] = 0.2`.  For every non-empty image set of size N
its consistent set has `max(1, N div 5)` entries, exactly one when N is at most 9, and its first
entry is an image whose average error is minimal among all N images. -/
theorem C5_first_selection_takes_a_fifth (E : Externals) (hsort : StdSortSpec E.sort)
    (param_sets : List (ParameterSet E)) (hN : param_sets ≠ []) :
    ratios[1]? = some (1 / 5) ∧
    (∃ s tail, selectConsistentSet E.sort 1 param_sets = some (s :: tail) ∧
      (s :: tail).length = max 1 (param_sets.length / 5) ∧
      (param_sets.length < 10 → tail = []) ∧
      s < param_sets.length ∧
      ∀ j, j < param_sets.length → avgError param_sets s ≤ avgError param_sets j) ∧
    ∀ (self : MultiImageReconstructor E) (out : RunResult E), Reconstruct E self = some out →
      ∃ r1 rest, out.macro_iterations = r1 :: rest ∧ r1.iters_main_loop = 1 ∧
        selectConsistentSet E.sort 1 r1.param_sets_after_single_view = some r1.consistent_set := by
  refine ⟨by norm_num [ratios], ?_, ?_⟩
  · obtain ⟨hperm, hpw⟩ := sorted_order E.sort hsort param_sets
    have hsel := select_eq E.sort hsort param_sets hN 1 (Or.inl rfl)
    have hn : 1 ≤ param_sets.length := by
      cases param_sets with
      | nil => exact absurd rfl hN
      | cons p ps => simp
    have hle := takenCount_le 1 param_sets.length (by omega) hn
    have hk : takenCount 1 param_sets.length = max 1 (param_sets.length / 5) := by
      simp [takenCount]
    cases horder : (E.sort (errorsOf param_sets)).map Prod.fst with
    | nil =>
      have := hperm.length_eq
      rw [horder, List.length_range] at this
      simp at this
      omega
    | cons s t =>
      rw [horder] at hperm hpw hsel
      obtain ⟨k, hk1⟩ : ∃ k, takenCount 1 param_sets.length = k + 1 :=
        ⟨takenCount 1 param_sets.length - 1, by have := takenCount_pos 1 param_sets.length; omega⟩
      rw [hk1, List.take_succ_cons] at hsel
      have hlen : (s :: t).length = param_sets.length := by
        rw [hperm.length_eq, List.length_range]
      refine ⟨s, t.take k, hsel, ?_, ?_, ?_, ?_⟩
      · rw [← hk, hk1, List.length_cons, List.length_take]
        simp only [List.length_cons] at hlen
        omega
      · intro hlt
        have : k = 0 := by
          have h5 : param_sets.length / 5 ≤ 1 := by omega
          have : takenCount 1 param_sets.length = 1 := by
            rw [hk]
            exact max_eq_left h5
          omega
        rw [this, List.take_zero]
      · exact List.mem_range.mp (hperm.subset (List.mem_cons_self _ _))
      · intro j hj
        have hmem : j ∈ s :: t := hperm.mem_iff.mpr (List.mem_range.mpr hj)
        rcases List.mem_cons.mp hmem with h | h
        · rw [h]
        · exact (List.pairwise_cons.mp hpw).1 j h
  · intro self out h
    obtain ⟨-, st1, st2, st3, r1, r2, r3, g1, -, -, hrec, -⟩ := Reconstruct_spec E self out h
    exact ⟨r1, [r2, r3], hrec, g1.counter, g1.selected⟩

/-- Witness of the amended C5: four images, the second one carrying a large error; the
consistent set is the single image 2, whose average error 2 is the smallest. -/
theorem C5_witness :
    StdSortSpec (sampleExternals stableSort).sort ∧ fourImages stableSort ≠ [] ∧
    selectConsistentSet stableSort 1 (fourImages stableSort) = some [2] ∧
    (ratios[1]? = some (1 / 5) ∧
    (∃ s tail, selectConsistentSet (sampleExternals stableSort).sort 1 (fourImages stableSort) =
        some (s :: tail) ∧
      (s :: tail).length = max 1 ((fourImages stableSort).length / 5) ∧
      ((fourImages stableSort).length < 10 → tail = []) ∧
      s < (fourImages stableSort).length ∧
      ∀ j, j < (fourImages stableSort).length →
        avgError (fourImages stableSort) s ≤ avgError (fourImages stableSort) j) ∧
    ∀ (self : MultiImageReconstructor (sampleExternals stableSort))
      (out : RunResult (sampleExternals stableSort)),
      Reconstruct (sampleExternals stableSort) self = some out →
      ∃ r1 rest, out.macro_iterations = r1 :: rest ∧ r1.iters_main_loop = 1 ∧
        selectConsistentSet (sampleExternals stableSort).sort 1 r1.param_sets_after_single_view =
          some r1.consistent_set) :=
  ⟨stableSort_spec, by simp [fourImages], by decide!,
    C5_first_selection_takes_a_fifth (sampleExternals stableSort) stableSort_spec
      (fourImages stableSort) (by simp [fourImages])⟩

/-! ## Claim C6 -/

/-- C6, as stated, fails: the centroid is computed in `double` arithmetic and is the arithmetic
mean only up to rounding.  For three images with the identity vectors `[1, 0]`, `[0, 0]` and
`[0, 0]` and the consistent set `[0, 1, 2]`, the first component of the centroid is the double
nearest to `1 / 3`, which is `6004799503160661 / 2 ^ 54`, while the arithmetic mean of 1, 0 and 0
is `1 / 3`. -/
theorem C6_counterexample :
    identityCentroid (thirdImages stableSort) [0, 1, 2] =
      some [6004799503160661 / 18014398509481984, 0] ∧
    (([0, 1, 2] : List ℕ).map fun i => (widOf (thirdImages stableSort) i).getD 0 0).sum /
      ((([0, 1, 2] : List ℕ).length : ℕ) : ℚ) = 1 / 3 ∧
    (6004799503160661 / 18014398509481984 : ℚ) ≠ 1 / 3 ∧
    ¬ (∃ c, identityCentroid (thirdImages stableSort) [0, 1, 2] = some c ∧
        ∀ j, j < 2 → c.getD j 0 =
          (([0, 1, 2] : List ℕ).map fun i => (widOf (thirdImages stableSort) i).getD j 0).sum /
            ((([0, 1, 2] : List ℕ).length : ℕ) : ℚ)) := by
  have hc : identityCentroid (thirdImages stableSort) [0, 1, 2] =
      some [6004799503160661 / 18014398509481984, 0] := by decide!
  refine ⟨hc, by decide!, by decide!, ?_⟩
  rintro ⟨c, h1, h2⟩
  rw [hc] at h1
  have h3 := h2 0 (by decide)
  rw [← Option.some.inj h1] at h3
  revert h3
  decide!

/-- C6, amended: for every non-empty consistent set C of valid indices whose identity vectors
have the number of rows of `param_sets[0].model.Wid` and hold finite doubles, and as long as no
addition overflows, the identity centroid computed after the selection is the mean as `double`
arithmetic computes it: component `j` is the rounded quotient by |C| of the sum of the
`param_sets[i].model.Wid[j]`, accumulated from zero in the order of C with a rounding after every
addition.  It is the exact arithmetic mean whenever none of these operations rounds, and when C
is a single index `s` the centroid is exactly `param_sets[s].model.Wid`. -/
theorem C6_centroid_is_rounded_mean {E : Externals} (param_sets : List (ParameterSet E))
    (consistent_set : List ℕ) (hne : consistent_set ≠ []) (d : ℕ)
    (h0 : (widOf param_sets 0).length = d)
    (hin : ∀ i ∈ consistent_set, i < param_sets.length ∧ (widOf param_sets i).length = d)
    (hdouble : ∀ i ∈ consistent_set, ∀ w ∈ widOf param_sets i, IsDouble w)
    (_hfinite : ∀ j, j < d → ∀ k, k ≤ consistent_set.length →
      |roundedSum ((consistent_set.take k).map fun i => (widOf param_sets i).getD j 0)| <
        2 ^ 1024) :
    ∃ c, identityCentroid param_sets consistent_set = some c ∧ c.length = d ∧
      (∀ j, j < d → c.getD j 0 =
        roundDouble (roundedSum (consistent_set.map fun i => (widOf param_sets i).getD j 0) /
          (consistent_set.length : ℚ))) ∧
      (∀ j, j < d →
        (∀ k, k ≤ consistent_set.length →
          roundDouble (((consistent_set.take k).map fun i => (widOf param_sets i).getD j 0).sum) =
            ((consistent_set.take k).map fun i => (widOf param_sets i).getD j 0).sum) →
        roundDouble ((consistent_set.map fun i => (widOf param_sets i).getD j 0).sum /
            (consistent_set.length : ℚ)) =
          (consistent_set.map fun i => (widOf param_sets i).getD j 0).sum /
            (consistent_set.length : ℚ) →
        c.getD j 0 =
          (consistent_set.map fun i => (widOf param_sets i).getD j 0).sum /
            (consistent_set.length : ℚ)) ∧
      (∀ s, consistent_set = [s] → c = widOf param_sets s) := by
  obtain ⟨c, hc, hcl, hcomp⟩ := identityCentroid_spec param_sets consistent_set hne d h0 hin
  refine ⟨c, hc, hcl, fun j _ => hcomp j, ?_, ?_⟩
  · intro j _ hsums hmean
    have hex := foldl_rounded_exact
      (consistent_set.map fun i => (widOf param_sets i).getD j 0) 0 (by
        intro k hk
        rw [zero_add, ← List.map_take]
        exact hsums k (by simpa using hk))
    rw [zero_add] at hex
    rw [hcomp j, roundedSum, hex, hmean]
  · intro t ht
    subst ht
    have hdt := (hin t (List.mem_singleton_self t)).2
    apply List.ext_getElem
    · rw [hcl, hdt]
    · intro n h1 h2
      have h := hcomp n
      have hmem : (widOf param_sets t)[n] ∈ widOf param_sets t := List.getElem_mem h2
      have hd := (hdouble t (List.mem_singleton_self t) _ hmem).1
      simp only [roundedSum, List.map_cons, List.map_nil, List.foldl_cons, List.foldl_nil,
        zero_add, List.length_singleton, Nat.cast_one, div_one] at h
      rw [List.getD_eq_getElem?_getD, List.getD_eq_getElem?_getD, List.getElem?_eq_getElem h2,
        Option.getD_some, hd, hd, List.getElem?_eq_getElem h1, Option.getD_some] at h
      exact h

/-- Witness of the amended C6: the centroid of the identity vectors `[3, 8]` and `[1, 2]` of
images 2 and 0 of the four images, where no operation rounds, and of image 2 alone. -/
theorem C6_witness :
    (identityCentroid (fourImages stableSort) [2, 0] = some [2, 5] ∧
      ∃ c, identityCentroid (fourImages stableSort) [2, 0] = some c ∧ c.length = 2 ∧
        (∀ j, j < 2 → c.getD j 0 =
          roundDouble (roundedSum (([2, 0] : List ℕ).map fun i =>
              (widOf (fourImages stableSort) i).getD j 0) /
            ((([2, 0] : List ℕ).length : ℕ) : ℚ))) ∧
        (∀ j, j < 2 →
          (∀ k, k ≤ ([2, 0] : List ℕ).length →
            roundDouble (((([2, 0] : List ℕ).take k).map fun i =>
                (widOf (fourImages stableSort) i).getD j 0).sum) =
              ((([2, 0] : List ℕ).take k).map fun i =>
                (widOf (fourImages stableSort) i).getD j 0).sum) →
          roundDouble ((([2, 0] : List ℕ).map fun i =>
                (widOf (fourImages stableSort) i).getD j 0).sum /
              ((([2, 0] : List ℕ).length : ℕ) : ℚ)) =
            (([2, 0] : List ℕ).map fun i => (widOf (fourImages stableSort) i).getD j 0).sum /
              ((([2, 0] : List ℕ).length : ℕ) : ℚ) →
          c.getD j 0 =
            (([2, 0] : List ℕ).map fun i => (widOf (fourImages stableSort) i).getD j 0).sum /
              ((([2, 0] : List ℕ).length : ℕ) : ℚ)) ∧
        (∀ s, [2, 0] = [s] → c = widOf (fourImages stableSort) s)) ∧
    (identityCentroid (fourImages stableSort) [2] = some [3, 8] ∧
      ∃ c, identityCentroid (fourImages stableSort) [2] = some c ∧ c.length = 2 ∧
        (∀ j, j < 2 → c.getD j 0 =
          roundDouble (roundedSum (([2] : List ℕ).map fun i =>
              (widOf (fourImages stableSort) i).getD j 0) /
            ((([2] : List ℕ).length : ℕ) : ℚ))) ∧
        (∀ j, j < 2 →
          (∀ k, k ≤ ([2] : List ℕ).length →
            roundDouble (((([2] : List ℕ).take k).map fun i =>
                (widOf (fourImages stableSort) i).getD j 0).sum) =
              ((([2] : List ℕ).take k).map fun i =>
                (widOf (fourImages stableSort) i).getD j 0).sum) →
          roundDouble ((([2] : List ℕ).map fun i =>
                (widOf (fourImages stableSort) i).getD j 0).sum /
              ((([2] : List ℕ).length : ℕ) : ℚ)) =
            (([2] : List ℕ).map fun i => (widOf (fourImages stableSort) i).getD j 0).sum /
              ((([2] : List ℕ).length : ℕ) : ℚ) →
          c.getD j 0 =
            (([2] : List ℕ).map fun i => (widOf (fourImages stableSort) i).getD j 0).sum /
              ((([2] : List ℕ).length : ℕ) : ℚ)) ∧
        (∀ s, [2] = [s] → c = widOf (fourImages stableSort) s)) :=
  ⟨⟨by decide!,
      C6_centroid_is_rounded_mean (fourImages stableSort) [2, 0] (by simp) 2 (by decide!)
        (by decide!) (by decide!) (by decide!)⟩,
    ⟨by decide!,
      C6_centroid_is_rounded_mean (fourImages stableSort) [2] (by simp) 2 (by decide!)
        (by decide!) (by decide!) (by decide!)⟩⟩

/-! ## Claim C7 -/

/-- C7: for a non-empty image set and every macro-iteration, the consistent set is the prefix of
length k of the list of all image indices sorted by average error; it is therefore listed in
ascending order of average error, and the average error of every selected image is at most the
average error of every image that was not selected. -/
theorem C7_consistent_set_sorted_by_error {E : Externals}
    (sort : List (ℕ × ℚ) → List (ℕ × ℚ)) (hsort : StdSortSpec sort)
    (param_sets : List (ParameterSet E)) (hN : param_sets ≠ []) (m : ℕ)
    (hm : m = 1 ∨ m = 2 ∨ m = 3) :
    ∃ cs order, selectConsistentSet sort m param_sets = some cs ∧
      order = (sort (errorsOf param_sets)).map Prod.fst ∧
      order.Perm (List.range param_sets.length) ∧
      order.Pairwise (fun i j => avgError param_sets i ≤ avgError param_sets j) ∧
      cs = order.take cs.length ∧
      cs.Pairwise (fun i j => avgError param_sets i ≤ avgError param_sets j) ∧
      ∀ i ∈ cs, ∀ j, j < param_sets.length → j ∉ cs →
        avgError param_sets i ≤ avgError param_sets j := by
  obtain ⟨hperm, hpw⟩ := sorted_order sort hsort param_sets
  have hn : 1 ≤ param_sets.length := by
    cases param_sets with
    | nil => exact absurd rfl hN
    | cons p ps => simp
  have hle := takenCount_le m param_sets.length (by omega) hn
  refine ⟨_, _, select_eq sort hsort param_sets hN m hm, rfl, hperm, hpw, ?_, ?_, ?_⟩
  · rw [List.length_take, hperm.length_eq, List.length_range, min_eq_left hle]
  · exact hpw.sublist (List.take_sublist _ _)
  · intro i hi j hj hnj
    exact take_le_outside _ _ hpw _ i j hi (hperm.mem_iff.mpr (List.mem_range.mpr hj)) hnj

/-- Witness of C7: four images, the second with a large error, at macro-iteration 3. -/
theorem C7_witness :
    StdSortSpec stableSort ∧ fourImages stableSort ≠ [] ∧
    ∃ cs order, selectConsistentSet stableSort 3 (fourImages stableSort) = some cs ∧
      order = (stableSort (errorsOf (fourImages stableSort))).map Prod.fst ∧
      order.Perm (List.range (fourImages stableSort).length) ∧
      order.Pairwise
        (fun i j => avgError (fourImages stableSort) i ≤ avgError (fourImages stableSort) j) ∧
      cs = order.take cs.length ∧
      cs.Pairwise
        (fun i j => avgError (fourImages stableSort) i ≤ avgError (fourImages stableSort) j) ∧
      ∀ i ∈ cs, ∀ j, j < (fourImages stableSort).length → j ∉ cs →
        avgError (fourImages stableSort) i ≤ avgError (fourImages stableSort) j :=
  ⟨stableSort_spec, by simp [fourImages],
    C7_consistent_set_sorted_by_error stableSort stableSort_spec (fourImages stableSort)
      (by simp [fourImages]) 3 (Or.inr (Or.inr rfl))⟩

/-! ## Claim C8 -/

/-- C8, as stated, fails: `std::sort` is not a stable sort.  For 17 images with the same average
error, the `std::sort` of libstdc++ partitions the vector around the median of three and swaps
equal elements: it returns the images in the order 8, 16, 15, ..., 9, 0, 7, ..., 1.  At
macro-iteration 1 the consistent set is `[8, 16, 15]`, not `[0, 1, 2]`: image 8 is selected and
image 0, which has the same error and a smaller index, is not.  The run of the sample
reconstructor with 17 images, in which all average errors are equal, selects `[8, 16, 15]`,
then the first 6 and the first 10 images of that order. -/
theorem C8_counterexample :
    (∀ i, i < 17 → ∀ j, j < 17 →
      avgError seventeenEqualImages i = avgError seventeenEqualImages j) ∧
    (std_sort (errorsOf seventeenEqualImages)).map Prod.fst =
      [8, 16, 15, 14, 13, 12, 11, 10, 9, 0, 7, 6, 5, 4, 3, 2, 1] ∧
    selectConsistentSet std_sort 1 seventeenEqualImages = some [8, 16, 15] ∧
    (Reconstruct (sampleExternals std_sort) (sampleReconstructor std_sort 17)).map
      (fun out => out.macro_iterations.map fun r => r.consistent_set) =
      some [[8, 16, 15], [8, 16, 15, 14, 13, 12], [8, 16, 15, 14, 13, 12, 11, 10, 9, 0]] ∧
    ¬ (∀ cs, selectConsistentSet std_sort 1 seventeenEqualImages = some cs →
        ∀ i j, i < j → avgError seventeenEqualImages i = avgError seventeenEqualImages j →
          j ∈ cs → i ∈ cs) ∧
    ¬ selectConsistentSet std_sort 1 seventeenEqualImages = some [0, 1, 2] := by
  have hsel : selectConsistentSet std_sort 1 seventeenEqualImages = some [8, 16, 15] := by
    decide!
  refine ⟨by decide!, by decide!, hsel, by decide!, ?_, by rw [hsel]; decide⟩
  intro h
  have h1 := h [8, 16, 15] hsel 0 8 (by decide) (by decide!) (by decide)
  revert h1
  decide

/-- C8, amended: the selection orders the images by average error only and leaves the order of
images with equal average error to `std::sort`, which does not keep it.  Whenever the call of
`std::sort` returns a sorted permutation of its input, as the standard guarantees: for every
pair of images with `avg_error(i) < avg_error(j)`, if `j` is in the consistent set then `i` is
too; and when all images have the same average error the consistent set consists of `k` distinct
indices below N, and it is `[0, 1, ..., k-1]` in case the sort returned its input unchanged. -/
theorem C8_ties_unspecified {E : Externals}
    (sort : List (ℕ × ℚ) → List (ℕ × ℚ)) (param_sets : List (ParameterSet E))
    (hperm : (sort (errorsOf param_sets)).Perm (errorsOf param_sets))
    (hsorted : (sort (errorsOf param_sets)).Pairwise (fun a b => ¬ errorLess b a = true))
    (hN : param_sets ≠ []) (m : ℕ) (hm : m = 1 ∨ m = 2 ∨ m = 3) :
    ∃ cs, selectConsistentSet sort m param_sets = some cs ∧
      (∀ i j, i < param_sets.length → avgError param_sets i < avgError param_sets j →
        j ∈ cs → i ∈ cs) ∧
      ((∀ i j, i < param_sets.length → j < param_sets.length →
          avgError param_sets i = avgError param_sets j) →
        cs.length = max 1 (m * param_sets.length / 5) ∧ cs.Nodup ∧
        (∀ i ∈ cs, i < param_sets.length) ∧
        (sort (errorsOf param_sets) = errorsOf param_sets → cs = List.range cs.length)) := by
  obtain ⟨hperm1, hpw⟩ := sorted_order_of_call sort param_sets hperm hsorted
  have hn : 1 ≤ param_sets.length := by
    cases param_sets with
    | nil => exact absurd rfl hN
    | cons p ps => simp
  have hle := takenCount_le m param_sets.length (by omega) hn
  have hlen : (((sort (errorsOf param_sets)).map Prod.fst).take
      (takenCount m param_sets.length)).length = takenCount m param_sets.length := by
    rw [List.length_take, hperm1.length_eq, List.length_range]
    exact min_eq_left hle
  refine ⟨_, select_eq_of_call sort param_sets hperm hN m hm, ?_, ?_⟩
  · intro i j hi hlt hj
    by_contra hni
    have := take_le_outside _ _ hpw _ j i hj (hperm1.mem_iff.mpr (List.mem_range.mpr hi)) hni
    exact absurd hlt (not_lt.mpr this)
  · intro _
    refine ⟨hlen, ?_, ?_, ?_⟩
    · exact ((hperm1.nodup_iff).mpr (List.nodup_range _)).sublist (List.take_sublist _ _)
    · intro i hi
      exact List.mem_range.mp (hperm1.subset (List.mem_of_mem_take hi))
    · intro hid
      rw [hlen, hid, errorsOf_map_fst, List.take_range, min_eq_left hle]

/-- Witness of the amended C8, with the `std::sort` of libstdc++.  (1) Seventeen images with the
same average error at macro-iteration 1: the consistent set `[8, 16, 15]` has 3 distinct indices
below 17.  (2) Twenty images whose average errors are 0 for the even and 1 for the odd indices, at
macro-iteration 3: the consistent set holds the ten images of error 0 and, of the images of error
1, the images 19 and 17. -/
theorem C8_witness :
    ((std_sort (errorsOf seventeenEqualImages)).Perm (errorsOf seventeenEqualImages) ∧
      (std_sort (errorsOf seventeenEqualImages)).Pairwise (fun a b => ¬ errorLess b a = true) ∧
      seventeenEqualImages ≠ [] ∧
      (∀ i, i < 17 → ∀ j, j < 17 →
        avgError seventeenEqualImages i = avgError seventeenEqualImages j) ∧
      selectConsistentSet std_sort 1 seventeenEqualImages = some [8, 16, 15] ∧
      ∃ cs, selectConsistentSet std_sort 1 seventeenEqualImages = some cs ∧
        (∀ i j, i < seventeenEqualImages.length →
          avgError seventeenEqualImages i < avgError seventeenEqualImages j → j ∈ cs → i ∈ cs) ∧
        ((∀ i j, i < seventeenEqualImages.length → j < seventeenEqualImages.length →
            avgError seventeenEqualImages i = avgError seventeenEqualImages j) →
          cs.length = max 1 (1 * seventeenEqualImages.length / 5) ∧ cs.Nodup ∧
          (∀ i ∈ cs, i < seventeenEqualImages.length) ∧
          (std_sort (errorsOf seventeenEqualImages) = errorsOf seventeenEqualImages →
            cs = List.range cs.length))) ∧
    ((std_sort (errorsOf alternatingImages)).Perm (errorsOf alternatingImages) ∧
      (std_sort (errorsOf alternatingImages)).Pairwise (fun a b => ¬ errorLess b a = true) ∧
      alternatingImages ≠ [] ∧
      avgError alternatingImages 18 < avgError alternatingImages 19 ∧
      avgError alternatingImages 1 = avgError alternatingImages 19 ∧
      selectConsistentSet std_sort 3 alternatingImages =
        some [0, 2, 18, 4, 6, 16, 8, 10, 14, 12, 19, 17] ∧
      ∃ cs, selectConsistentSet std_sort 3 alternatingImages = some cs ∧
        (∀ i j, i < alternatingImages.length →
          avgError alternatingImages i < avgError alternatingImages j → j ∈ cs → i ∈ cs) ∧
        ((∀ i j, i < alternatingImages.length → j < alternatingImages.length →
            avgError alternatingImages i = avgError alternatingImages j) →
          cs.length = max 1 (3 * alternatingImages.length / 5) ∧ cs.Nodup ∧
          (∀ i ∈ cs, i < alternatingImages.length) ∧
          (std_sort (errorsOf alternatingImages) = errorsOf alternatingImages →
            cs = List.range cs.length))) :=
  ⟨⟨by decide!, by decide!, by simp [seventeenEqualImages], by decide!, by decide!,
      C8_ties_unspecified std_sort seventeenEqualImages (by decide!) (by decide!)
        (by simp [seventeenEqualImages]) 1 (Or.inl rfl)⟩,
    ⟨by decide!, by decide!, by simp [alternatingImages], by decide!, by decide!, by decide!,
      C8_ties_unspecified std_sort alternatingImages (by decide!) (by decide!)
        (by simp [alternatingImages]) 3 (Or.inr (Or.inr rfl))⟩⟩

/-! ## Claim C9 -/

/-- C9 fails on the code: the results stored after a fit are the mesh, the model parameters,
the indices and the camera (lines 239-244), never the statistics.  In the run of the sample
reconstructor with two images the fitter reports the average error 7 after every fit, the
`stats.avg_error` of the parameter set just stored is still 0, and the selection of every
macro-iteration ranks the values 0 and 0. -/
theorem C9_fit_error_is_not_stored :
    (Reconstruct (sampleExternals stableSort) (sampleReconstructor stableSort 2)).map
      (fun out => out.macro_iterations.map fun r =>
        (r.single_view.map fun f =>
          (((sampleExternals stableSort).GetReconstructionStats f.fitter_after).avg_error,
            f.stored.stats.avg_error),
         errorsOf r.param_sets_after_single_view)) =
      some [([(7, 0), (7, 0)], [(0, 0), (1, 0)]), ([(7, 0), (7, 0)], [(0, 0), (1, 0)]),
            ([(7, 0), (7, 0)], [(0, 0), (1, 0)])] := by
  decide!

/-! ## Claim C10 -/

/-- C10, as stated, fails: the vector handed to `SetIdentityPrior` is the variable
`identity_centroid`, which is assigned only after the selection (lines 297-302) and is not
updated by the joint solves.  In the run of the sample reconstructor with two images the fits of
macro-iteration 2 receive `[1, 1]`, the centroid of macro-iteration 1, while every parameter set
holds `[4, 4]`, the result of the last joint solve, when macro-iteration 2 starts. -/
theorem C10_counterexample :
    (Reconstruct (sampleExternals stableSort) (sampleReconstructor stableSort 2)).map
      (fun out => out.macro_iterations.map fun r =>
        r.param_sets_at_start.map (fun p => p.model.Wid)) =
      some [[[0, 0], [0, 0]], [[4, 4], [4, 4]], [[7, 7], [7, 7]]] ∧
    (Reconstruct (sampleExternals stableSort) (sampleReconstructor stableSort 2)).map
      (fun out => out.macro_iterations.map fun r =>
        r.single_view.map (fun f => f.identity_prior)) =
      some [[none, none], [some [1, 1], some [1, 1]], [some [4, 4], some [4, 4]]] ∧
    (Reconstruct (sampleExternals stableSort) (sampleReconstructor stableSort 2)).map
      (fun out => out.macro_iterations.map fun r => r.identity_centroid) =
      some [[1, 1], [4, 4], [7, 7]] ∧
    (Reconstruct (sampleExternals stableSort) (sampleReconstructor stableSort 2)).map
      (fun out => out.identity_weights_centroid_history) =
      some [[2, 2], [3, 3], [4, 4], [5, 5], [6, 6], [7, 7], [8, 8], [9, 9], [10, 10]] := by
  refine ⟨?_, ?_, ?_, ?_⟩ <;> decide!

/-- C10, amended: in every run of `Reconstruct` with N images, the fits of macro-iteration 1
are handed no identity prior; every one of the N fits of macro-iteration 2 is handed, by
`SetIdentityPrior`, the centroid that macro-iteration 1 computed after its selection, and every
one of the N fits of macro-iteration 3 the centroid that macro-iteration 2 computed after its
selection (the value of `identity_centroid`, which the joint solves do not update). -/
theorem C10_identity_prior_is_previous_centroid (E : Externals)
    (self : MultiImageReconstructor E) (out : RunResult E) (h : Reconstruct E self = some out) :
    ∃ r1 r2 r3,
      out.macro_iterations = [r1, r2, r3] ∧
      identityCentroid r1.param_sets_after_single_view r1.consistent_set =
        some r1.identity_centroid ∧
      identityCentroid r2.param_sets_after_single_view r2.consistent_set =
        some r2.identity_centroid ∧
      r1.single_view.map (fun f => f.image) = List.range self.image_points_pairs.length ∧
      r2.single_view.map (fun f => f.image) = List.range self.image_points_pairs.length ∧
      r3.single_view.map (fun f => f.image) = List.range self.image_points_pairs.length ∧
      (∀ f ∈ r1.single_view, f.identity_prior = none) ∧
      (∀ f ∈ r2.single_view, f.identity_prior = some r1.identity_centroid) ∧
      (∀ f ∈ r3.single_view, f.identity_prior = some r2.identity_centroid) := by
  obtain ⟨-, st1, st2, st3, r1, r2, r3, g1, g2, g3, hrec, -⟩ := Reconstruct_spec E self out h
  refine ⟨r1, r2, r3, hrec, g1.centroid, g2.centroid, g1.fit_images, g2.fit_images,
    g3.fit_images, ?_, ?_, ?_⟩
  · intro f hf
    simpa using g1.fit_priors f hf
  · intro f hf
    have := g2.fit_priors f hf
    rw [g1.centroid_kept] at this
    simpa using this
  · intro f hf
    have := g3.fit_priors f hf
    rw [g2.centroid_kept] at this
    simpa using this

/-- Witness of the amended C10: the run of the sample reconstructor with two images. -/
theorem C10_witness :
    ∃ out, Reconstruct (sampleExternals stableSort) (sampleReconstructor stableSort 2) = some out ∧
      ∃ r1 r2 r3,
        out.macro_iterations = [r1, r2, r3] ∧
        identityCentroid r1.param_sets_after_single_view r1.consistent_set =
          some r1.identity_centroid ∧
        identityCentroid r2.param_sets_after_single_view r2.consistent_set =
          some r2.identity_centroid ∧
        r1.single_view.map (fun f => f.image) =
          List.range (sampleReconstructor stableSort 2).image_points_pairs.length ∧
        r2.single_view.map (fun f => f.image) =
          List.range (sampleReconstructor stableSort 2).image_points_pairs.length ∧
        r3.single_view.map (fun f => f.image) =
          List.range (sampleReconstructor stableSort 2).image_points_pairs.length ∧
        (∀ f ∈ r1.single_view, f.identity_prior = none) ∧
        (∀ f ∈ r2.single_view, f.identity_prior = some r1.identity_centroid) ∧
        (∀ f ∈ r3.single_view, f.identity_prior = some r2.identity_centroid) :=
  have hs : (Reconstruct (sampleExternals stableSort)
      (sampleReconstructor stableSort 2)).isSome = true := by decide!
  ⟨_, (Option.some_get hs).symm,
    C10_identity_prior_is_previous_centroid (sampleExternals stableSort)
      (sampleReconstructor stableSort 2) _ (Option.some_get hs).symm⟩

/-! ## Auxiliary facts about the assembly, the fitter mode, the histories and complete runs -/

/-- The per-vertex loop completes exactly when every position it reads exists; it then adds one
block per position, created for a parameter block of the given size from the constraint at that
position. -/
theorem vertexBlocks_spec (E : Externals) (p : ParameterSet E)
    (mp : List E.MultilinearModel) (n : ℕ) (Mv Rm : E.dmat4) (w : ℚ) :
    ∀ l : List ℕ,
      ((vertexBlocks E p mp n Mv Rm w l).isSome = true ↔
        ∀ j ∈ l, j < mp.length ∧ j < p.recon.cons.length) ∧
      ∀ blocks, vertexBlocks E p mp n Mv Rm w l = some blocks →
        blocks.length = l.length ∧
        blocks.map blockCons = l.map (fun j => p.recon.cons[j]?) ∧
        ∀ b ∈ blocks, blockParamsSize b = n ∧ (blockCons b).isSome = true := by
  intro l
  induction l with
  | nil =>
    refine ⟨by simp [vertexBlocks], ?_⟩
    intro blocks h
    simp only [vertexBlocks, Option.some.injEq] at h
    subst h
    simp
  | cons j rest ih =>
    obtain ⟨ih1, ih2⟩ := ih
    constructor
    · constructor
      · intro h
        obtain ⟨blocks, hb⟩ := Option.isSome_iff_exists.mp h
        simp only [vertexBlocks, Option.bind_eq_bind, Option.bind_eq_some] at hb
        obtain ⟨m, hm, c, hc, bs, hbs, -⟩ := hb
        have hrest := ih1.mp (by rw [hbs]; rfl)
        intro k hk
        rcases List.mem_cons.mp hk with h1 | h1
        · subst h1
          exact ⟨(List.getElem?_eq_some.mp hm).1, (List.getElem?_eq_some.mp hc).1⟩
        · exact hrest k h1
      · intro h
        obtain ⟨hj1, hj2⟩ := h j (List.mem_cons_self _ _)
        have hrest := ih1.mpr (fun k hk => h k (List.mem_cons_of_mem _ hk))
        obtain ⟨bs, hbs⟩ := Option.isSome_iff_exists.mp hrest
        simp [vertexBlocks, List.getElem?_eq_getElem hj1, List.getElem?_eq_getElem hj2, hbs]
    · intro blocks hb
      simp only [vertexBlocks, Option.bind_eq_bind, Option.bind_eq_some] at hb
      obtain ⟨m, hm, c, hc, bs, hbs, heq⟩ := hb
      simp only [Option.some.injEq] at heq
      subst heq
      obtain ⟨hl, hcons, hall⟩ := ih2 bs hbs
      refine ⟨by simp [hl], by simp [blockCons, hc, hcons], ?_⟩
      intro b hb
      rcases List.mem_cons.mp hb with h1 | h1
      · subst h1
        exact ⟨rfl, rfl⟩
      · exact hall b h1

/-- The accesses of one image are all in range exactly when the image has at least 35
constraints and no more landmark indices than constraints. -/
theorem accessedPositions_in_range {E : Externals} (p : ParameterSet E) :
    (∀ k ∈ accessedPositions p, k < p.recon.cons.length) ↔
      35 ≤ p.recon.cons.length ∧ p.indices.length ≤ p.recon.cons.length := by
  unfold accessedPositions
  constructor
  · intro h
    have h34 := h 34 (by simp)
    refine ⟨by omega, ?_⟩
    by_contra hlt
    have hlt1 : p.recon.cons.length < p.indices.length := by omega
    have := h p.recon.cons.length (by simp [hlt1])
    omega
  · intro h k hk
    simp only [List.mem_append, List.mem_cons, List.mem_singleton, List.not_mem_nil, or_false,
      List.mem_range] at hk
    omega

/-- The body of the assembly loop for one image completes exactly when all the positions it
reads exist; it then contributes one block per landmark index, the block of index position `j`
being created from the constraint at position `j`. -/
theorem imageBlocks_spec (E : Externals) (model : E.MultilinearModel) (n : ℕ)
    (p : ParameterSet E) :
    ((imageBlocks E model n p).isSome = true ↔ ∀ k ∈ accessedPositions p, k < p.recon.cons.length) ∧
    ∀ blocks, imageBlocks E model n p = some blocks →
      blocks.length = p.indices.length ∧
      blocks.map blockCons = (p.recon.cons.take p.indices.length).map some ∧
      ∀ b ∈ blocks, blockParamsSize b = n ∧ (blockCons b).isSome = true := by
  constructor
  · rw [accessedPositions_in_range]
    constructor
    · intro h
      obtain ⟨blocks, hb⟩ := Option.isSome_iff_exists.mp h
      simp only [imageBlocks, Option.bind_eq_bind, Option.bind_eq_some] at hb
      obtain ⟨c28, -, c30, -, c32, -, c34, h34, hv⟩ := hb
      have hlt := (List.getElem?_eq_some.mp h34).1
      have hrange := (vertexBlocks_spec E p _ n _ _ _ _).1.mp (by rw [hv]; rfl)
      refine ⟨by omega, ?_⟩
      by_contra hgt
      have hlt1 : p.recon.cons.length < p.indices.length := by omega
      have := (hrange p.recon.cons.length (List.mem_range.mpr hlt1)).2
      omega
    · intro h
      obtain ⟨h35, hle⟩ := h
      have e28 : p.recon.cons[28]? = some p.recon.cons[28] := List.getElem?_eq_getElem (by omega)
      have e30 : p.recon.cons[30]? = some p.recon.cons[30] := List.getElem?_eq_getElem (by omega)
      have e32 : p.recon.cons[32]? = some p.recon.cons[32] := List.getElem?_eq_getElem (by omega)
      have e34 : p.recon.cons[34]? = some p.recon.cons[34] := List.getElem?_eq_getElem (by omega)
      simp only [imageBlocks, e28, e30, e32, e34, Option.bind_eq_bind, Option.some_bind]
      refine (vertexBlocks_spec E p _ n _ _ _ _).1.mpr ?_
      intro j hj
      have := List.mem_range.mp hj
      simp only [List.length_map]
      omega
  · intro blocks hb
    simp only [imageBlocks, Option.bind_eq_bind, Option.bind_eq_some] at hb
    obtain ⟨c28, -, c30, -, c32, -, c34, -, hv⟩ := hb
    have hrange := (vertexBlocks_spec E p _ n _ _ _ _).1.mp (by rw [hv]; rfl)
    obtain ⟨hl, hcons, hall⟩ := (vertexBlocks_spec E p _ n _ _ _ _).2 blocks hv
    refine ⟨by simpa using hl, ?_, hall⟩
    rw [hcons]
    apply List.ext_getElem?
    intro k
    by_cases hk : k < p.indices.length
    · have hkc := (hrange k (List.mem_range.mpr hk)).2
      simp [List.getElem?_map, List.getElem?_range hk, List.getElem?_take, hk,
        List.getElem?_eq_getElem hkc]
    · have h1 : (List.map (fun j => p.recon.cons[j]?) (List.range p.indices.length))[k]? = none := by
        rw [List.getElem?_eq_none]
        simpa using hk
      have h2 : (List.map some (List.take p.indices.length p.recon.cons))[k]? = none := by
        rw [List.getElem?_eq_none]
        simp only [List.length_map, List.length_take]
        omega
      rw [h1, h2]

/-- The landmark index list of an image that exists. -/
theorem indicesOf_of_getElem? {E : Externals} (param_sets : List (ParameterSet E)) (i : ℕ)
    (p : ParameterSet E) (h : param_sets[i]? = some p) : indicesOf param_sets i = p.indices := by
  simp [indicesOf, h]

/-- The constraint list of an image that exists. -/
theorem consOf_of_getElem? {E : Externals} (param_sets : List (ParameterSet E)) (i : ℕ)
    (p : ParameterSet E) (h : param_sets[i]? = some p) : consOf param_sets i = p.recon.cons := by
  simp [consOf, h]

/-- The assembly loop over a list of existing images completes exactly when every image has at
least 35 constraints and no more landmark indices than constraints; it then adds, image after
image, one block per landmark index. -/
theorem assembleImages_spec (E : Externals) (model : E.MultilinearModel) (n : ℕ)
    (param_sets : List (ParameterSet E)) :
    ∀ C : List ℕ, (∀ i ∈ C, i < param_sets.length) →
      ((assembleImages E model n param_sets C).isSome = true ↔
        ∀ i ∈ C, 35 ≤ (consOf param_sets i).length ∧
          (indicesOf param_sets i).length ≤ (consOf param_sets i).length) ∧
      ∀ blocks, assembleImages E model n param_sets C = some blocks →
        blocks.length = (C.map fun i => (indicesOf param_sets i).length).sum ∧
        blocks.map blockCons =
          (C.flatMap fun i =>
            (consOf param_sets i).take (indicesOf param_sets i).length).map some ∧
        ∀ b ∈ blocks, blockParamsSize b = n ∧ (blockCons b).isSome = true := by
  intro C
  induction C with
  | nil =>
    intro _
    refine ⟨by simp [assembleImages], ?_⟩
    intro blocks h
    simp only [assembleImages, Option.some.injEq] at h
    subst h
    simp
  | cons i rest ih =>
    intro hC
    have hi : i < param_sets.length := hC i (List.mem_cons_self _ _)
    have hget : param_sets[i]? = some param_sets[i] := List.getElem?_eq_getElem hi
    have hidx := indicesOf_of_getElem? param_sets i _ hget
    have hcon := consOf_of_getElem? param_sets i _ hget
    obtain ⟨ih1, ih2⟩ := ih (fun k hk => hC k (List.mem_cons_of_mem _ hk))
    obtain ⟨hb1, hb2⟩ := imageBlocks_spec E model n param_sets[i]
    rw [accessedPositions_in_range] at hb1
    constructor
    · constructor
      · intro h
        obtain ⟨blocks, hb⟩ := Option.isSome_iff_exists.mp h
        simp only [assembleImages, hget, Option.bind_eq_bind, Option.some_bind,
          Option.bind_eq_some] at hb
        obtain ⟨bs, hbs, more, hmore, -⟩ := hb
        have himg := hb1.mp (by rw [hbs]; rfl)
        have hrest := ih1.mp (by rw [hmore]; rfl)
        intro k hk
        rcases List.mem_cons.mp hk with h1 | h1
        · subst h1
          rw [hidx, hcon]
          exact himg
        · exact hrest k h1
      · intro h
        have himg := h i (List.mem_cons_self _ _)
        rw [hidx, hcon] at himg
        obtain ⟨bs, hbs⟩ := Option.isSome_iff_exists.mp (hb1.mpr himg)
        obtain ⟨more, hmore⟩ := Option.isSome_iff_exists.mp
          (ih1.mpr (fun k hk => h k (List.mem_cons_of_mem _ hk)))
        simp [assembleImages, hget, hbs, hmore]
    · intro blocks hb
      simp only [assembleImages, hget, Option.bind_eq_bind, Option.some_bind,
        Option.bind_eq_some] at hb
      obtain ⟨bs, hbs, more, hmore, heq⟩ := hb
      simp only [Option.some.injEq] at heq
      subst heq
      obtain ⟨hl1, hc1, ha1⟩ := hb2 bs hbs
      obtain ⟨hl2, hc2, ha2⟩ := ih2 more hmore
      refine ⟨?_, ?_, ?_⟩
      · rw [List.length_append, hl1, hl2, List.map_cons, List.sum_cons, hidx]
      · rw [List.map_append, hc1, hc2, List.flatMap_cons, List.map_append, hidx, hcon]
      · intro b hb
        rcases List.mem_append.mp hb with h1 | h1
        · exact ha1 b h1
        · exact ha2 b h1

/-- Handing the inputs of an image to the fitter leaves the mode flag. -/
theorem setInputs_mode (E : Externals) (mode : E.Fitter → OptimizationMode)
    (hmode : ModeFlag E mode) (f : E.Fitter) (p : ParameterSet E) :
    mode (setInputs E f p) = mode f := by
  simp only [setInputs, hmode.set_initial_parameters, hmode.set_constraints,
    hmode.set_image_size, hmode.set_indices, hmode.set_mesh]

/-- A fit of the single image reconstruction step never sets the mode and runs with the mode
the fitter had before. -/
theorem singleViewFit_mode (E : Externals) (mode : E.Fitter → OptimizationMode)
    (hmode : ModeFlag E mode) (m : ℕ) (opt : OptimizationParameters)
    (st st1 : State E) (i : ℕ) (r : FitRecord E)
    (h : singleViewFit E m opt st i = some (st1, r)) :
    mode st1.single_recon = mode st.single_recon ∧
    mode r.fitter_before = mode st.single_recon ∧ r.optimization_mode = none := by
  unfold singleViewFit at h
  cases hp : st.param_sets[i]? with
  | none => simp [hp] at h
  | some p =>
    simp only [hp, Option.bind_eq_bind, Option.some_bind, Option.some.injEq, Prod.mk.injEq] at h
    obtain ⟨h1, h2⟩ := h
    subst h1 h2
    have hb : mode (if m > 1 then E.SetIdentityPrior (setInputs E st.single_recon p)
        st.identity_centroid else setInputs E st.single_recon p) = mode st.single_recon := by
      split
      · rw [hmode.set_identity_prior, setInputs_mode E mode hmode]
      · rw [setInputs_mode E mode hmode]
    exact ⟨by simp only [hmode.reconstruct]; exact hb, hb, rfl⟩

/-- The single image reconstruction step never sets the mode; all its fits run with the mode
the fitter had when the step began. -/
theorem singleViewStage_mode (E : Externals) (mode : E.Fitter → OptimizationMode)
    (hmode : ModeFlag E mode) (m : ℕ) (opt : OptimizationParameters) :
    ∀ (l : List ℕ) (st st1 : State E) (rs : List (FitRecord E)),
      singleViewStage E m opt l st = some (st1, rs) →
      mode st1.single_recon = mode st.single_recon ∧
      ∀ r ∈ rs, mode r.fitter_before = mode st.single_recon ∧ r.optimization_mode = none := by
  intro l
  induction l with
  | nil =>
    intro st st1 rs h
    simp only [singleViewStage, Option.some.injEq, Prod.mk.injEq] at h
    obtain ⟨h1, h2⟩ := h
    subst h1 h2
    exact ⟨rfl, by simp⟩
  | cons i rest ih =>
    intro st st1 rs h
    simp only [singleViewStage, Option.bind_eq_bind, Option.bind_eq_some] at h
    obtain ⟨⟨sta, ra⟩, ha, ⟨stb, rb⟩, hb, hc⟩ := h
    simp only [Option.some.injEq, Prod.mk.injEq] at hc
    obtain ⟨h1, h2⟩ := hc
    subst h1 h2
    obtain ⟨ha1, ha2, ha3⟩ := singleViewFit_mode E mode hmode m opt st sta i ra ha
    obtain ⟨hb1, hb2⟩ := ih sta stb rb hb
    refine ⟨hb1.trans ha1, ?_⟩
    intro r hr
    rcases List.mem_cons.mp hr with h | h
    · rw [h]
      exact ⟨ha2, ha3⟩
    · rw [← ha1]
      exact hb2 r h

/-- A fit of the first joint reconstruction step sets the mode `Pose | Expression |
FocalLength`, runs with it and leaves it set. -/
theorem poseExpressionFit_mode (E : Externals) (mode : E.Fitter → OptimizationMode)
    (hmode : ModeFlag E mode) (opt : OptimizationParameters)
    (st st1 : State E) (i : ℕ) (r : FitRecord E)
    (h : poseExpressionFit E opt st i = some (st1, r)) :
    mode st1.single_recon = jointMode ∧
    mode r.fitter_before = jointMode ∧ r.optimization_mode = some jointMode := by
  unfold poseExpressionFit at h
  cases hp : st.param_sets[i]? with
  | none => simp [hp] at h
  | some p =>
    simp only [hp, Option.bind_eq_bind, Option.some_bind, Option.some.injEq, Prod.mk.injEq] at h
    obtain ⟨h1, h2⟩ := h
    subst h1 h2
    exact ⟨by simp only [hmode.reconstruct, hmode.set_mode], hmode.set_mode _ _, rfl⟩

/-- The first joint reconstruction step: every fit sets and uses the joint mode; the fitter is
left in that mode when there was a fit, and untouched otherwise. -/
theorem poseExpressionStage_mode (E : Externals) (mode : E.Fitter → OptimizationMode)
    (hmode : ModeFlag E mode) (opt : OptimizationParameters) :
    ∀ (l : List ℕ) (st st1 : State E) (rs : List (FitRecord E)),
      poseExpressionStage E opt l st = some (st1, rs) →
      (l ≠ [] → mode st1.single_recon = jointMode) ∧
      (mode st.single_recon = jointMode → mode st1.single_recon = jointMode) ∧
      ∀ r ∈ rs, mode r.fitter_before = jointMode ∧ r.optimization_mode = some jointMode := by
  intro l
  induction l with
  | nil =>
    intro st st1 rs h
    simp only [poseExpressionStage, Option.some.injEq, Prod.mk.injEq] at h
    obtain ⟨h1, h2⟩ := h
    subst h1 h2
    exact ⟨fun hne => absurd rfl hne, fun hm => hm, by simp⟩
  | cons i rest ih =>
    intro st st1 rs h
    simp only [poseExpressionStage, Option.bind_eq_bind, Option.bind_eq_some] at h
    obtain ⟨⟨sta, ra⟩, ha, ⟨stb, rb⟩, hb, hc⟩ := h
    simp only [Option.some.injEq, Prod.mk.injEq] at hc
    obtain ⟨h1, h2⟩ := hc
    subst h1 h2
    obtain ⟨ha1, ha2, ha3⟩ := poseExpressionFit_mode E mode hmode opt st sta i ra ha
    obtain ⟨-, hb2, hb3⟩ := ih sta stb rb hb
    refine ⟨fun _ => hb2 ha1, fun _ => hb2 ha1, ?_⟩
    intro r hr
    rcases List.mem_cons.mp hr with h | h
    · rw [h]
      exact ⟨ha2, ha3⟩
    · exact hb3 r h

/-- A joint solve does not touch the fitter. -/
theorem jointSolve_fitter (E : Externals) (prior : MultilinearModelPrior) (st st1 : State E)
    (sr : SolveRecord E) (h : jointSolve E prior st = some (st1, sr)) :
    st1.single_recon = st.single_recon := by
  simp only [jointSolve, Option.bind_eq_bind, Option.bind_eq_some] at h
  obtain ⟨p0, -, problem, -, hc⟩ := h
  simp only [Option.some.injEq, Prod.mk.injEq] at hc
  obtain ⟨h1, -⟩ := hc
  subst h1
  rfl

/-- One pass through the body of the joint optimization loop over a non-empty consistent set
leaves the fitter in the joint mode and the consistent set non-empty. -/
theorem jointRound_mode (E : Externals) (mode : E.Fitter → OptimizationMode)
    (hmode : ModeFlag E mode) (prior : MultilinearModelPrior) (n : ℕ)
    (opt : OptimizationParameters) (m it : ℕ) (st st1 : State E) (r : RoundRecord E)
    (stop : Bool) (hn : n ≠ 0) (hcs : st.consistent_set ≠ [])
    (h : jointRound E prior n opt m it st = some (st1, r, stop)) :
    mode st1.single_recon = jointMode ∧ st1.consistent_set ≠ [] ∧
    ∀ f ∈ r.refits, mode f.fitter_before = jointMode ∧ f.optimization_mode = some jointMode := by
  have hrange : List.range n ≠ [] := by
    intro h0
    have := congrArg List.length h0
    simp at this
    exact hn this
  unfold jointRound at h
  cases hfin : isFinalRound m it with
  | true =>
    simp only [hfin, if_true, Option.bind_eq_bind, Option.bind_eq_some] at h
    obtain ⟨⟨sta, refits⟩, ha, hc⟩ := h
    simp only [Option.some.injEq, Prod.mk.injEq] at hc
    obtain ⟨h1, h2, h3⟩ := hc
    subst h1 h2 h3
    obtain ⟨hm1, -, hm3⟩ := poseExpressionStage_mode E mode hmode opt _ _ _ _ ha
    obtain ⟨-, -, hcons⟩ := poseExpressionStage_spec E opt _ _ _ _ ha
    exact ⟨hm1 hrange, by rw [hcons]; exact hrange, hm3⟩
  | false =>
    simp only [hfin, Bool.false_eq_true, if_false, Option.bind_eq_bind, Option.bind_eq_some] at h
    obtain ⟨⟨sta, refits⟩, ha, ⟨stb, solved⟩, hb, hc⟩ := h
    simp only [Option.some.injEq, Prod.mk.injEq] at hc
    obtain ⟨h1, h2, h3⟩ := hc
    subst h1 h2 h3
    obtain ⟨hm1, -, hm3⟩ := poseExpressionStage_mode E mode hmode opt _ _ _ _ ha
    obtain ⟨-, -, hcons⟩ := poseExpressionStage_spec E opt _ _ _ _ ha
    obtain ⟨-, -, -, hcons2⟩ := jointSolve_spec E prior _ _ _ hb
    refine ⟨?_, ?_, hm3⟩
    · rw [jointSolve_fitter E prior _ _ _ hb]
      exact hm1 hcs
    · rw [hcons2, hcons]
      exact hcs

/-- The joint optimization loop over a non-empty consistent set: every fit sets and uses the
joint mode, and the fitter is left in that mode once a round has run. -/
theorem jointLoop_mode (E : Externals) (mode : E.Fitter → OptimizationMode)
    (hmode : ModeFlag E mode) (prior : MultilinearModelPrior) (n : ℕ)
    (opt : OptimizationParameters) (m : ℕ) (hn : n ≠ 0) :
    ∀ (fuel it : ℕ) (st st1 : State E) (rs : List (RoundRecord E)),
      st.consistent_set ≠ [] →
      jointLoop E prior n opt m fuel it st = some (st1, rs) →
      (rs ≠ [] → mode st1.single_recon = jointMode) ∧
      (mode st.single_recon = jointMode → mode st1.single_recon = jointMode) ∧
      ∀ x ∈ rs, ∀ f ∈ x.refits,
        mode f.fitter_before = jointMode ∧ f.optimization_mode = some jointMode := by
  intro fuel
  induction fuel with
  | zero =>
    intro it st st1 rs _ h
    simp [jointLoop] at h
  | succ k ih =>
    intro it st st1 rs hcs h
    unfold jointLoop at h
    by_cases hlt : it < num_iters_joint_optimization m
    · simp only [if_pos hlt, Option.bind_eq_bind, Option.bind_eq_some] at h
      obtain ⟨⟨sta, r, stop⟩, ha, hc⟩ := h
      obtain ⟨hma, hcsa, hfa⟩ := jointRound_mode E mode hmode prior n opt m it st sta r stop hn hcs ha
      cases hs : stop with
      | true =>
        simp only [hs, if_true, Option.some.injEq, Prod.mk.injEq] at hc
        obtain ⟨h1, h2⟩ := hc
        subst h1 h2
        refine ⟨fun _ => hma, fun _ => hma, ?_⟩
        intro x hx
        rw [List.mem_singleton.mp hx]
        exact hfa
      | false =>
        simp only [hs, Bool.false_eq_true, if_false, Option.bind_eq_some] at hc
        obtain ⟨⟨stb, rest⟩, hb, hd⟩ := hc
        simp only [Option.some.injEq, Prod.mk.injEq] at hd
        obtain ⟨h1, h2⟩ := hd
        subst h1 h2
        obtain ⟨-, hmb, hfb⟩ := ih (it + 1) sta stb rest hcsa hb
        refine ⟨fun _ => hmb hma, fun _ => hmb hma, ?_⟩
        intro x hx
        rcases List.mem_cons.mp hx with h | h
        · rw [h]
          exact hfa
        · exact hfb x h
    · simp only [if_neg hlt, Option.some.injEq, Prod.mk.injEq] at h
      obtain ⟨h1, h2⟩ := h
      subst h1 h2
      exact ⟨fun hne => absurd rfl hne, fun hm => hm, by simp⟩

/-- The selection never returns an empty consistent set. -/
theorem select_ne_nil {E : Externals} (sort : List (ℕ × ℚ) → List (ℕ × ℚ)) (m : ℕ)
    (param_sets : List (ParameterSet E)) (cs : List ℕ)
    (h : selectConsistentSet sort m param_sets = some cs) : cs ≠ [] := by
  simp only [selectConsistentSet, selection_k, Option.bind_eq_bind, Option.bind_eq_some,
    Option.map_eq_some'] at h
  obtain ⟨k, ⟨r, -, hk⟩, hif⟩ := h
  have hk1 : 1 ≤ k := by
    rw [← hk]
    exact le_max_left _ _
  have hk2 : 1 ≤ k.toNat := by omega
  split at hif
  · next hle =>
    simp only [Option.some.injEq] at hif
    intro h0
    rw [h0] at hif
    have := congrArg List.length hif
    simp only [List.length_map, List.length_take, List.length_nil] at this
    omega
  · exact absurd hif (by simp)

/-- A run of `Reconstruct` is three passes through the body of the main loop, with the counter
values 1, 2 and 3, each starting from the state the pass before left; the run returns exactly
when there is an image and the three passes complete. -/
theorem Reconstruct_steps (E : Externals) (self : MultiImageReconstructor E) (out : RunResult E) :
    Reconstruct E self = some out ↔
      self.image_points_pairs.length ≠ 0 ∧
      ∃ st1 st2 st3 r1 r2 r3,
        macroIteration E self.prior self.image_points_pairs.length 1 (initialState E self) =
          some (st1, r1) ∧
        macroIteration E self.prior self.image_points_pairs.length 2 st1 = some (st2, r2) ∧
        macroIteration E self.prior self.image_points_pairs.length 3 st2 = some (st3, r3) ∧
        out = { returned := true
                self := { self with
                          param_sets := st3.param_sets
                          single_recon := st3.single_recon
                          model := st3.model }
                identity_weights_history := st3.identity_weights_history
                identity_weights_centroid_history := st3.identity_weights_centroid_history
                macro_iterations := [r1, r2, r3] } := by
  unfold Reconstruct
  by_cases h0 : self.image_points_pairs.length = 0
  · simp [h0]
  · simp only [if_neg h0, Option.bind_eq_bind, Option.bind_eq_some, mainLoop, Nat.lt_irrefl,
      Nat.zero_lt_succ, Nat.lt_succ_self, if_true, if_false, Nat.reduceAdd, Nat.reduceLT,
      Option.some.injEq, Prod.mk.injEq, ne_eq, h0, not_false_eq_true, true_and]
    constructor
    · rintro ⟨a, ⟨a1, hm1, a2, ⟨b, hm2, a3, ⟨a4, hm3, c, h4, hb⟩, ha3⟩, ha⟩, hout⟩
      subst h4 hb ha3 ha
      exact ⟨a1.1, b.1, a4.1, a1.2, b.2, a4.2, hm1, hm2, hm3, hout.symm⟩
    · rintro ⟨st1, st2, st3, r1, r2, r3, hm1, hm2, hm3, hout⟩
      exact ⟨(st3, [r1, r2, r3]), ⟨(st1, r1), hm1, (st3, [r2, r3]),
        ⟨(st2, r2), hm2, (st3, [r3]), ⟨(st3, r3), hm3, (st3, []), rfl, rfl⟩, rfl⟩, rfl⟩,
        hout.symm⟩

/-- One pass through the body of the main loop: the fits of the single image reconstruction
step never set the mode and run with the mode the fitter had when the pass began; the fits of
the joint optimization loop set and use the joint mode, which is left set. -/
theorem macroIteration_mode (E : Externals) (mode : E.Fitter → OptimizationMode)
    (hmode : ModeFlag E mode) (prior : MultilinearModelPrior) (n m : ℕ)
    (st st1 : State E) (r : MacroRecord E) (hn : n ≠ 0)
    (h : macroIteration E prior n m st = some (st1, r)) :
    mode st1.single_recon = jointMode ∧
    (∀ f ∈ r.single_view,
      mode f.fitter_before = mode st.single_recon ∧ f.optimization_mode = none) ∧
    ∀ x ∈ r.rounds, ∀ f ∈ x.refits,
      mode f.fitter_before = jointMode ∧ f.optimization_mode = some jointMode := by
  simp only [macroIteration, Option.bind_eq_bind, Option.bind_eq_some] at h
  obtain ⟨⟨sta, fits⟩, ha, p0, -, iw, -, cs, hcs, c, hc, ⟨stb, rounds⟩, hb, hd⟩ := h
  simp only [Option.some.injEq, Prod.mk.injEq] at hd
  obtain ⟨h1, h2⟩ := hd
  subst h1 h2
  obtain ⟨-, hfits⟩ := singleViewStage_mode E mode hmode m _ _ _ _ _ ha
  have hne := select_ne_nil E.sort m sta.param_sets cs hcs
  obtain ⟨hm1, -, hm3⟩ := jointLoop_mode E mode hmode prior n _ m hn _ 0 _ _ _ hne hb
  refine ⟨hm1 ?_, hfits, hm3⟩
  intro h0
  unfold jointLoop at hb
  have hpos : 0 < num_iters_joint_optimization m := by
    unfold num_iters_joint_optimization
    split <;> omega
  simp only [if_pos hpos, Option.bind_eq_bind, Option.bind_eq_some] at hb
  obtain ⟨⟨s1, x, stop⟩, -, hx⟩ := hb
  cases hs : stop with
  | true =>
    simp only [hs, if_true, Option.some.injEq, Prod.mk.injEq] at hx
    rw [h0] at hx
    exact absurd hx.2 (by simp)
  | false =>
    simp only [hs, Bool.false_eq_true, if_false, Option.bind_eq_some] at hx
    obtain ⟨⟨s2, rest⟩, -, hy⟩ := hx
    simp only [Option.some.injEq, Prod.mk.injEq] at hy
    rw [h0] at hy
    exact absurd hy.2 (by simp)

/-- The function `sampleMode` reads the mode flag of the sample fitter. -/
theorem sampleMode_flag (sort : List (ℕ × ℚ) → List (ℕ × ℚ)) :
    ModeFlag (sampleExternals sort) sampleMode :=
  { set_mode := fun _ _ => rfl
    set_mesh := fun _ _ => rfl
    set_indices := fun _ _ => rfl
    set_image_size := fun _ _ _ => rfl
    set_constraints := fun _ _ => rfl
    set_initial_parameters := fun _ _ _ => rfl
    set_identity_prior := fun _ _ => rfl
    reconstruct := fun _ _ => rfl }

/-- A fit of the single image reconstruction step leaves both histories. -/
theorem singleViewFit_history (E : Externals) (m : ℕ) (opt : OptimizationParameters)
    (st st1 : State E) (i : ℕ) (r : FitRecord E)
    (h : singleViewFit E m opt st i = some (st1, r)) :
    st1.identity_weights_history = st.identity_weights_history ∧
    st1.identity_weights_centroid_history = st.identity_weights_centroid_history := by
  unfold singleViewFit at h
  cases hp : st.param_sets[i]? with
  | none => simp [hp] at h
  | some p =>
    simp only [hp, Option.bind_eq_bind, Option.some_bind, Option.some.injEq, Prod.mk.injEq] at h
    obtain ⟨h1, -⟩ := h
    subst h1
    exact ⟨rfl, rfl⟩

/-- The single image reconstruction step leaves both histories. -/
theorem singleViewStage_history (E : Externals) (m : ℕ) (opt : OptimizationParameters) :
    ∀ (l : List ℕ) (st st1 : State E) (rs : List (FitRecord E)),
      singleViewStage E m opt l st = some (st1, rs) →
      st1.identity_weights_history = st.identity_weights_history ∧
      st1.identity_weights_centroid_history = st.identity_weights_centroid_history := by
  intro l
  induction l with
  | nil =>
    intro st st1 rs h
    simp only [singleViewStage, Option.some.injEq, Prod.mk.injEq] at h
    obtain ⟨h1, -⟩ := h
    subst h1
    exact ⟨rfl, rfl⟩
  | cons i rest ih =>
    intro st st1 rs h
    simp only [singleViewStage, Option.bind_eq_bind, Option.bind_eq_some] at h
    obtain ⟨⟨sta, ra⟩, ha, ⟨stb, rb⟩, hb, hc⟩ := h
    simp only [Option.some.injEq, Prod.mk.injEq] at hc
    obtain ⟨h1, -⟩ := hc
    subst h1
    obtain ⟨ha1, ha2⟩ := singleViewFit_history E m opt st sta i ra ha
    obtain ⟨hb1, hb2⟩ := ih sta stb rb hb
    exact ⟨hb1.trans ha1, hb2.trans ha2⟩

/-- A fit of the first joint reconstruction step leaves both histories. -/
theorem poseExpressionFit_history (E : Externals) (opt : OptimizationParameters)
    (st st1 : State E) (i : ℕ) (r : FitRecord E)
    (h : poseExpressionFit E opt st i = some (st1, r)) :
    st1.identity_weights_history = st.identity_weights_history ∧
    st1.identity_weights_centroid_history = st.identity_weights_centroid_history := by
  unfold poseExpressionFit at h
  cases hp : st.param_sets[i]? with
  | none => simp [hp] at h
  | some p =>
    simp only [hp, Option.bind_eq_bind, Option.some_bind, Option.some.injEq, Prod.mk.injEq] at h
    obtain ⟨h1, -⟩ := h
    subst h1
    exact ⟨rfl, rfl⟩

/-- The first joint reconstruction step leaves both histories. -/
theorem poseExpressionStage_history (E : Externals) (opt : OptimizationParameters) :
    ∀ (l : List ℕ) (st st1 : State E) (rs : List (FitRecord E)),
      poseExpressionStage E opt l st = some (st1, rs) →
      st1.identity_weights_history = st.identity_weights_history ∧
      st1.identity_weights_centroid_history = st.identity_weights_centroid_history := by
  intro l
  induction l with
  | nil =>
    intro st st1 rs h
    simp only [poseExpressionStage, Option.some.injEq, Prod.mk.injEq] at h
    obtain ⟨h1, -⟩ := h
    subst h1
    exact ⟨rfl, rfl⟩
  | cons i rest ih =>
    intro st st1 rs h
    simp only [poseExpressionStage, Option.bind_eq_bind, Option.bind_eq_some] at h
    obtain ⟨⟨sta, ra⟩, ha, ⟨stb, rb⟩, hb, hc⟩ := h
    simp only [Option.some.injEq, Prod.mk.injEq] at hc
    obtain ⟨h1, -⟩ := hc
    subst h1
    obtain ⟨ha1, ha2⟩ := poseExpressionFit_history E opt st sta i ra ha
    obtain ⟨hb1, hb2⟩ := ih sta stb rb hb
    exact ⟨hb1.trans ha1, hb2.trans ha2⟩

/-- A joint solve appends the solved vector to the centroid history. -/
theorem jointSolve_history (E : Externals) (prior : MultilinearModelPrior) (st st1 : State E)
    (sr : SolveRecord E) (h : jointSolve E prior st = some (st1, sr)) :
    st1.identity_weights_history = st.identity_weights_history ∧
    st1.identity_weights_centroid_history =
      st.identity_weights_centroid_history ++ [sr.params] := by
  simp only [jointSolve, Option.bind_eq_bind, Option.bind_eq_some] at h
  obtain ⟨p0, -, problem, -, hc⟩ := h
  simp only [Option.some.injEq, Prod.mk.injEq] at hc
  obtain ⟨h1, h2⟩ := hc
  subst h1 h2
  exact ⟨rfl, rfl⟩

/-- One pass through the body of the joint optimization loop appends the vector of its joint
solve, when it has one, to the centroid history. -/
theorem jointRound_history (E : Externals) (prior : MultilinearModelPrior) (n : ℕ)
    (opt : OptimizationParameters) (m it : ℕ) (st st1 : State E) (r : RoundRecord E)
    (stop : Bool) (h : jointRound E prior n opt m it st = some (st1, r, stop)) :
    st1.identity_weights_history = st.identity_weights_history ∧
    st1.identity_weights_centroid_history =
      st.identity_weights_centroid_history ++ solvedParams [r] := by
  unfold jointRound at h
  cases hfin : isFinalRound m it with
  | true =>
    simp only [hfin, if_true, Option.bind_eq_bind, Option.bind_eq_some] at h
    obtain ⟨⟨sta, refits⟩, ha, hc⟩ := h
    simp only [Option.some.injEq, Prod.mk.injEq] at hc
    obtain ⟨h1, h2, -⟩ := hc
    subst h1 h2
    obtain ⟨ha1, ha2⟩ := poseExpressionStage_history E opt _ _ _ _ ha
    exact ⟨ha1, by simpa [solvedParams] using ha2⟩
  | false =>
    simp only [hfin, Bool.false_eq_true, if_false, Option.bind_eq_bind, Option.bind_eq_some] at h
    obtain ⟨⟨sta, refits⟩, ha, ⟨stb, solved⟩, hb, hc⟩ := h
    simp only [Option.some.injEq, Prod.mk.injEq] at hc
    obtain ⟨h1, h2, -⟩ := hc
    subst h1 h2
    obtain ⟨ha1, ha2⟩ := poseExpressionStage_history E opt _ _ _ _ ha
    obtain ⟨hb1, hb2⟩ := jointSolve_history E prior _ _ _ hb
    exact ⟨hb1.trans ha1, by rw [hb2, ha2]; simp [solvedParams]⟩

/-- The joint optimization loop appends the vectors of its joint solves to the centroid
history. -/
theorem jointLoop_history (E : Externals) (prior : MultilinearModelPrior) (n : ℕ)
    (opt : OptimizationParameters) (m : ℕ) :
    ∀ (fuel it : ℕ) (st st1 : State E) (rs : List (RoundRecord E)),
      jointLoop E prior n opt m fuel it st = some (st1, rs) →
      st1.identity_weights_history = st.identity_weights_history ∧
      st1.identity_weights_centroid_history =
        st.identity_weights_centroid_history ++ solvedParams rs := by
  intro fuel
  induction fuel with
  | zero =>
    intro it st st1 rs h
    simp [jointLoop] at h
  | succ k ih =>
    intro it st st1 rs h
    unfold jointLoop at h
    by_cases hlt : it < num_iters_joint_optimization m
    · simp only [if_pos hlt, Option.bind_eq_bind, Option.bind_eq_some] at h
      obtain ⟨⟨sta, r, stop⟩, ha, hc⟩ := h
      obtain ⟨ha1, ha2⟩ := jointRound_history E prior n opt m it st sta r stop ha
      cases hs : stop with
      | true =>
        simp only [hs, if_true, Option.some.injEq, Prod.mk.injEq] at hc
        obtain ⟨h1, h2⟩ := hc
        subst h1 h2
        exact ⟨ha1, ha2⟩
      | false =>
        simp only [hs, Bool.false_eq_true, if_false, Option.bind_eq_some] at hc
        obtain ⟨⟨stb, rest⟩, hb, hd⟩ := hc
        simp only [Option.some.injEq, Prod.mk.injEq] at hd
        obtain ⟨h1, h2⟩ := hd
        subst h1 h2
        obtain ⟨hb1, hb2⟩ := ih (it + 1) sta stb rest hb
        refine ⟨hb1.trans ha1, ?_⟩
        rw [hb2, ha2, List.append_assoc]
        simp [solvedParams, List.filterMap_cons]
        cases r.solve <;> simp
    · simp only [if_neg hlt, Option.some.injEq, Prod.mk.injEq] at h
      obtain ⟨h1, h2⟩ := h
      subst h1 h2
      exact ⟨rfl, by simp [solvedParams]⟩

/-- The matrix `identity_weights` has one column per parameter set. -/
theorem identityWeights_length {E : Externals} (rows : ℕ) :
    ∀ (l : List (ParameterSet E)) (iw : MatrixXd),
      identityWeights rows l = some iw → iw = l.map (fun p => p.model.Wid) := by
  intro l
  induction l with
  | nil =>
    intro iw h
    simp only [identityWeights, Option.some.injEq] at h
    subst h
    rfl
  | cons p rest ih =>
    intro iw h
    unfold identityWeights at h
    split at h
    · simp only [Option.map_eq_some'] at h
      obtain ⟨a, ha, rfl⟩ := h
      rw [ih a ha]
      rfl
    · exact absurd h (by simp)

/-- One pass through the body of the main loop appends one matrix, with one column per image,
to the history of the identity weights, and the vectors of its joint solves to the centroid
history. -/
theorem macroIteration_history (E : Externals) (prior : MultilinearModelPrior) (n m : ℕ)
    (st st1 : State E) (r : MacroRecord E) (hn : st.param_sets.length = n)
    (h : macroIteration E prior n m st = some (st1, r)) :
    st1.identity_weights_history = st.identity_weights_history ++
      [r.param_sets_after_single_view.map (fun p => p.model.Wid)] ∧
    st1.identity_weights_centroid_history =
      st.identity_weights_centroid_history ++ solvedParams r.rounds := by
  simp only [macroIteration, Option.bind_eq_bind, Option.bind_eq_some] at h
  obtain ⟨⟨sta, fits⟩, ha, p0, -, iw, hiw, cs, hcs, c, hc, ⟨stb, rounds⟩, hb, hd⟩ := h
  simp only [Option.some.injEq, Prod.mk.injEq] at hd
  obtain ⟨h1, h2⟩ := hd
  subst h1 h2
  obtain ⟨ha1, ha2⟩ := singleViewStage_history E m _ _ _ _ _ ha
  obtain ⟨hfa, -, -⟩ := singleViewStage_spec E m _ _ _ _ _ ha
  obtain ⟨hb1, hb2⟩ := jointLoop_history E prior n _ m _ 0 _ _ _ hb
  have hla : sta.param_sets.length = n := hfa.2.1.trans hn
  have htake : sta.param_sets.take n = sta.param_sets := by
    rw [← hla]
    exact List.take_length _
  rw [htake] at hiw
  refine ⟨?_, ?_⟩
  · rw [hb1]
    simp only [ha1, identityWeights_length _ _ _ hiw]
  · rw [hb2]
    simp only [ha2]

/-- A list whose image under `f` has three entries has three entries. -/
theorem map_eq_three {α β : Type} (f : α → β) (l : List α) (x y z : β)
    (h : l.map f = [x, y, z]) :
    ∃ a b c, l = [a, b, c] ∧ f a = x ∧ f b = y ∧ f c = z := by
  match l, h with
  | [a, b, c], h =>
    simp only [List.map_cons, List.map_nil, List.cons.injEq, and_true] at h
    exact ⟨a, b, c, rfl, h.1, h.2.1, h.2.2⟩

/-- The rounds of a pass through the body of the main loop whose counter is not 3: the rounds
0, 1 and 2, each with a joint solve. -/
theorem GoodMacro.rounds_before_last {E : Externals} {n m : ℕ} {st st1 : State E}
    {r : MacroRecord E} (g : GoodMacro n m st st1 r) (hm : m ≠ 3) :
    r.rounds.map (fun x => (x.iters_joint_optimization, x.solve.isSome)) =
      [(0, true), (1, true), (2, true)] ∧
    (solvedParams r.rounds).length = 3 := by
  have hnum : num_iters_joint_optimization m = 3 := by
    simp [num_iters_joint_optimization, max_iters_main_loop, hm]
  have hcount : r.rounds.map (fun x => x.iters_joint_optimization) = [0, 1, 2] := by
    rw [g.round_counters, hnum]
    rfl
  obtain ⟨a, b, c, hrounds, ha, hb, hc⟩ := map_eq_three _ _ _ _ _ hcount
  have hnf : ∀ it, isFinalRound m it = false := by
    intro it
    simp [isFinalRound, max_iters_main_loop, hm]
  obtain ⟨sa, hsa⟩ := (g.rounds_good a (by rw [hrounds]; simp)).2.2.1 (hnf _)
  obtain ⟨sb, hsb⟩ := (g.rounds_good b (by rw [hrounds]; simp)).2.2.1 (hnf _)
  obtain ⟨sc, hsc⟩ := (g.rounds_good c (by rw [hrounds]; simp)).2.2.1 (hnf _)
  rw [hrounds]
  simp [solvedParams, ha, hb, hc, hsa, hsb, hsc]

/-- The rounds of the pass through the body of the main loop whose counter is 3: the rounds
0, 1 and 2, each with a joint solve, and the round 3 without one. -/
theorem GoodMacro.rounds_last {E : Externals} {n : ℕ} {st st1 : State E}
    {r : MacroRecord E} (g : GoodMacro n 3 st st1 r) :
    r.rounds.map (fun x => (x.iters_joint_optimization, x.solve.isSome)) =
      [(0, true), (1, true), (2, true), (3, false)] ∧
    (solvedParams r.rounds).length = 3 := by
  have hcount : r.rounds.map (fun x => x.iters_joint_optimization) = [0, 1, 2, 3] := by
    rw [g.round_counters]
    rfl
  obtain ⟨a, b, c, d, hrounds, ha, hb, hc, hd⟩ := map_eq_four _ _ _ _ _ _ hcount
  obtain ⟨sa, hsa⟩ := (g.rounds_good a (by rw [hrounds]; simp)).2.2.1 (by rw [ha]; rfl)
  obtain ⟨sb, hsb⟩ := (g.rounds_good b (by rw [hrounds]; simp)).2.2.1 (by rw [hb]; rfl)
  obtain ⟨sc, hsc⟩ := (g.rounds_good c (by rw [hrounds]; simp)).2.2.1 (by rw [hc]; rfl)
  obtain ⟨-, hsd⟩ := (g.rounds_good d (by rw [hrounds]; simp)).2.1 (by rw [hd]; rfl)
  rw [hrounds]
  simp [solvedParams, ha, hb, hc, hd, hsa, hsb, hsc, hsd]

/-- The joint optimization loop never stops for lack of budget: with any larger number of
evaluations of its condition the result is the same. -/
theorem jointLoop_budget (E : Externals) (prior : MultilinearModelPrior) (n : ℕ)
    (opt : OptimizationParameters) (m : ℕ) :
    ∀ (fuel it : ℕ) (st : State E),
      it ≤ num_iters_joint_optimization m → num_iters_joint_optimization m + 1 ≤ fuel + it →
      jointLoop E prior n opt m fuel it st =
        jointLoop E prior n opt m (num_iters_joint_optimization m + 1 - it) it st := by
  intro fuel
  induction fuel with
  | zero =>
    intro it st h1 h2
    omega
  | succ k ih =>
    intro it st h1 h2
    obtain ⟨j, hj⟩ : ∃ j, num_iters_joint_optimization m + 1 - it = j + 1 :=
      ⟨num_iters_joint_optimization m - it, by omega⟩
    rw [hj]
    by_cases hlt : it < num_iters_joint_optimization m
    · have hk := fun s => ih (it + 1) s (by omega) (by omega)
      have hj1 : num_iters_joint_optimization m + 1 - (it + 1) = j := by omega
      simp only [jointLoop, if_pos hlt]
      congr 1
      funext a
      cases a.2.2 <;> simp only [Bool.false_eq_true, if_false, if_true]
      rw [hk a.1, hj1]
    · simp only [jointLoop, if_neg hlt]

/-- The main loop never stops for lack of budget: with any larger number of evaluations of its
condition the result is the same. -/
theorem mainLoop_budget (E : Externals) (prior : MultilinearModelPrior) (n : ℕ) :
    ∀ (fuel c : ℕ) (st : State E), c ≤ 3 → 4 ≤ fuel + c →
      mainLoop E prior n fuel c st = mainLoop E prior n (4 - c) c st := by
  intro fuel
  induction fuel with
  | zero =>
    intro c st h1 h2
    omega
  | succ k ih =>
    intro c st h1 h2
    obtain ⟨j, hj⟩ : ∃ j, 4 - c = j + 1 := ⟨3 - c, by omega⟩
    rw [hj]
    by_cases hlt : c < 3
    · have hk := fun s => ih (c + 1) s (by omega) (by omega)
      have hj1 : 4 - (c + 1) = j := by omega
      simp only [mainLoop, if_pos hlt]
      congr 1
      funext a
      rw [hk a.1, hj1]
    · simp only [mainLoop, if_neg hlt]

/-- Storing the results of a fit keeps a parameter set `Assemblable` when the fitter returns
at most as many landmark indices as the parameter set held. -/
theorem storeResults_assemblable (E : Externals) (L : ℕ) (fitter : E.Fitter)
    (p : ParameterSet E) (hidx : (E.GetIndices fitter).length ≤ p.indices.length)
    (hp : Assemblable L p) : Assemblable L (storeResults E fitter p) :=
  ⟨hp.1, hp.2.1, le_trans hidx hp.2.2⟩

/-- Replacing an entry of a list keeps a property that the new entry and all old entries
have. -/
theorem forall_mem_set {α : Type} (P : α → Prop) (l : List α) (i : ℕ) (a : α)
    (hl : ∀ x ∈ l, P x) (ha : P a) : ∀ x ∈ l.set i a, P x := by
  intro x hx
  rcases List.mem_or_eq_of_mem_set hx with h | h
  · exact hl x h
  · rw [h]
    exact ha

/-- What a fit of the single image reconstruction step does to the parameter sets: the entry
of the fitted image is replaced by the stored results of a fit for that entry. -/
theorem singleViewFit_param_sets (E : Externals) (m : ℕ) (opt : OptimizationParameters)
    (st st1 : State E) (i : ℕ) (r : FitRecord E)
    (h : singleViewFit E m opt st i = some (st1, r)) :
    ∃ p g, st.param_sets[i]? = some p ∧ FitCall E p g ∧
      st1.param_sets = st.param_sets.set i (storeResults E (E.FitterReconstruct g opt) p) ∧
      st1.consistent_set = st.consistent_set := by
  unfold singleViewFit at h
  cases hp : st.param_sets[i]? with
  | none => simp [hp] at h
  | some p =>
    simp only [hp, Option.bind_eq_bind, Option.some_bind, Option.some.injEq, Prod.mk.injEq] at h
    obtain ⟨h1, -⟩ := h
    subst h1
    refine ⟨p, _, rfl, ?_, rfl, rfl⟩
    by_cases hm : m > 1
    · rw [if_pos hm]
      exact ⟨st.single_recon, Or.inr (Or.inl ⟨_, rfl⟩)⟩
    · rw [if_neg hm]
      exact ⟨st.single_recon, Or.inl rfl⟩

/-- What a fit of the first joint reconstruction step does to the parameter sets: the entry of
the fitted image is replaced by the stored results of a fit for that entry. -/
theorem poseExpressionFit_param_sets (E : Externals) (opt : OptimizationParameters)
    (st st1 : State E) (i : ℕ) (r : FitRecord E)
    (h : poseExpressionFit E opt st i = some (st1, r)) :
    ∃ p g, st.param_sets[i]? = some p ∧ FitCall E p g ∧
      st1.param_sets = st.param_sets.set i (storeResults E (E.FitterReconstruct g opt) p) ∧
      st1.consistent_set = st.consistent_set := by
  unfold poseExpressionFit at h
  cases hp : st.param_sets[i]? with
  | none => simp [hp] at h
  | some p =>
    simp only [hp, Option.bind_eq_bind, Option.some_bind, Option.some.injEq, Prod.mk.injEq] at h
    obtain ⟨h1, -⟩ := h
    subst h1
    exact ⟨p, _, rfl, ⟨st.single_recon, Or.inr (Or.inr rfl)⟩, rfl, rfl⟩

/-- Replacing the entry of an image by the stored results of a fit for it keeps a state able to
proceed, when the fitter keeps the sizes of what it is given. -/
theorem set_storeResults_canProceed (E : Externals) (L : ℕ) (hfit : FitterKeepsSizes E)
    (opt : OptimizationParameters) (n : ℕ) (st st1 : State E) (i : ℕ) (p : ParameterSet E)
    (g : E.Fitter) (hst : CanProceed n L st) (hp : st.param_sets[i]? = some p)
    (hg : FitCall E p g)
    (hps : st1.param_sets = st.param_sets.set i (storeResults E (E.FitterReconstruct g opt) p))
    (hcons : st1.consistent_set = st.consistent_set) : CanProceed n L st1 := by
  obtain ⟨hlen, hall, hcs, d, hd⟩ := hst
  have hpm : p ∈ st.param_sets := (List.getElem?_eq_some.mp hp).2 ▸ List.getElem_mem _
  obtain ⟨hidx, hwid⟩ := hfit p g opt hg
  refine ⟨by rw [hps, List.length_set]; exact hlen, ?_, by rw [hcons]; exact hcs, d, ?_⟩
  · rw [hps]
    exact forall_mem_set _ _ _ _ hall (storeResults_assemblable E L _ _ hidx (hall p hpm))
  · rw [hps]
    exact forall_mem_set (fun q : ParameterSet E => q.model.Wid.length = d) _ _ _ hd
      (hwid.trans (hd p hpm))

/-- A fit of the single image reconstruction step on an existing image completes, and the
state can proceed afterwards. -/
theorem singleViewFit_proceed (E : Externals) (L : ℕ) (hfit : FitterKeepsSizes E)
    (m : ℕ) (opt : OptimizationParameters) (n : ℕ) (st : State E) (i : ℕ)
    (hst : CanProceed n L st) (hi : i < n) :
    ∃ st1 r, singleViewFit E m opt st i = some (st1, r) ∧ CanProceed n L st1 := by
  have hlt : i < st.param_sets.length := by rw [hst.1]; exact hi
  have hget : st.param_sets[i]? = some st.param_sets[i] := List.getElem?_eq_getElem hlt
  obtain ⟨st1, r, h⟩ : ∃ st1 r, singleViewFit E m opt st i = some (st1, r) := by
    simp [singleViewFit, hget]
  obtain ⟨p, g, hp, hg, hps, hcons⟩ := singleViewFit_param_sets E m opt st st1 i r h
  exact ⟨st1, r, h, set_storeResults_canProceed E L hfit opt n st st1 i p g hst hp hg hps hcons⟩

/-- The single image reconstruction step over existing images completes, and the state can
proceed afterwards. -/
theorem singleViewStage_proceed (E : Externals) (L : ℕ) (hfit : FitterKeepsSizes E)
    (m : ℕ) (opt : OptimizationParameters) (n : ℕ) :
    ∀ (l : List ℕ) (st : State E), CanProceed n L st → (∀ i ∈ l, i < n) →
      ∃ st1 rs, singleViewStage E m opt l st = some (st1, rs) ∧ CanProceed n L st1 := by
  intro l
  induction l with
  | nil =>
    intro st hst _
    exact ⟨st, [], rfl, hst⟩
  | cons i rest ih =>
    intro st hst hl
    obtain ⟨sta, ra, ha, hsta⟩ :=
      singleViewFit_proceed E L hfit m opt n st i hst (hl i (List.mem_cons_self _ _))
    obtain ⟨stb, rb, hb, hstb⟩ := ih sta hsta (fun k hk => hl k (List.mem_cons_of_mem _ hk))
    exact ⟨stb, ra :: rb, by simp [singleViewStage, ha, hb], hstb⟩

/-- A fit of the first joint reconstruction step on an existing image completes, and the state
can proceed afterwards. -/
theorem poseExpressionFit_proceed (E : Externals) (L : ℕ) (hfit : FitterKeepsSizes E)
    (opt : OptimizationParameters) (n : ℕ) (st : State E) (i : ℕ)
    (hst : CanProceed n L st) (hi : i < n) :
    ∃ st1 r, poseExpressionFit E opt st i = some (st1, r) ∧ CanProceed n L st1 := by
  have hlt : i < st.param_sets.length := by rw [hst.1]; exact hi
  have hget : st.param_sets[i]? = some st.param_sets[i] := List.getElem?_eq_getElem hlt
  obtain ⟨st1, r, h⟩ : ∃ st1 r, poseExpressionFit E opt st i = some (st1, r) := by
    simp [poseExpressionFit, hget]
  obtain ⟨p, g, hp, hg, hps, hcons⟩ := poseExpressionFit_param_sets E opt st st1 i r h
  exact ⟨st1, r, h, set_storeResults_canProceed E L hfit opt n st st1 i p g hst hp hg hps hcons⟩

/-- The first joint reconstruction step over existing images completes, and the state can
proceed afterwards. -/
theorem poseExpressionStage_proceed (E : Externals) (L : ℕ) (hfit : FitterKeepsSizes E)
    (opt : OptimizationParameters) (n : ℕ) :
    ∀ (l : List ℕ) (st : State E), CanProceed n L st → (∀ i ∈ l, i < n) →
      ∃ st1 rs, poseExpressionStage E opt l st = some (st1, rs) ∧ CanProceed n L st1 := by
  intro l
  induction l with
  | nil =>
    intro st hst _
    exact ⟨st, [], rfl, hst⟩
  | cons i rest ih =>
    intro st hst hl
    obtain ⟨sta, ra, ha, hsta⟩ :=
      poseExpressionFit_proceed E L hfit opt n st i hst (hl i (List.mem_cons_self _ _))
    obtain ⟨stb, rb, hb, hstb⟩ := ih sta hsta (fun k hk => hl k (List.mem_cons_of_mem _ hk))
    exact ⟨stb, ra :: rb, by simp [poseExpressionStage, ha, hb], hstb⟩

/-- The broadcast of the centroid keeps every parameter set `Assemblable`. -/
theorem broadcastCentroid_assemblable {E : Externals} (L : ℕ) (param_sets : List (ParameterSet E))
    (c : VectorXd) (h : ∀ p ∈ param_sets, Assemblable L p) :
    ∀ p ∈ broadcastCentroid param_sets c, Assemblable L p := by
  intro p hp
  simp only [broadcastCentroid, List.mem_map] at hp
  obtain ⟨q, hq, rfl⟩ := hp
  exact h q hq

/-- The broadcast of the solved vector keeps every parameter set `Assemblable`. -/
theorem broadcastSolved_assemblable (E : Externals) (L : ℕ) (params : VectorXd) :
    ∀ (l : List (ParameterSet E)) (model : E.MultilinearModel),
      (∀ p ∈ l, Assemblable L p) →
      ∀ p ∈ (broadcastSolved E params l model).1, Assemblable L p := by
  intro l
  induction l with
  | nil =>
    intro model _ p hp
    simp [broadcastSolved] at hp
  | cons q rest ih =>
    intro model h p hp
    simp only [broadcastSolved, List.mem_cons] at hp
    rcases hp with h1 | h1
    · rw [h1]
      exact h q (List.mem_cons_self _ _)
    · exact ih _ (fun x hx => h x (List.mem_cons_of_mem _ hx)) p h1

/-- A joint solve completes in a state that can proceed, which it leaves able to proceed,
whatever the solver returns. -/
theorem jointSolve_proceed (E : Externals) (L : ℕ) (prior : MultilinearModelPrior) (n : ℕ)
    (st : State E) (hn : n ≠ 0) (hst : CanProceed n L st) :
    ∃ st1 sr, jointSolve E prior st = some (st1, sr) ∧ CanProceed n L st1 := by
  obtain ⟨hlen, hall, hcs, -⟩ := hst
  have hpos : 0 < st.param_sets.length := by omega
  have hget : st.param_sets[0]? = some st.param_sets[0] := List.getElem?_eq_getElem hpos
  have hvalid : ∀ i ∈ st.consistent_set, i < st.param_sets.length := by
    intro i hi
    rw [hlen]
    exact hcs i hi
  have hsome := (assembleImages_spec E st.model (st.param_sets[0]).model.Wid.length
    st.param_sets st.consistent_set hvalid).1.mpr (by
      intro i hi
      have hlt := hvalid i hi
      have hg : st.param_sets[i]? = some st.param_sets[i] := List.getElem?_eq_getElem hlt
      rw [consOf_of_getElem? _ _ _ hg, indicesOf_of_getElem? _ _ _ hg]
      obtain ⟨h1, h2, h3⟩ := hall _ (List.getElem_mem hlt)
      exact ⟨h1, le_trans h3 h2⟩)
  obtain ⟨blocks, hb⟩ := Option.isSome_iff_exists.mp hsome
  obtain ⟨st1, sr, h⟩ : ∃ st1 sr, jointSolve E prior st = some (st1, sr) := by
    simp [jointSolve, hget, assembleProblem, hb]
  obtain ⟨hframe, haw, hps, hcons⟩ := jointSolve_spec E prior st st1 sr h
  refine ⟨st1, sr, h, hframe.2.1.trans hlen, ?_, by rw [hcons]; exact hcs, sr.params.length, ?_⟩
  · simp only [jointSolve, hget, assembleProblem, hb, Option.bind_eq_bind, Option.some_bind,
      Option.some.injEq, Prod.mk.injEq] at h
    obtain ⟨h1, -⟩ := h
    subst h1
    exact broadcastSolved_assemblable E L _ _ _ hall
  · intro p hp
    rw [hps] at hp
    rw [haw.2 p hp]

/-- One pass through the body of the joint optimization loop completes in a state that can
proceed, which it leaves able to proceed. -/
theorem jointRound_proceed (E : Externals) (L : ℕ) (hfit : FitterKeepsSizes E)
    (prior : MultilinearModelPrior) (n : ℕ) (opt : OptimizationParameters) (m it : ℕ)
    (st : State E) (hn : n ≠ 0) (hst : CanProceed n L st) :
    ∃ st1 r stop, jointRound E prior n opt m it st = some (st1, r, stop) ∧
      CanProceed n L st1 := by
  cases hfin : isFinalRound m it with
  | true =>
    have hst1 : CanProceed n L ({ st with consistent_set := List.range n } : State E) :=
      ⟨hst.1, hst.2.1, fun i hi => List.mem_range.mp hi, hst.2.2.2⟩
    obtain ⟨sta, refits, ha, hsta⟩ :=
      poseExpressionStage_proceed E L hfit opt n (List.range n) _ hst1
        (fun i hi => List.mem_range.mp hi)
    simp only [jointRound, hfin, if_true, ha, Option.bind_eq_bind, Option.some_bind]
    exact ⟨_, _, _, rfl, hsta⟩
  | false =>
    obtain ⟨sta, refits, ha, hsta⟩ :=
      poseExpressionStage_proceed E L hfit opt n st.consistent_set st hst hst.2.2.1
    obtain ⟨stb, sr, hb, hstb⟩ := jointSolve_proceed E L prior n sta hn hsta
    simp only [jointRound, hfin, Bool.false_eq_true, if_false, ha, hb, Option.bind_eq_bind,
      Option.some_bind]
    exact ⟨_, _, _, rfl, hstb⟩

/-- The joint optimization loop completes in a state that can proceed, which it leaves able to
proceed. -/
theorem jointLoop_proceed (E : Externals) (L : ℕ) (hfit : FitterKeepsSizes E)
    (prior : MultilinearModelPrior) (n : ℕ) (opt : OptimizationParameters) (m : ℕ)
    (hn : n ≠ 0) :
    ∀ (fuel it : ℕ) (st : State E), CanProceed n L st →
      it ≤ num_iters_joint_optimization m → num_iters_joint_optimization m + 1 ≤ fuel + it →
      ∃ st1 rs, jointLoop E prior n opt m fuel it st = some (st1, rs) ∧ CanProceed n L st1 := by
  intro fuel
  induction fuel with
  | zero =>
    intro it st hst hle hf
    omega
  | succ k ih =>
    intro it st hst hle hf
    by_cases hlt : it < num_iters_joint_optimization m
    · obtain ⟨sta, r, stop, ha, hsta⟩ := jointRound_proceed E L hfit prior n opt m it st hn hst
      cases hs : stop with
      | true =>
        subst hs
        exact ⟨sta, [r], by simp [jointLoop, hlt, ha], hsta⟩
      | false =>
        subst hs
        obtain ⟨stb, rs, hb, hstb⟩ := ih (it + 1) sta hsta (by omega) (by omega)
        exact ⟨stb, r :: rs, by simp [jointLoop, hlt, ha, hb], hstb⟩
    · exact ⟨st, [], by simp [jointLoop, hlt], hst⟩

/-- The matrix `identity_weights` can be filled when all identity vectors have its number of
rows. -/
theorem identityWeights_some {E : Externals} (rows : ℕ) :
    ∀ l : List (ParameterSet E), (∀ p ∈ l, p.model.Wid.length = rows) →
      ∃ iw, identityWeights rows l = some iw := by
  intro l
  induction l with
  | nil =>
    intro _
    exact ⟨[], rfl⟩
  | cons p rest ih =>
    intro h
    obtain ⟨iw, hiw⟩ := ih (fun q hq => h q (List.mem_cons_of_mem _ hq))
    exact ⟨p.model.Wid :: iw, by
      simp [identityWeights, h p (List.mem_cons_self _ _), hiw]⟩

/-- One pass through the body of the main loop completes in a state that can proceed, which it
leaves able to proceed, when `std::sort` meets its guarantees and the fitter keeps the sizes of
what it is given. -/
theorem macroIteration_proceed (E : Externals) (L : ℕ) (hsort : StdSortSpec E.sort)
    (hfit : FitterKeepsSizes E)
    (prior : MultilinearModelPrior) (n m : ℕ) (st : State E) (hn : n ≠ 0)
    (hm : m = 1 ∨ m = 2 ∨ m = 3) (hst : CanProceed n L st) :
    ∃ st1 r, macroIteration E prior n m st = some (st1, r) ∧ CanProceed n L st1 := by
  obtain ⟨sta, fits, ha, hsta⟩ :=
    singleViewStage_proceed E L hfit m (optParams E m) n (List.range n) st hst
      (fun i hi => List.mem_range.mp hi)
  obtain ⟨hlen, hall, -, d, hwall⟩ := hsta
  have hpos : 0 < sta.param_sets.length := by omega
  have hget0 : sta.param_sets[0]? = some sta.param_sets[0] := List.getElem?_eq_getElem hpos
  have hne : sta.param_sets ≠ [] := by
    intro h0
    rw [h0] at hpos
    exact absurd hpos (by simp)
  have hd0 : (sta.param_sets[0]).model.Wid.length = d := hwall _ (List.getElem_mem hpos)
  have htake : sta.param_sets.take n = sta.param_sets := by
    rw [← hlen]
    exact List.take_length _
  obtain ⟨iw, hiw⟩ := identityWeights_some (sta.param_sets[0]).model.Wid.length
    sta.param_sets (fun p hp => by rw [hwall p hp, hd0])
  have hsel := select_eq E.sort hsort sta.param_sets hne m hm
  obtain ⟨hperm, -⟩ := sorted_order E.sort hsort sta.param_sets
  have hcsv : ∀ i ∈ ((E.sort (errorsOf sta.param_sets)).map Prod.fst).take
      (takenCount m sta.param_sets.length), i < n := by
    intro i hi
    rw [← hlen]
    exact List.mem_range.mp (hperm.subset (List.mem_of_mem_take hi))
  have hwidOf : ∀ i, i < sta.param_sets.length → (widOf sta.param_sets i).length = d := by
    intro i hi
    rw [widOf_of_getElem? _ _ _ (List.getElem?_eq_getElem hi)]
    exact hwall _ (List.getElem_mem hi)
  obtain ⟨c, hcen, -, -⟩ := identityCentroid_spec sta.param_sets
    (((E.sort (errorsOf sta.param_sets)).map Prod.fst).take (takenCount m sta.param_sets.length))
    (select_ne_nil E.sort m sta.param_sets _ hsel) d (hwidOf 0 hpos)
    (fun i hi => ⟨by rw [hlen]; exact hcsv i hi, hwidOf i (by rw [hlen]; exact hcsv i hi)⟩)
  obtain ⟨stb, rounds, hb, hstb⟩ := jointLoop_proceed E L hfit prior n (optParams E m) m hn
    (num_iters_joint_optimization m + 1) 0
    { sta with
      identity_weights_history := sta.identity_weights_history ++ [iw]
      consistent_set := ((E.sort (errorsOf sta.param_sets)).map Prod.fst).take
        (takenCount m sta.param_sets.length)
      identity_centroid := c
      param_sets := broadcastCentroid sta.param_sets c }
    ⟨by simpa [broadcastCentroid] using hlen, broadcastCentroid_assemblable L _ _ hall, hcsv,
      c.length, fun p hp => by rw [(broadcastCentroid_spec sta.param_sets c).1.2 p hp]⟩
    (by omega) (by omega)
  simp only [macroIteration, ha, hget0, htake, hiw, hsel, hcen, hb, Option.bind_eq_bind,
    Option.some_bind]
  exact ⟨_, _, rfl, hstb⟩

/-- The state in which the main loop is entered can proceed when every image has at least 35
constraints and at least as many constraints as there are initial landmark indices. -/
theorem initialState_canProceed (E : Externals) (self : MultiImageReconstructor E)
    (hcons : ∀ pair ∈ self.image_points_pairs,
      35 ≤ pair.2.length ∧ self.init_indices.length ≤ pair.2.length) :
    CanProceed self.image_points_pairs.length self.init_indices.length (initialState E self) := by
  refine ⟨initialState_length E self, ?_, ?_,
    (E.ModelDefaultParameters self.prior.Uid self.prior.Uexp).Wid.length, ?_⟩
  · intro p hp
    simp only [initialState, List.mem_map] at hp
    obtain ⟨po, hpo, rfl⟩ := hp
    obtain ⟨h1, h2⟩ := hcons po.1 (List.of_mem_zip hpo).1
    cases po.2 with
    | none => exact ⟨h1, h2, le_refl _⟩
    | some before => exact ⟨h1, h2, le_refl _⟩
  · intro i hi
    simp only [initialState, List.mem_range] at hi
    exact hi
  · intro p hp
    simp only [initialState, List.mem_map] at hp
    obtain ⟨po, -, rfl⟩ := hp
    cases po.2 with
    | none => rfl
    | some before => rfl

/-- The computation of a run completes and returns `true` when there is an image, every image
has at least 35 constraints and at least as many as there are initial landmark indices,
`std::sort` meets its guarantees, and the fitter keeps the sizes of what it is given. -/
theorem Reconstruct_completes (E : Externals) (self : MultiImageReconstructor E)
    (hsort : StdSortSpec E.sort) (hN : self.image_points_pairs ≠ [])
    (hcons : ∀ pair ∈ self.image_points_pairs,
      35 ≤ pair.2.length ∧ self.init_indices.length ≤ pair.2.length)
    (hfit : FitterKeepsSizes E) :
    ∃ out, Reconstruct E self = some out ∧ out.returned = true := by
  have hn : self.image_points_pairs.length ≠ 0 := by
    intro h0
    exact hN (List.length_eq_zero.mp h0)
  have h0 := initialState_canProceed E self hcons
  obtain ⟨st1, r1, hm1, hs1⟩ := macroIteration_proceed E _ hsort hfit self.prior _ 1 _ hn
    (Or.inl rfl) h0
  obtain ⟨st2, r2, hm2, hs2⟩ := macroIteration_proceed E _ hsort hfit self.prior _ 2 _ hn
    (Or.inr (Or.inl rfl)) hs1
  obtain ⟨st3, r3, hm3, -⟩ := macroIteration_proceed E _ hsort hfit self.prior _ 3 _ hn
    (Or.inr (Or.inr rfl)) hs2
  exact ⟨_, (Reconstruct_steps E self _).mpr ⟨hn, st1, st2, st3, r1, r2, r3, hm1, hm2, hm3, rfl⟩,
    rfl⟩

/-- A run with its output returns what its computation returns when none of the output calls
of the run throws. -/
theorem ReconstructWithOutput_of_quiet (E : Externals) (throws : OutputCall → Bool)
    (self : MultiImageReconstructor E) (out : RunResult E) (h : Reconstruct E self = some out)
    (hquiet : ∀ c ∈ outputCalls out, throws c = false) :
    ReconstructWithOutput E throws self = some out := by
  have hany : (outputCalls out).any throws = false := by
    rw [List.any_eq_false]
    intro c hc
    simp [hquiet c hc]
  simp only [ReconstructWithOutput, h, Option.some_bind, hany, Bool.false_eq_true, if_false]

/-- A run with its output that returns is a run whose computation returns the same. -/
theorem Reconstruct_of_ReconstructWithOutput (E : Externals) (throws : OutputCall → Bool)
    (self : MultiImageReconstructor E) (out : RunResult E)
    (h : ReconstructWithOutput E throws self = some out) : Reconstruct E self = some out := by
  unfold ReconstructWithOutput at h
  cases hr : Reconstruct E self with
  | none => simp [hr] at h
  | some out1 =>
    rw [hr] at h
    simp only [Option.some_bind] at h
    split at h
    · exact absurd h (by simp)
    · exact h

/-- The sample fitter keeps the sizes of what it is given. -/
theorem sampleExternals_keeps_sizes (sort : List (ℕ × ℚ) → List (ℕ × ℚ)) :
    FitterKeepsSizes (sampleExternals sort) := by
  intro p g opt hg
  obtain ⟨f, rfl | ⟨v, rfl⟩ | rfl⟩ := hg
  · cases hmode : f.mode <;>
      simp [sampleExternals, setInputs, SampleFitter.reconstruct, hmode]
  · cases hmode : f.mode <;>
      simp [sampleExternals, setInputs, SampleFitter.reconstruct, hmode]
  · simp [sampleExternals, setInputs, SampleFitter.reconstruct]

/-- The shape of every run that returns: 3 passes through the body of the main loop with the
rounds 0 to 2, 0 to 2 and 0 to 3, a joint solve in every round but the last one, a centroid
history of the 9 solved vectors and 3 matrices with one column per image in the history of the
identity weights. -/
theorem Reconstruct_counts (E : Externals) (self : MultiImageReconstructor E)
    (out : RunResult E) (h : Reconstruct E self = some out) :
    out.returned = true ∧
    (∃ r1 r2 r3,
      out.macro_iterations = [r1, r2, r3] ∧
      [r1.iters_main_loop, r2.iters_main_loop, r3.iters_main_loop] = [1, 2, 3] ∧
      r1.rounds.map (fun x => (x.iters_joint_optimization, x.solve.isSome)) =
        [(0, true), (1, true), (2, true)] ∧
      r2.rounds.map (fun x => (x.iters_joint_optimization, x.solve.isSome)) =
        [(0, true), (1, true), (2, true)] ∧
      r3.rounds.map (fun x => (x.iters_joint_optimization, x.solve.isSome)) =
        [(0, true), (1, true), (2, true), (3, false)] ∧
      out.identity_weights_centroid_history =
        solvedParams (r1.rounds ++ r2.rounds ++ r3.rounds) ∧
      out.identity_weights_history =
        [r1.param_sets_after_single_view.map (fun p => p.model.Wid),
         r2.param_sets_after_single_view.map (fun p => p.model.Wid),
         r3.param_sets_after_single_view.map (fun p => p.model.Wid)]) ∧
    out.identity_weights_centroid_history.length = 9 ∧
    out.identity_weights_history.length = 3 ∧
    (∀ M ∈ out.identity_weights_history, M.length = self.image_points_pairs.length) := by
  obtain ⟨hn, st1, st2, st3, r1, r2, r3, hm1, hm2, hm3, hout⟩ :=
    (Reconstruct_steps E self out).mp h
  have g1 := macroIteration_spec E self.prior _ 1 _ _ _ (initialState_length E self) hm1
  have g2 := macroIteration_spec E self.prior _ 2 _ _ _ g1.length_end hm2
  have g3 := macroIteration_spec E self.prior _ 3 _ _ _ g2.length_end hm3
  obtain ⟨hi1, hc1⟩ := macroIteration_history E self.prior _ 1 _ _ _
    (initialState_length E self) hm1
  obtain ⟨hi2, hc2⟩ := macroIteration_history E self.prior _ 2 _ _ _ g1.length_end hm2
  obtain ⟨hi3, hc3⟩ := macroIteration_history E self.prior _ 3 _ _ _ g2.length_end hm3
  obtain ⟨hs1, hl1⟩ := g1.rounds_before_last (by decide)
  obtain ⟨hs2, hl2⟩ := g2.rounds_before_last (by decide)
  obtain ⟨hs3, hl3⟩ := g3.rounds_last
  have hcent : st3.identity_weights_centroid_history =
      solvedParams (r1.rounds ++ r2.rounds ++ r3.rounds) := by
    rw [hc3, hc2, hc1]
    simp [solvedParams, initialState, List.filterMap_append]
  have hid : st3.identity_weights_history =
      [r1.param_sets_after_single_view.map (fun p => p.model.Wid),
       r2.param_sets_after_single_view.map (fun p => p.model.Wid),
       r3.param_sets_after_single_view.map (fun p => p.model.Wid)] := by
    rw [hi3, hi2, hi1]
    simp [initialState]
  subst hout
  refine ⟨rfl, ⟨r1, r2, r3, rfl, by rw [g1.counter, g2.counter, g3.counter], hs1, hs2, hs3,
    hcent, hid⟩, ?_, ?_, ?_⟩
  · show st3.identity_weights_centroid_history.length = 9
    rw [hcent]
    simp only [solvedParams, List.filterMap_append, List.length_append] at hl1 hl2 hl3 ⊢
    omega
  · show st3.identity_weights_history.length = 3
    rw [hid]
    rfl
  · intro M hM
    change M ∈ st3.identity_weights_history at hM
    rw [hid] at hM
    simp only [List.mem_cons, List.mem_singleton, List.not_mem_nil, or_false] at hM
    rcases hM with e | e | e <;> subst e <;> rw [List.length_map]
    · exact g1.length_single_view
    · exact g2.length_single_view
    · exact g3.length_single_view

/-! ## Claim C11 -/

/-- C11, as stated, fails: `Reconstruct` validates nothing, has out-of-range accesses, and
leaves an exception of its output calls uncaught.
(1) Two images with two landmark constraints each and two initial landmark indices, with the
sample fitter, which returns the indices and the number of identity weights it was given: the
pupil distance reads `cons[28]` (line 388), and the run does not return.
(2) Two images with 35 constraints and 35 initial indices and a fitter that returns one index
more than it was given: the per-vertex loop reads `cons[j]` beyond the constraints (line 395);
with the sample fitter the same images are processed.
(3) The same images and a fitter whose identity vectors differ in their number of rows: the
column assignment of line 256 does not fit.
(4) The same images and the sample fitter, on a file system on which `multi_recon` cannot be
created: `safe_create` throws (line 169) and `Reconstruct` does not return. -/
theorem C11_counterexample :
    (twoLandmarkImages.image_points_pairs ≠ [] ∧
      (∀ pair ∈ twoLandmarkImages.image_points_pairs,
        pair.2.length = twoLandmarkImages.init_indices.length) ∧
      FitterKeepsSizes (sampleExternals stableSort) ∧
      (Reconstruct (sampleExternals stableSort) twoLandmarkImages).isSome = false ∧
      (ReconstructWithOutput (sampleExternals stableSort) quiet twoLandmarkImages).isSome =
        false) ∧
    ((∀ pair ∈ twoImagesLonger.image_points_pairs,
        pair.2.length = twoImagesLonger.init_indices.length) ∧
      (Reconstruct longerIndicesExternals twoImagesLonger).isSome = false ∧
      (Reconstruct (sampleExternals stableSort) twoImages).isSome = true) ∧
    (Reconstruct growingWidExternals twoImagesGrowing).isSome = false ∧
    ((ReconstructWithOutput (sampleExternals stableSort) readOnly twoImages).isSome = false ∧
      (ReconstructWithOutput (sampleExternals stableSort) quiet twoImages).isSome = true) := by
  refine ⟨⟨?_, ?_, sampleExternals_keeps_sizes stableSort, ?_, ?_⟩, ⟨?_, ?_, ?_⟩, ?_, ?_, ?_⟩ <;>
    decide!

/-- C11, amended: `Reconstruct` completes its fixed iteration budget without an out-of-range
access and returns true for every non-empty image set in which each image has as many landmark
constraints as there are initial landmark indices, provided there are at least 35 of them, the
fitter keeps the sizes of what it is given (after a fit it returns no more landmark indices and
as many identity weights as the parameter set of the image held), `std::sort` meets the
guarantees of the standard, and none of the calls that write to the file system or render
throws; the solver may return anything. -/
theorem C11_completes_with_35_landmarks (E : Externals) (self : MultiImageReconstructor E)
    (throws : OutputCall → Bool) (hsort : StdSortSpec E.sort)
    (hN : self.image_points_pairs ≠ [])
    (hcons : ∀ pair ∈ self.image_points_pairs, pair.2.length = self.init_indices.length)
    (h35 : 35 ≤ self.init_indices.length)
    (hfit : FitterKeepsSizes E)
    (hquiet : ∀ out, Reconstruct E self = some out → ∀ c ∈ outputCalls out, throws c = false) :
    ∃ out, ReconstructWithOutput E throws self = some out ∧ Reconstruct E self = some out ∧
      out.returned = true ∧ out.macro_iterations.length = 3 := by
  obtain ⟨out, hout, hret⟩ := Reconstruct_completes E self hsort hN
    (fun pair hp => by rw [hcons pair hp]; exact ⟨h35, le_refl _⟩) hfit
  obtain ⟨-, _, _, _, r1, r2, r3, -, -, -, hrec, -⟩ := Reconstruct_spec E self out hout
  exact ⟨out, ReconstructWithOutput_of_quiet E throws self out hout (hquiet out hout), hout,
    hret, by rw [hrec]; rfl⟩

/-- Witness of the amended C11: two images with 35 landmark constraints each, 35 initial
landmark indices, the sample fitter and a file system on which no call throws. -/
theorem C11_witness :
    StdSortSpec (sampleExternals stableSort).sort ∧
    twoImages.image_points_pairs ≠ [] ∧
    (∀ pair ∈ twoImages.image_points_pairs, pair.2.length = twoImages.init_indices.length) ∧
    35 ≤ twoImages.init_indices.length ∧
    FitterKeepsSizes (sampleExternals stableSort) ∧
    (∀ out, Reconstruct (sampleExternals stableSort) twoImages = some out →
      ∀ c ∈ outputCalls out, quiet c = false) ∧
    ∃ out, ReconstructWithOutput (sampleExternals stableSort) quiet twoImages = some out ∧
      Reconstruct (sampleExternals stableSort) twoImages = some out ∧
      out.returned = true ∧ out.macro_iterations.length = 3 :=
  ⟨stableSort_spec, by decide, by decide, by decide, sampleExternals_keeps_sizes stableSort,
    fun _ _ _ _ => rfl,
    C11_completes_with_35_landmarks (sampleExternals stableSort) twoImages quiet stableSort_spec
      (by decide) (by decide) (by decide) (sampleExternals_keeps_sizes stableSort)
      (fun _ _ _ _ => rfl)⟩

/-! ## Claim C12 -/

/-- C12, as stated, fails: not every non-empty image set has a run that returns.  (1) For one
image with 34 landmark constraints and 34 initial landmark indices, the single image
reconstruction step of macro-iteration 1 completes, the first joint identity solve reads
`cons[34]` (line 389), and there is no return on which the histories could be counted.  (2) For
two images with 35 landmark constraints each, on a file system on which the directory `step2`
cannot be created, `safe_create` throws in macro-iteration 2 (line 215) and `Reconstruct` does
not return; without that failure it returns after 9 joint solves. -/
theorem C12_counterexample :
    (shortImage.image_points_pairs ≠ [] ∧
      (singleViewStage (sampleExternals stableSort) 1 (optParams (sampleExternals stableSort) 1)
        [0] (initialState (sampleExternals stableSort) shortImage)).isSome = true ∧
      (macroIteration (sampleExternals stableSort) shortImage.prior 1 1
        (initialState (sampleExternals stableSort) shortImage)).isSome = false ∧
      (Reconstruct (sampleExternals stableSort) shortImage).isSome = false ∧
      ∀ throws, ReconstructWithOutput (sampleExternals stableSort) throws shortImage = none) ∧
    (twoImages.image_points_pairs ≠ [] ∧
      (ReconstructWithOutput (sampleExternals stableSort) fullAtStep2 twoImages).isSome = false ∧
      (ReconstructWithOutput (sampleExternals stableSort) quiet twoImages).map
        (fun out => out.identity_weights_centroid_history.length) = some 9) := by
  have hs : (Reconstruct (sampleExternals stableSort) shortImage).isSome = false := by decide!
  have h : Reconstruct (sampleExternals stableSort) shortImage = none :=
    Option.not_isSome_iff_eq_none.mp (by rw [hs]; decide)
  refine ⟨⟨by decide, by decide!, by decide!, by rw [h]; rfl, ?_⟩, by decide, by decide!,
    by decide!⟩
  intro throws
  simp [ReconstructWithOutput, h]

/-- C12, amended: for every non-empty image set, a run of `Reconstruct` that returns has made
exactly 3 passes through the body of the main loop, with 3, 3 and 4 joint optimization rounds;
every round has a joint identity solve except round 3 of macro-iteration 3, which makes 9
solves; on return the centroid history holds the 9 solved vectors, and the history of the
identity weights holds 3 matrices with one column per image.  None of this depends on the images
or on what the fitter and the solver return.  Neither loop ever stops for lack of budget: the
main loop and the joint optimization loop give the same result with any larger number of
evaluations of their conditions.  The run does return whenever every image has at least 35
landmark constraints and at least as many as there are initial landmark indices, the fitter
keeps the sizes of what it is given, `std::sort` meets its guarantees, and none of the output
calls of the run throws. -/
theorem C12_three_passes_nine_solves (E : Externals) (self : MultiImageReconstructor E)
    (throws : OutputCall → Bool) (hN : self.image_points_pairs ≠ []) :
    (∀ out, ReconstructWithOutput E throws self = some out →
      out.returned = true ∧
      (∃ r1 r2 r3,
        out.macro_iterations = [r1, r2, r3] ∧
        [r1.iters_main_loop, r2.iters_main_loop, r3.iters_main_loop] = [1, 2, 3] ∧
        r1.rounds.map (fun x => (x.iters_joint_optimization, x.solve.isSome)) =
          [(0, true), (1, true), (2, true)] ∧
        r2.rounds.map (fun x => (x.iters_joint_optimization, x.solve.isSome)) =
          [(0, true), (1, true), (2, true)] ∧
        r3.rounds.map (fun x => (x.iters_joint_optimization, x.solve.isSome)) =
          [(0, true), (1, true), (2, true), (3, false)] ∧
        out.identity_weights_centroid_history =
          solvedParams (r1.rounds ++ r2.rounds ++ r3.rounds) ∧
        out.identity_weights_history =
          [r1.param_sets_after_single_view.map (fun p => p.model.Wid),
           r2.param_sets_after_single_view.map (fun p => p.model.Wid),
           r3.param_sets_after_single_view.map (fun p => p.model.Wid)]) ∧
      out.identity_weights_centroid_history.length = 9 ∧
      out.identity_weights_history.length = 3 ∧
      (∀ M ∈ out.identity_weights_history, M.length = self.image_points_pairs.length)) ∧
    (∀ extra, mainLoop E self.prior self.image_points_pairs.length (4 + extra) 0
        (initialState E self) =
      mainLoop E self.prior self.image_points_pairs.length 4 0
        (initialState E self)) ∧
    (∀ (opt : OptimizationParameters) (m : ℕ) (st : State E) (extra : ℕ),
      jointLoop E self.prior self.image_points_pairs.length opt m
          (num_iters_joint_optimization m + 1 + extra) 0 st =
        jointLoop E self.prior self.image_points_pairs.length opt m
          (num_iters_joint_optimization m + 1) 0 st) ∧
    (StdSortSpec E.sort →
      (∀ pair ∈ self.image_points_pairs,
        35 ≤ pair.2.length ∧ self.init_indices.length ≤ pair.2.length) →
      FitterKeepsSizes E →
      (∀ out, Reconstruct E self = some out → ∀ c ∈ outputCalls out, throws c = false) →
      ∃ out, ReconstructWithOutput E throws self = some out) := by
  refine ⟨fun out h => Reconstruct_counts E self out
    (Reconstruct_of_ReconstructWithOutput E throws self out h), ?_, ?_, ?_⟩
  · intro extra
    exact mainLoop_budget E self.prior _ (4 + extra) 0 _ (by omega) (by omega)
  · intro opt m st extra
    exact jointLoop_budget E self.prior _ opt m _ 0 st (by omega) (by omega)
  · intro hsort hcons hfit hquiet
    obtain ⟨out, hout, -⟩ := Reconstruct_completes E self hsort hN hcons hfit
    exact ⟨out, ReconstructWithOutput_of_quiet E throws self out hout (hquiet out hout)⟩

/-- Witness of the amended C12: two images with 35 landmark constraints each, the sample fitter
and a file system on which no call throws; the run returns with 9 solved vectors, 3 matrices of
2 columns, and 3, 3 and 4 rounds. -/
theorem C12_witness :
    twoImages.image_points_pairs ≠ [] ∧
    (ReconstructWithOutput (sampleExternals stableSort) quiet twoImages).isSome = true ∧
    ((ReconstructWithOutput (sampleExternals stableSort) quiet twoImages).map
        fun out => (out.identity_weights_centroid_history.length,
          out.identity_weights_history.map List.length,
          out.macro_iterations.map fun r => r.rounds.length)) = some (9, [2, 2, 2], [3, 3, 4]) ∧
    (∀ out, ReconstructWithOutput (sampleExternals stableSort) quiet twoImages = some out →
      out.returned = true ∧
      (∃ r1 r2 r3,
        out.macro_iterations = [r1, r2, r3] ∧
        [r1.iters_main_loop, r2.iters_main_loop, r3.iters_main_loop] = [1, 2, 3] ∧
        r1.rounds.map (fun x => (x.iters_joint_optimization, x.solve.isSome)) =
          [(0, true), (1, true), (2, true)] ∧
        r2.rounds.map (fun x => (x.iters_joint_optimization, x.solve.isSome)) =
          [(0, true), (1, true), (2, true)] ∧
        r3.rounds.map (fun x => (x.iters_joint_optimization, x.solve.isSome)) =
          [(0, true), (1, true), (2, true), (3, false)] ∧
        out.identity_weights_centroid_history =
          solvedParams (r1.rounds ++ r2.rounds ++ r3.rounds) ∧
        out.identity_weights_history =
          [r1.param_sets_after_single_view.map (fun p => p.model.Wid),
           r2.param_sets_after_single_view.map (fun p => p.model.Wid),
           r3.param_sets_after_single_view.map (fun p => p.model.Wid)]) ∧
      out.identity_weights_centroid_history.length = 9 ∧
      out.identity_weights_history.length = 3 ∧
      (∀ M ∈ out.identity_weights_history, M.length = twoImages.image_points_pairs.length)) ∧
    (∀ extra,
      mainLoop (sampleExternals stableSort) twoImages.prior twoImages.image_points_pairs.length
          (4 + extra) 0 (initialState (sampleExternals stableSort) twoImages) =
        mainLoop (sampleExternals stableSort) twoImages.prior twoImages.image_points_pairs.length
          4 0 (initialState (sampleExternals stableSort) twoImages)) ∧
    (∀ (opt : OptimizationParameters) (m : ℕ) (st : State (sampleExternals stableSort))
        (extra : ℕ),
      jointLoop (sampleExternals stableSort) twoImages.prior twoImages.image_points_pairs.length
          opt m (num_iters_joint_optimization m + 1 + extra) 0 st =
        jointLoop (sampleExternals stableSort) twoImages.prior twoImages.image_points_pairs.length
          opt m (num_iters_joint_optimization m + 1) 0 st) ∧
    (StdSortSpec (sampleExternals stableSort).sort →
      (∀ pair ∈ twoImages.image_points_pairs,
        35 ≤ pair.2.length ∧ twoImages.init_indices.length ≤ pair.2.length) →
      FitterKeepsSizes (sampleExternals stableSort) →
      (∀ out, Reconstruct (sampleExternals stableSort) twoImages = some out →
        ∀ c ∈ outputCalls out, quiet c = false) →
      ∃ out, ReconstructWithOutput (sampleExternals stableSort) quiet twoImages = some out) :=
  ⟨by decide, by decide!, by decide!,
    C12_three_passes_nine_solves (sampleExternals stableSort) twoImages quiet (by decide)⟩

/-! ## Claim C13 -/

/-- C14: in every run of `Reconstruct`, no fit of the single image reconstruction step sets
the optimization mode of the fitter, and every fit of the joint optimization loop sets it to
`Pose | Expression | FocalLength`, which does not contain the identity group; nothing sets it
to any other value.  Hence, for a mode flag that only `SetOptimizationMode` changes (in
particular, the fitter's `Reconstruct` leaves it), the fits of the single image reconstruction
step of macro-iteration 1 run with the mode the fitter had when `Reconstruct` was called, and
those of macro-iterations 2 and 3 run with `Pose | Expression | FocalLength`. -/
theorem C14_single_view_fits_inherit_joint_mode (E : Externals)
    (mode : E.Fitter → OptimizationMode) (hmode : ModeFlag E mode)
    (self : MultiImageReconstructor E) (out : RunResult E)
    (h : Reconstruct E self = some out) :
    jointMode = ⟨true, true, true, false⟩ ∧
    ∃ r1 r2 r3,
      out.macro_iterations = [r1, r2, r3] ∧
      (∀ r ∈ out.macro_iterations,
        r.single_view.map (fun f => f.image) = List.range self.image_points_pairs.length ∧
        (∀ f ∈ r.single_view, f.optimization_mode = none) ∧
        ∀ x ∈ r.rounds, ∀ f ∈ x.refits,
          f.optimization_mode = some jointMode ∧ mode f.fitter_before = jointMode) ∧
      (∀ f ∈ r1.single_view, mode f.fitter_before = mode self.single_recon) ∧
      (∀ f ∈ r2.single_view, mode f.fitter_before = jointMode) ∧
      (∀ f ∈ r3.single_view, mode f.fitter_before = jointMode) := by
  obtain ⟨hn, st1, st2, st3, r1, r2, r3, hm1, hm2, hm3, hout⟩ :=
    (Reconstruct_steps E self out).mp h
  obtain ⟨-, _, _, _, q1, q2, q3, g1, g2, g3, hrec, -⟩ := Reconstruct_spec E self out h
  have hq : [q1, q2, q3] = [r1, r2, r3] := by rw [← hrec, hout]
  simp only [List.cons.injEq, and_true] at hq
  obtain ⟨e1, e2, e3⟩ := hq
  subst e1 e2 e3
  obtain ⟨a1, b1, c1⟩ := macroIteration_mode E mode hmode self.prior _ 1 _ _ _ hn hm1
  obtain ⟨a2, b2, c2⟩ := macroIteration_mode E mode hmode self.prior _ 2 _ _ _ hn hm2
  obtain ⟨a3, b3, c3⟩ := macroIteration_mode E mode hmode self.prior _ 3 _ _ _ hn hm3
  refine ⟨rfl, q1, q2, q3, hrec, ?_, ?_, ?_, ?_⟩
  · intro r hr
    rw [hrec] at hr
    simp only [List.mem_cons, List.mem_singleton, List.not_mem_nil, or_false] at hr
    rcases hr with e | e | e <;> subst e
    · exact ⟨g1.fit_images, fun f hf => (b1 f hf).2,
        fun x hx f hf => ⟨(c1 x hx f hf).2, (c1 x hx f hf).1⟩⟩
    · exact ⟨g2.fit_images, fun f hf => (b2 f hf).2,
        fun x hx f hf => ⟨(c2 x hx f hf).2, (c2 x hx f hf).1⟩⟩
    · exact ⟨g3.fit_images, fun f hf => (b3 f hf).2,
        fun x hx f hf => ⟨(c3 x hx f hf).2, (c3 x hx f hf).1⟩⟩
  · intro f hf
    exact (b1 f hf).1
  · intro f hf
    rw [(b2 f hf).1, a1]
  · intro f hf
    rw [(b3 f hf).1, a2]

/-- Witness of C14: the run of the sample reconstructor with two images, whose fitter starts
with all parameter groups free. -/
theorem C14_witness :
    ModeFlag (sampleExternals stableSort) sampleMode ∧
    sampleMode (sampleReconstructor stableSort 2).single_recon = ⟨true, true, true, true⟩ ∧
    ∃ out, Reconstruct (sampleExternals stableSort) (sampleReconstructor stableSort 2) = some out ∧
      jointMode = ⟨true, true, true, false⟩ ∧
      ∃ r1 r2 r3,
        out.macro_iterations = [r1, r2, r3] ∧
        (∀ r ∈ out.macro_iterations,
          r.single_view.map (fun f => f.image) =
            List.range (sampleReconstructor stableSort 2).image_points_pairs.length ∧
          (∀ f ∈ r.single_view, f.optimization_mode = none) ∧
          ∀ x ∈ r.rounds, ∀ f ∈ x.refits,
            f.optimization_mode = some jointMode ∧ sampleMode f.fitter_before = jointMode) ∧
        (∀ f ∈ r1.single_view,
          sampleMode f.fitter_before =
            sampleMode (sampleReconstructor stableSort 2).single_recon) ∧
        (∀ f ∈ r2.single_view, sampleMode f.fitter_before = jointMode) ∧
        (∀ f ∈ r3.single_view, sampleMode f.fitter_before = jointMode) :=
  have hs : (Reconstruct (sampleExternals stableSort)
      (sampleReconstructor stableSort 2)).isSome = true := by decide!
  ⟨sampleMode_flag stableSort, rfl, _, (Option.some_get hs).symm,
    C14_single_view_fits_inherit_joint_mode (sampleExternals stableSort) sampleMode
      (sampleMode_flag stableSort) (sampleReconstructor stableSort 2) _
      (Option.some_get hs).symm⟩

/-! ## Claim C15 -/

/-- C15: during the assembly of a joint identity solve the code reads, for an image of the
consistent set, its constraints at the positions 28, 30, 32 and 34 and at every position below
the number of its landmark indices.  For one image these accesses are all in range if and only
if the image has at least 35 constraints and its landmark index list is no longer than its
constraint list, and the body of the assembly loop completes exactly in that case; for a
consistent set of existing images the whole assembly completes without an out-of-range access
if and only if every image of the set meets this condition. -/
theorem C15_assembly_accesses_in_range (E : Externals) (model : E.MultilinearModel)
    (prior : MultilinearModelPrior) (param_sets : List (ParameterSet E)) (C : List ℕ)
    (params : VectorXd) (hC : ∀ i ∈ C, i < param_sets.length) :
    (∀ p : ParameterSet E,
      accessedPositions p = [28, 30, 32, 34] ++ List.range p.indices.length ∧
      ((∀ k ∈ accessedPositions p, (p.recon.cons[k]?).isSome = true) ↔
        35 ≤ p.recon.cons.length ∧ p.indices.length ≤ p.recon.cons.length) ∧
      ((imageBlocks E model params.length p).isSome = true ↔
        35 ≤ p.recon.cons.length ∧ p.indices.length ≤ p.recon.cons.length)) ∧
    ((assembleProblem E model prior param_sets C params).isSome = true ↔
      ∀ i ∈ C, 35 ≤ (consOf param_sets i).length ∧
        (indicesOf param_sets i).length ≤ (consOf param_sets i).length) := by
  constructor
  · intro p
    refine ⟨rfl, ?_, ?_⟩
    · rw [← accessedPositions_in_range]
      constructor
      · intro h k hk
        obtain ⟨c, hc⟩ := Option.isSome_iff_exists.mp (h k hk)
        exact (List.getElem?_eq_some.mp hc).1
      · intro h k hk
        rw [List.getElem?_eq_getElem (h k hk)]
        rfl
    · rw [← accessedPositions_in_range]
      exact (imageBlocks_spec E model params.length p).1
  · rw [← (assembleImages_spec E model params.length param_sets C hC).1]
    simp only [assembleProblem, Option.bind_eq_bind]
    cases assembleImages E model params.length param_sets C <;> simp

/-- Witness of C15: the consistent set `[2, 0]` of the four sample images. -/
theorem C15_witness :
    (∀ i ∈ [2, 0], i < (fourImages stableSort).length) ∧
    ((∀ p : ParameterSet (sampleExternals stableSort),
      accessedPositions p = [28, 30, 32, 34] ++ List.range p.indices.length ∧
      ((∀ k ∈ accessedPositions p, (p.recon.cons[k]?).isSome = true) ↔
        35 ≤ p.recon.cons.length ∧ p.indices.length ≤ p.recon.cons.length) ∧
      ((imageBlocks (sampleExternals stableSort) () ([1, 2] : VectorXd).length p).isSome = true ↔
        35 ≤ p.recon.cons.length ∧ p.indices.length ≤ p.recon.cons.length)) ∧
    ((assembleProblem (sampleExternals stableSort) ()
        { Uid := [], Uexp := [], Wid_avg := [0, 0], inv_sigma_Wid := [], weight_Wid := 1 }
        (fourImages stableSort) [2, 0] [1, 2]).isSome = true ↔
      ∀ i ∈ [2, 0], 35 ≤ (consOf (fourImages stableSort) i).length ∧
        (indicesOf (fourImages stableSort) i).length ≤
          (consOf (fourImages stableSort) i).length)) :=
  have hC : ∀ i ∈ [2, 0], i < (fourImages stableSort).length := by decide
  ⟨hC, C15_assembly_accesses_in_range (sampleExternals stableSort) ()
    { Uid := [], Uexp := [], Wid_avg := [0, 0], inv_sigma_Wid := [], weight_Wid := 1 }
    (fourImages stableSort) [2, 0] [1, 2] hC⟩

end MultilinearReconstruction
